import Mathlib

/-!
MathCards: the flashcard generator of tuxmath (`src/mathcards.c`)

A shallow embedding of the question generator and the shuffler of
`mathcards.c`, with the properties of the specification proved about it.

Modelling conventions

* A C `int` is a Lean `Int`.  Every option that takes part in arithmetic is
  stored through `sane_value`, which keeps it within `MC_GLOBAL_MAX` in
  magnitude, so the sums, differences and products formed by the generator
  stay far inside the range of a machine `int`.
* An option used as a truth value (`if (math_opts->addition_allowed)`) is an
  `Int` tested against `0`, as in C.
* A linked list of `MC_MathQuestion` nodes is the `List` of the cards that
  its nodes hold, in `next` order.  A pointer to a node of a list is the
  zero-based position of that node (`some k`), the null pointer is `none`.
* `rand()` is a stream `rand : Nat → Nat`; `rand k` is the value returned
  by the call number `k`, and the code that draws threads the call count.
-/

namespace MathCards

/-! ## Data model -/

/-- The four operation codes `MC_OPER_ADD` .. `MC_OPER_DIV`. -/
inductive MC_Operation where
  | MC_OPER_ADD
  | MC_OPER_SUB
  | MC_OPER_MULT
  | MC_OPER_DIV
  deriving DecidableEq, Repr

/-- The three format codes: which term of the equation is the unknown. -/
inductive MC_Format where
  | MC_FORMAT_ANS_LAST
  | MC_FORMAT_ANS_FIRST
  | MC_FORMAT_ANS_MIDDLE
  deriving DecidableEq, Repr

open MC_Operation MC_Format

/-- The card of a node: `num1 op num2 = num3` shown in format `format`. -/
structure MC_FlashCard where
  num1 : Int
  num2 : Int
  num3 : Int
  operation : MC_Operation
  format : MC_Format
  deriving DecidableEq, Repr

/-- The options struct `MC_Options` that `math_opts` points to. -/
structure MC_Options where
  play_through_list : Int
  repeat_wrongs : Int
  copies_repeated_wrongs : Int
  allow_negatives : Int
  max_answer : Int
  max_questions : Int
  format_answer_last : Int
  format_answer_first : Int
  format_answer_middle : Int
  question_copies : Int
  randomize : Int
  addition_allowed : Int
  min_augend : Int
  max_augend : Int
  min_addend : Int
  max_addend : Int
  subtraction_allowed : Int
  min_minuend : Int
  max_minuend : Int
  min_subtrahend : Int
  max_subtrahend : Int
  multiplication_allowed : Int
  min_multiplier : Int
  max_multiplier : Int
  min_multiplicand : Int
  max_multiplicand : Int
  division_allowed : Int
  min_divisor : Int
  max_divisor : Int
  min_quotient : Int
  max_quotient : Int

/-! ## Small helpers of `mathcards.c` -/

/-- The function `abs_value`: `if (i > 0) return i; else return -i;`.  On the
type `int` the negation overflows at `INT_MIN` only; at every other value of
the type the result is the one given here. -/
def abs_value (i : Int) : Int :=
  if i > 0 then i else -i

/-- The least value of the C type `int`, taken to be 32 bits wide. -/
def INT_MIN : Int := -2147483648

/-- The greatest value of the C type `int`. -/
def INT_MAX : Int := 2147483647

/-- A value of the type `int` other than `INT_MIN`: the values at which the
negation `-i` of `abs_value` does not overflow. -/
def negatable (i : Int) : Prop :=
  INT_MIN < i ∧ i ≤ INT_MAX

/-- The function `validate_question`: `0` when one of the three values is
larger in magnitude than `max_answer`, or is negative while negatives are
not allowed; `1` otherwise. -/
def validate_question (o : MC_Options) (n1 n2 n3 : Int) : Int :=
  if abs_value n1 > abs_value o.max_answer
      ∨ abs_value n2 > abs_value o.max_answer
      ∨ abs_value n3 > abs_value o.max_answer then 0
  else if o.allow_negatives = 0 ∧ (n1 < 0 ∨ n2 < 0 ∨ n3 < 0) then 0
  else 1

/-- The function `create_node`: a fresh node holding the given card. -/
def create_node (n1 n2 : Int) (op : MC_Operation) (ans : Int) (f : MC_Format) :
    MC_FlashCard :=
  { num1 := n1, num2 := n2, num3 := ans, operation := op, format := f }

/-! ## Linked-list primitives -/

/-- The function `list_length`: the number of nodes reached through `next`. -/
def list_length (list : List MC_FlashCard) : Nat :=
  list.length

/-- The pointer to the first node of a list: null for the empty list. -/
def list_head (list : List MC_FlashCard) : Option Nat :=
  if list.isEmpty then none else some 0

/-- The pointer `ptr->next` of a node of `list`: null after the last node. -/
def node_next (list : List MC_FlashCard) (k : Nat) : Option Nat :=
  if k + 1 < list.length then some (k + 1) else none

/-- The function `insert_node`: puts `new_node` into the list right after the
node `current`.  A null `new_node` leaves the list as it is; a null `current`
makes `new_node` the first and only node of the returned list. -/
def insert_node (first : List MC_FlashCard) (current : Option Nat)
    (new_node : Option MC_FlashCard) : List MC_FlashCard :=
  match new_node with
  | none => first
  | some card =>
    match current with
    | none => [card]
    | some k => first.take (k + 1) ++ card :: first.drop (k + 1)

/-- The position that a node inserted after `current` gets in the list. -/
def inserted_at (current : Option Nat) : Nat :=
  match current with
  | none => 0
  | some k => k + 1

/-- The function `remove_node`: unlinks the node `n` from the list. -/
def remove_node (first : List MC_FlashCard) (n : Option Nat) : List MC_FlashCard :=
  match n with
  | none => first
  | some k => if first.isEmpty then first else first.eraseIdx k

/-! ## The shuffler -/

/-- The function `pick_random`, called when `rand()` has been called `calls`
times.  With `length = 0` it returns `list` itself and draws nothing;
otherwise it draws `rand_node = rand() % length` and follows `next` once for
each `i` of `for (i = 1; i < rand_node; i++)`, staying at null once there.
The result is the node reached and the new call count. -/
def pick_random (rand : Nat → Nat) (calls : Nat) (length : Int)
    (list : List MC_FlashCard) : Option Nat × Nat :=
  if length = 0 then (list_head list, calls)
  else
    let rand_node : Int := Int.tmod (rand calls) length
    let steps : Nat := (rand_node - 1).toNat
    (Nat.iterate (fun ptr => ptr.bind (node_next list)) steps (list_head list), calls + 1)

/-- The loop `while (old_length && old_list)` of `randomize_list`, by recursion
on the counter `old_length`, which every round decrements. -/
def randomize_loop (rand : Nat → Nat) :
    Nat → Nat → List MC_FlashCard → List MC_FlashCard → Int → List MC_FlashCard
  | 0, _, _, new_list, _ => new_list
  | old_length + 1, calls, old_list, new_list, new_length =>
    if old_list.isEmpty then new_list
    else
      let old_pick := pick_random rand calls ((old_length : Int) + 1) old_list
      let new_pick := pick_random rand old_pick.2 new_length new_list
      match old_pick.1 with
      | some k =>
        randomize_loop rand old_length new_pick.2
          (remove_node old_list (some k))
          (insert_node new_list new_pick.1 (old_list.get? k))
          (new_length + 1)
      | none => new_list

/-- The function `randomize_list`, entered when `rand()` has been called
`calls` times. -/
def randomize_list (rand : Nat → Nat) (calls : Nat) (old_list : List MC_FlashCard) :
    List MC_FlashCard :=
  randomize_loop rand (list_length old_list) calls old_list [] 0

/-! ## The generator -/

/-- The local variables of `generate_list` that the loops update. -/
structure GenState where
  top_of_list : List MC_FlashCard
  end_of_list : Option Nat
  length : Int
  deriving DecidableEq, Repr

/-- The guarded insertion that `generate_list` repeats for every format:
`if (length < max_questions) { tmp_ptr = create_node(..); top_of_list =
insert_node(top_of_list, end_of_list, tmp_ptr); end_of_list = tmp_ptr;
length++; }`. -/
def add_question (o : MC_Options) (n1 n2 : Int) (op : MC_Operation) (ans : Int)
    (f : MC_Format) (s : GenState) : GenState :=
  if s.length < o.max_questions then
    { top_of_list := insert_node s.top_of_list s.end_of_list (some (create_node n1 n2 op ans f)),
      end_of_list := some (inserted_at s.end_of_list),
      length := s.length + 1 }
  else s

/-- The body of the loop over the copies: one guarded insertion per selected
format, in the order last, middle, first.  For multiplication the middle
format also needs `i != 0` and the first format `j != 0`; these are the flags
`middle_ok` and `first_ok`, which are true for the other operations. -/
def add_formats (o : MC_Options) (n1 n2 : Int) (op : MC_Operation) (ans : Int)
    (middle_ok first_ok : Bool) (s : GenState) : GenState :=
  let s1 := if o.format_answer_last ≠ 0 then
      add_question o n1 n2 op ans MC_FORMAT_ANS_LAST s else s
  let s2 := if o.format_answer_middle ≠ 0 ∧ middle_ok = true then
      add_question o n1 n2 op ans MC_FORMAT_ANS_MIDDLE s1 else s1
  if o.format_answer_first ≠ 0 ∧ first_ok = true then
    add_question o n1 n2 op ans MC_FORMAT_ANS_FIRST s2 else s2

/-- The loop `for (k = 0; k < math_opts->question_copies; k++)`. -/
def add_copies (o : MC_Options) (n1 n2 : Int) (op : MC_Operation) (ans : Int)
    (middle_ok first_ok : Bool) (s : GenState) : GenState :=
  (List.range o.question_copies.toNat).foldl
    (fun st _ => add_formats o n1 n2 op ans middle_ok first_ok st) s

/-- The values that `i` takes in `for (i = lo; i <= hi; i++)`. -/
def loop_values (lo hi : Int) : List Int :=
  (List.range (hi + 1 - lo).toNat).map (fun (k : Nat) => lo + (k : Int))

/-- The block `if (math_opts->addition_allowed) { ... }`. -/
def add_addition (o : MC_Options) (s : GenState) : GenState :=
  if o.addition_allowed ≠ 0 then
    (loop_values o.min_augend o.max_augend).foldl (fun si i =>
      (loop_values o.min_addend o.max_addend).foldl (fun sj j =>
        if validate_question o i j (i + j) ≠ 0 then
          add_copies o i j MC_OPER_ADD (i + j) true true sj
        else sj) si) s
  else s

/-- The block `if (math_opts->subtraction_allowed) { ... }`. -/
def add_subtraction (o : MC_Options) (s : GenState) : GenState :=
  if o.subtraction_allowed ≠ 0 then
    (loop_values o.min_minuend o.max_minuend).foldl (fun si i =>
      (loop_values o.min_subtrahend o.max_subtrahend).foldl (fun sj j =>
        if validate_question o i j (i - j) ≠ 0 then
          add_copies o i j MC_OPER_SUB (i - j) true true sj
        else sj) si) s
  else s

/-- The block `if (math_opts->multiplication_allowed) { ... }`. -/
def add_multiplication (o : MC_Options) (s : GenState) : GenState :=
  if o.multiplication_allowed ≠ 0 then
    (loop_values o.min_multiplier o.max_multiplier).foldl (fun si i =>
      (loop_values o.min_multiplicand o.max_multiplicand).foldl (fun sj j =>
        if validate_question o i j (i * j) ≠ 0 then
          add_copies o i j MC_OPER_MULT (i * j) (decide (i ≠ 0)) (decide (j ≠ 0)) sj
        else sj) si) s
  else s

/-- The block `if (math_opts->division_allowed) { ... }`: `i` runs over the
quotients, `j` over the divisors, and the card is `i * j / j = i`. -/
def add_division (o : MC_Options) (s : GenState) : GenState :=
  if o.division_allowed ≠ 0 then
    (loop_values o.min_quotient o.max_quotient).foldl (fun si i =>
      (loop_values o.min_divisor o.max_divisor).foldl (fun sj j =>
        if j ≠ 0 ∧ validate_question o (i * j) j i ≠ 0 then
          add_copies o (i * j) j MC_OPER_DIV i true true sj
        else sj) si) s
  else s

/-- The list that `generate_list` has built when it reaches the shuffle. -/
def generate_questions (o : MC_Options) : GenState :=
  add_division o (add_multiplication o (add_subtraction o (add_addition o
    { top_of_list := [], end_of_list := none, length := 0 })))

/-- The function `generate_list`: the four blocks, then `randomize_list` when
`math_opts->randomize` is set. -/
def generate_list (o : MC_Options) (rand : Nat → Nat) : List MC_FlashCard :=
  let top_of_list := (generate_questions o).top_of_list
  if o.randomize ≠ 0 then randomize_list rand 0 top_of_list else top_of_list

/-- The function `MC_SetMaxQuestions`: a negative value is refused and the
options stay as they are, any other value is stored as it is. -/
def MC_SetMaxQuestions (o : MC_Options) (max : Int) : MC_Options :=
  if max < 0 then o else { o with max_questions := max }

/-! ## The enumeration that the generator walks through

The loops of `generate_list` visit the validated triples in a fixed order and
offer, for every copy of a triple, one card per selected format.  The lists
below name that enumeration without the cap `max_questions`; the theorems
relate the generator to them. -/

/-- A validated triple: the two numbers, the operation and the answer that
the loops pass to `create_node`. -/
structure Triple where
  n1 : Int
  n2 : Int
  op : MC_Operation
  ans : Int
  deriving DecidableEq, Repr

/-- The triples of the addition block, in loop order. -/
def addition_triples (o : MC_Options) : List Triple :=
  if o.addition_allowed ≠ 0 then
    (loop_values o.min_augend o.max_augend).flatMap (fun i =>
      (loop_values o.min_addend o.max_addend).flatMap (fun j =>
        if validate_question o i j (i + j) ≠ 0 then
          [{ n1 := i, n2 := j, op := MC_OPER_ADD, ans := i + j }] else []))
  else []

/-- The triples of the subtraction block, in loop order. -/
def subtraction_triples (o : MC_Options) : List Triple :=
  if o.subtraction_allowed ≠ 0 then
    (loop_values o.min_minuend o.max_minuend).flatMap (fun i =>
      (loop_values o.min_subtrahend o.max_subtrahend).flatMap (fun j =>
        if validate_question o i j (i - j) ≠ 0 then
          [{ n1 := i, n2 := j, op := MC_OPER_SUB, ans := i - j }] else []))
  else []

/-- The triples of the multiplication block, in loop order. -/
def multiplication_triples (o : MC_Options) : List Triple :=
  if o.multiplication_allowed ≠ 0 then
    (loop_values o.min_multiplier o.max_multiplier).flatMap (fun i =>
      (loop_values o.min_multiplicand o.max_multiplicand).flatMap (fun j =>
        if validate_question o i j (i * j) ≠ 0 then
          [{ n1 := i, n2 := j, op := MC_OPER_MULT, ans := i * j }] else []))
  else []

/-- The triples of the division block, in loop order: quotient `i`, divisor
`j`, card `i * j / j = i`. -/
def division_triples (o : MC_Options) : List Triple :=
  if o.division_allowed ≠ 0 then
    (loop_values o.min_quotient o.max_quotient).flatMap (fun i =>
      (loop_values o.min_divisor o.max_divisor).flatMap (fun j =>
        if j ≠ 0 ∧ validate_question o (i * j) j i ≠ 0 then
          [{ n1 := i * j, n2 := j, op := MC_OPER_DIV, ans := i }] else []))
  else []

/-- All validated triples, block after block. -/
def validated_triples (o : MC_Options) : List Triple :=
  addition_triples o ++ subtraction_triples o ++ multiplication_triples o
    ++ division_triples o

/-- The cards that one round of the copies loop offers, given the two extra
conditions of the middle and the first format. -/
def format_cards (o : MC_Options) (n1 n2 : Int) (op : MC_Operation) (ans : Int)
    (middle_ok first_ok : Bool) : List MC_FlashCard :=
  (if o.format_answer_last ≠ 0 then [create_node n1 n2 op ans MC_FORMAT_ANS_LAST] else [])
  ++ (if o.format_answer_middle ≠ 0 ∧ middle_ok = true then
        [create_node n1 n2 op ans MC_FORMAT_ANS_MIDDLE] else [])
  ++ (if o.format_answer_first ≠ 0 ∧ first_ok = true then
        [create_node n1 n2 op ans MC_FORMAT_ANS_FIRST] else [])

/-- The cards offered for one copy of a triple: the extra conditions only
bind for multiplication. -/
def triple_cards (o : MC_Options) (t : Triple) : List MC_FlashCard :=
  format_cards o t.n1 t.n2 t.op t.ans
    (decide (t.op = MC_OPER_MULT → t.n1 ≠ 0)) (decide (t.op = MC_OPER_MULT → t.n2 ≠ 0))

/-- The cards offered for all copies of a triple. -/
def copy_cards (o : MC_Options) (t : Triple) : List MC_FlashCard :=
  (List.range o.question_copies.toNat).flatMap (fun _ => triple_cards o t)

/-- Every card that the loops offer for insertion, in order, without the cap. -/
def all_questions (o : MC_Options) : List MC_FlashCard :=
  (validated_triples o).flatMap (copy_cards o)

/-- The guarded insertion on a plain list: the card is appended while the
list is shorter than the cap. -/
def push (cap : Int) (acc : List MC_FlashCard) (card : MC_FlashCard) : List MC_FlashCard :=
  if (acc.length : Int) < cap then acc ++ [card] else acc

/-- The pointer to the last node of a list. -/
def last_node (l : List MC_FlashCard) : Option Nat :=
  if l.isEmpty then none else some (l.length - 1)

/-- The generator state whose list is `l`, whose end pointer is the last node
of `l` and whose counter is the length of `l`. -/
def GenState.of_list (l : List MC_FlashCard) : GenState :=
  { top_of_list := l, end_of_list := last_node l, length := l.length }

/-- A step of the generator offers the cards `qs`: run on a list, it does
what the guarded insertion of `qs`, one after the other, does. -/
def Emits (o : MC_Options) (f : GenState → GenState) (qs : List MC_FlashCard) : Prop :=
  ∀ l, f (GenState.of_list l) = GenState.of_list (qs.foldl (push o.max_questions) l)


/-! ## Notions of the specification -/

/-- The operation `op` is the only one enabled. -/
def only_operation (o : MC_Options) (op : MC_Operation) : Prop :=
  (o.addition_allowed ≠ 0 ↔ op = MC_OPER_ADD)
  ∧ (o.subtraction_allowed ≠ 0 ↔ op = MC_OPER_SUB)
  ∧ (o.multiplication_allowed ≠ 0 ↔ op = MC_OPER_MULT)
  ∧ (o.division_allowed ≠ 0 ↔ op = MC_OPER_DIV)

/-- The format `f` is the only one enabled. -/
def only_format (o : MC_Options) (f : MC_Format) : Prop :=
  (o.format_answer_last ≠ 0 ↔ f = MC_FORMAT_ANS_LAST)
  ∧ (o.format_answer_middle ≠ 0 ↔ f = MC_FORMAT_ANS_MIDDLE)
  ∧ (o.format_answer_first ≠ 0 ↔ f = MC_FORMAT_ANS_FIRST)

/-- The inclusive range of the first loop variable of an operation: augend,
minuend, multiplier, quotient. -/
def outer_range (o : MC_Options) : MC_Operation → Int × Int
  | MC_OPER_ADD => (o.min_augend, o.max_augend)
  | MC_OPER_SUB => (o.min_minuend, o.max_minuend)
  | MC_OPER_MULT => (o.min_multiplier, o.max_multiplier)
  | MC_OPER_DIV => (o.min_quotient, o.max_quotient)

/-- The inclusive range of the second loop variable of an operation: addend,
subtrahend, multiplicand, divisor. -/
def inner_range (o : MC_Options) : MC_Operation → Int × Int
  | MC_OPER_ADD => (o.min_addend, o.max_addend)
  | MC_OPER_SUB => (o.min_subtrahend, o.max_subtrahend)
  | MC_OPER_MULT => (o.min_multiplicand, o.max_multiplicand)
  | MC_OPER_DIV => (o.min_divisor, o.max_divisor)

/-- Whether the pair `(a, b)` yields a question of operation `op` in format
`f`: its triple passes `validate_question`; for division `b` is the divisor,
not zero, and the triple is `(a * b, b, a)`; for multiplication the middle
format needs `a ≠ 0` and the first format `b ≠ 0`. -/
def pair_counts (o : MC_Options) (op : MC_Operation) (f : MC_Format) (a b : Int) : Bool :=
  match op with
  | MC_OPER_ADD => decide (validate_question o a b (a + b) ≠ 0)
  | MC_OPER_SUB => decide (validate_question o a b (a - b) ≠ 0)
  | MC_OPER_MULT =>
    decide (validate_question o a b (a * b) ≠ 0
      ∧ (f = MC_FORMAT_ANS_MIDDLE → a ≠ 0) ∧ (f = MC_FORMAT_ANS_FIRST → b ≠ 0))
  | MC_OPER_DIV => decide (b ≠ 0 ∧ validate_question o (a * b) b a ≠ 0)

/-- The number `V` of pairs of the two operand ranges that yield a question. -/
def valid_pair_count (o : MC_Options) (op : MC_Operation) (f : MC_Format) : Nat :=
  ((loop_values (outer_range o op).1 (outer_range o op).2).product
    (loop_values (inner_range o op).1 (inner_range o op).2)).countP
    (fun p => pair_counts o op f p.1 p.2)

/-- The pairs (augend, addend) of the two ranges that pass `validate_question`,
row by row: augend ascending, then addend ascending. -/
def addition_pairs (o : MC_Options) : List (Int × Int) :=
  ((loop_values o.min_augend o.max_augend).product
    (loop_values o.min_addend o.max_addend)).filter
    (fun p => decide (validate_question o p.1 p.2 (p.1 + p.2) ≠ 0))

/-- The options of the worked example: addition only, augend and addend in
`[1, 2]`, answer last only, one copy, no negatives, `max_answer = 10`, no
shuffle. -/
def example_options : MC_Options :=
  { play_through_list := 1, repeat_wrongs := 1, copies_repeated_wrongs := 1,
    allow_negatives := 0, max_answer := 10, max_questions := 5000,
    format_answer_last := 1, format_answer_first := 0, format_answer_middle := 0,
    question_copies := 1, randomize := 0,
    addition_allowed := 1, min_augend := 1, max_augend := 2, min_addend := 1, max_addend := 2,
    subtraction_allowed := 0, min_minuend := 0, max_minuend := 12,
    min_subtrahend := 0, max_subtrahend := 12,
    multiplication_allowed := 0, min_multiplier := 0, max_multiplier := 12,
    min_multiplicand := 0, max_multiplicand := 12,
    division_allowed := 0, min_divisor := 0, max_divisor := 12,
    min_quotient := 0, max_quotient := 12 }

/-- Options with negatives allowed and a negative `max_answer`, as
`MC_SetAllowNegatives(1)` followed by `MC_SetMaxAnswer(-5)` leave them. -/
def negative_max_options : MC_Options :=
  { example_options with allow_negatives := 1, max_answer := -5 }

/-- Options with every operation and every format enabled, small operand
ranges that contain zero, two copies of each question and the shuffle on. -/
def mixed_options : MC_Options :=
  { play_through_list := 1, repeat_wrongs := 1, copies_repeated_wrongs := 1,
    allow_negatives := 0, max_answer := 10, max_questions := 5000,
    format_answer_last := 1, format_answer_first := 1, format_answer_middle := 1,
    question_copies := 2, randomize := 1,
    addition_allowed := 1, min_augend := 0, max_augend := 1, min_addend := 0, max_addend := 1,
    subtraction_allowed := 1, min_minuend := 0, max_minuend := 1,
    min_subtrahend := 0, max_subtrahend := 1,
    multiplication_allowed := 1, min_multiplier := 0, max_multiplier := 1,
    min_multiplicand := 0, max_multiplicand := 1,
    division_allowed := 1, min_divisor := 0, max_divisor := 2,
    min_quotient := 0, max_quotient := 1 }

/-- The place of an operation in the order of the four blocks. -/
def operation_rank : MC_Operation → Nat
  | MC_OPER_ADD => 0
  | MC_OPER_SUB => 1
  | MC_OPER_MULT => 2
  | MC_OPER_DIV => 3

/-- The values of the outer and of the inner loop variable that a question
was generated at: `(num1, num2)`, and `(num3, num2)`, quotient and divisor,
for a division. -/
def loop_key (q : MC_FlashCard) : Int × Int :=
  match q.operation with
  | MC_OPER_DIV => (q.num3, q.num2)
  | _ => (q.num1, q.num2)

/-- The order of generation: an earlier block, or the same block and a pair of
loop values that is not larger in the lexicographic order. -/
def generated_before (q1 q2 : MC_FlashCard) : Prop :=
  operation_rank q1.operation < operation_rank q2.operation
  ∨ (q1.operation = q2.operation
      ∧ ((loop_key q1).1 < (loop_key q2).1
          ∨ ((loop_key q1).1 = (loop_key q2).1 ∧ (loop_key q1).2 ≤ (loop_key q2).2)))

/-- The options `mixed_options` without the shuffle. -/
def ordered_options : MC_Options :=
  { mixed_options with randomize := 0 }

/-- The values of the two loop variables that a triple was formed at. -/
def triple_key (t : Triple) : Int × Int :=
  match t.op with
  | MC_OPER_DIV => (t.ans, t.n2)
  | _ => (t.n1, t.n2)

/-- The order of generation on triples. -/
def triple_before (t1 t2 : Triple) : Prop :=
  operation_rank t1.op < operation_rank t2.op
  ∨ (t1.op = t2.op
      ∧ ((triple_key t1).1 < (triple_key t2).1
          ∨ ((triple_key t1).1 = (triple_key t2).1 ∧ (triple_key t1).2 ≤ (triple_key t2).2)))

/-! ## The session engine

The globals of `mathcards.c` form the state `MC_State`.  A global that points
to a list is a `ListVar`: the list of its live nodes, or a pointer to nodes
that have been freed.  A call that dereferences the null pointer or reads
freed nodes has no defined result, and the model returns `none` for it.
`malloc` is taken to succeed.  Every call that draws gets its own stream
`rand` of the values that `rand()` returns during the call. -/

/-- The value of a global that points to the first node of a list: the list
of its live nodes, which is the null pointer when it is empty, or a pointer
to nodes that have been freed. -/
inductive ListVar where
  | live (nodes : List MC_FlashCard)
  | dangling
  deriving DecidableEq, Repr

/-- The globals of `mathcards.c`. -/
structure MC_State where
  math_opts : Option MC_Options
  question_list : ListVar
  wrong_quests : ListVar
  next_wrong_quest : Option Nat
  initialized : Int
  quest_list_length : Int
  answered_correctly : Int
  answered_wrong : Int
  questions_pending : Int
  unanswered : Int
  starting_length : Int

/-- The function `delete_list`: frees every node of the list and returns the
null pointer.  Called on freed nodes it reads them, so it has no result. -/
def delete_list (list : ListVar) : Option ListVar :=
  match list with
  | ListVar.live _ => some (ListVar.live [])
  | ListVar.dangling => none

/-- What a variable that held `list` points to once `delete_list` has freed
the nodes and nothing was assigned to the variable: null stays null, any
other pointer dangles. -/
def freed (list : ListVar) : ListVar :=
  match list with
  | ListVar.live [] => ListVar.live []
  | _ => ListVar.dangling

/-- The function `clear_negatives`: every negative operand bound becomes 0. -/
def clear_negatives (o : MC_Options) : MC_Options :=
  { o with
    min_augend := if o.min_augend < 0 then 0 else o.min_augend,
    max_augend := if o.max_augend < 0 then 0 else o.max_augend,
    min_addend := if o.min_addend < 0 then 0 else o.min_addend,
    max_addend := if o.max_addend < 0 then 0 else o.max_addend,
    min_minuend := if o.min_minuend < 0 then 0 else o.min_minuend,
    max_minuend := if o.max_minuend < 0 then 0 else o.max_minuend,
    min_subtrahend := if o.min_subtrahend < 0 then 0 else o.min_subtrahend,
    max_subtrahend := if o.max_subtrahend < 0 then 0 else o.max_subtrahend,
    min_multiplier := if o.min_multiplier < 0 then 0 else o.min_multiplier,
    max_multiplier := if o.max_multiplier < 0 then 0 else o.max_multiplier,
    min_multiplicand := if o.min_multiplicand < 0 then 0 else o.min_multiplicand,
    max_multiplicand := if o.max_multiplicand < 0 then 0 else o.max_multiplicand,
    min_divisor := if o.min_divisor < 0 then 0 else o.min_divisor,
    max_divisor := if o.max_divisor < 0 then 0 else o.max_divisor,
    min_quotient := if o.min_quotient < 0 then 0 else o.min_quotient,
    max_quotient := if o.max_quotient < 0 then 0 else o.max_quotient }

/-- The function `MC_Initialize`.  The constants `DEFAULT_...` of
`mathcards.h` are the fields of the parameter `defaults`. -/
def MC_Initialize (defaults : MC_Options) (s : MC_State) : Int × MC_State :=
  if s.initialized ≠ 0 then (1, s)
  else
    (1, { s with
      math_opts := some
        (if defaults.allow_negatives = 0 then clear_negatives defaults else defaults),
      initialized := 1 })

/-- The function `MC_StartGame`.  The two calls of `delete_list` free the old
lists and their results are dropped: `question_list` is assigned the new list,
`wrong_quests` keeps the pointer that it had. -/
def MC_StartGame (defaults : MC_Options) (rand : Nat → Nat) (s : MC_State) :
    Option (Int × MC_State) :=
  let s1 := if s.initialized = 0 then (MC_Initialize defaults s).2 else s
  match s1.math_opts with
  | none => some (0, s1)
  | some o =>
    match delete_list s1.question_list, delete_list s1.wrong_quests with
    | some _, some _ =>
      let question_list := generate_list o rand
      let quest_list_length : Int := list_length question_list
      some (if question_list ≠ [] ∧ quest_list_length ≠ 0 then 1 else 0,
        { s1 with
          question_list := ListVar.live question_list,
          wrong_quests := freed s1.wrong_quests,
          next_wrong_quest := none,
          quest_list_length := quest_list_length,
          unanswered := quest_list_length,
          starting_length := quest_list_length,
          answered_correctly := 0,
          answered_wrong := 0,
          questions_pending := 0 })
    | _, _ => none

/-- The function `MC_StartGameUsingWrongs`. -/
def MC_StartGameUsingWrongs (defaults : MC_Options) (rand : Nat → Nat) (s : MC_State) :
    Option (Int × MC_State) :=
  match s.wrong_quests with
  | ListVar.dangling => none
  | ListVar.live wrong =>
    if wrong ≠ [] ∧ list_length wrong ≠ 0 then
      match delete_list s.question_list with
      | none => none
      | some _ =>
        let question_list := randomize_list rand 0 wrong
        let quest_list_length : Int := list_length question_list
        some (1,
          { s with
            question_list := ListVar.live question_list,
            wrong_quests := ListVar.live [],
            next_wrong_quest := none,
            quest_list_length := quest_list_length,
            unanswered := quest_list_length,
            starting_length := quest_list_length,
            answered_correctly := 0,
            answered_wrong := 0,
            questions_pending := 0 })
    else MC_StartGame defaults rand s

/-- The function `MC_NextQuestion`.  The argument `fc` is the card that the
caller's pointer refers to, `none` for the null pointer; the result holds the
return value, the card after the call and the new state. -/
def MC_NextQuestion (fc : Option MC_FlashCard) (s : MC_State) :
    Option (Int × Option MC_FlashCard × MC_State) :=
  match fc with
  | none => some (0, none, s)
  | some _ =>
    match s.question_list with
    | ListVar.dangling => none
    | ListVar.live [] => some (0, fc, s)
    | ListVar.live (first :: rest) =>
      some (1,
        some { num1 := first.num1, num2 := first.num2, num3 := first.num3,
               operation := first.operation, format := first.format },
        { s with
          question_list :=
            ListVar.live (remove_node (first :: rest) (list_head (first :: rest))),
          quest_list_length := s.quest_list_length - 1,
          questions_pending := s.questions_pending + 1 })

/-- The function `create_node_from_card`: a fresh node with the five fields of
the card, null for a null card. -/
def create_node_from_card (flashcard : Option MC_FlashCard) : Option MC_FlashCard :=
  match flashcard with
  | none => none
  | some fc =>
    some { num1 := fc.num1, num2 := fc.num2, num3 := fc.num3,
           operation := fc.operation, format := fc.format }

/-- The function `compare_node`: 1 when both nodes exist and agree on `num1`,
`num2`, `operation` and `format`, else 0. -/
def compare_node (first other : Option MC_FlashCard) : Int :=
  match first, other with
  | some a, some b =>
    if a.num1 = b.num1 ∧ a.num2 = b.num2 ∧ a.operation = b.operation ∧ a.format = b.format
    then 1 else 0
  | _, _ => 0

/-- The function `already_in_list`: 1 when a node of the list compares equal
to `ptr`, 0 when none does or when the list or `ptr` is null. -/
def already_in_list : List MC_FlashCard → Option MC_FlashCard → Int
  | [], _ => 0
  | _ :: _, none => 0
  | node :: rest, some p =>
    if compare_node (some node) (some p) ≠ 0 then 1 else already_in_list rest (some p)

/-- The function `append_node`: `new_node` becomes the last node. -/
def append_node (list : List MC_FlashCard) (new_node : Option MC_FlashCard) :
    List MC_FlashCard :=
  match new_node with
  | none => list
  | some card => list ++ [card]

/-- The function `MC_AnsweredCorrectly`. -/
def MC_AnsweredCorrectly (rand : Nat → Nat) (fc : Option MC_FlashCard) (s : MC_State) :
    Option (Int × MC_State) :=
  match fc with
  | none => some (0, s)
  | some _ =>
    let s1 := { s with
      answered_correctly := s.answered_correctly + 1,
      questions_pending := s.questions_pending - 1 }
    match s1.math_opts with
    | none => none
    | some o =>
      if o.play_through_list = 0 then
        match s1.question_list with
        | ListVar.dangling => none
        | ListVar.live list =>
          let ptr1 := create_node_from_card fc
          let ptr2 := (pick_random rand 0 s1.quest_list_length list).1
          some (1, { s1 with
            question_list := ListVar.live (insert_node list ptr2 ptr1),
            quest_list_length := s1.quest_list_length + 1 })
      else some (1, { s1 with unanswered := s1.unanswered - 1 })

/-- One round of the loop of `MC_AnsweredIncorrectly` that puts copies of the
card back: the list, the counter `quest_list_length` and the number of calls
of `rand()` before and after the round. -/
def reinsert_round (rand : Nat → Nat) (fc : Option MC_FlashCard)
    (st : List MC_FlashCard × Int × Nat) : List MC_FlashCard × Int × Nat :=
  let ptr1 := create_node_from_card fc
  let pick := pick_random rand st.2.2 st.2.1 st.1
  (insert_node st.1 pick.1 ptr1, st.2.1 + 1, pick.2)

/-- The function `MC_AnsweredIncorrectly`.  The loop
`for (i = 0; i < copies_repeated_wrongs; i++)` touches `question_list` only
when it runs at least once. -/
def MC_AnsweredIncorrectly (rand : Nat → Nat) (fc : Option MC_FlashCard) (s : MC_State) :
    Option (Int × MC_State) :=
  match fc with
  | none => some (0, s)
  | some _ =>
    let s1 := { s with
      answered_wrong := s.answered_wrong + 1,
      questions_pending := s.questions_pending - 1 }
    match s1.wrong_quests with
    | ListVar.dangling => none
    | ListVar.live wrong =>
      let ptr1 := create_node_from_card fc
      let s2 :=
        if already_in_list wrong ptr1 = 0 then
          { s1 with wrong_quests := ListVar.live (append_node wrong ptr1) }
        else s1
      match s2.math_opts with
      | none => none
      | some o =>
        if o.repeat_wrongs ≠ 0 then
          match s2.question_list with
          | ListVar.dangling =>
            if o.copies_repeated_wrongs.toNat = 0 then
              some (1, { s2 with unanswered := s2.unanswered + (o.copies_repeated_wrongs - 1) })
            else none
          | ListVar.live list =>
            let st := (List.range o.copies_repeated_wrongs.toNat).foldl
              (fun acc _ => reinsert_round rand fc acc) (list, s2.quest_list_length, 0)
            some (1, { s2 with
              question_list := ListVar.live st.1,
              quest_list_length := st.2.1,
              unanswered := s2.unanswered + (o.copies_repeated_wrongs - 1) })
        else some (1, { s2 with unanswered := s2.unanswered - 1 })

/-- The state of the globals when the program starts: all zero. -/
def fresh_state : MC_State :=
  { math_opts := none, question_list := ListVar.live [], wrong_quests := ListVar.live [],
    next_wrong_quest := none, initialized := 0, quest_list_length := 0,
    answered_correctly := 0, answered_wrong := 0, questions_pending := 0,
    unanswered := 0, starting_length := 0 }

/-- The options of the worked example with `play_through_list` off. -/
def sampling_options : MC_Options :=
  { example_options with play_through_list := 0 }

/-- An initialized state whose options are `sampling_options`. -/
def sampling_state : MC_State :=
  { fresh_state with math_opts := some sampling_options, initialized := 1 }

/-- A card whose fields are all zero, as a caller may pass to
`MC_NextQuestion`. -/
def blank_card : MC_FlashCard :=
  { num1 := 0, num2 := 0, num3 := 0, operation := MC_OPER_ADD, format := MC_FORMAT_ANS_LAST }

/-- A session through the interface, from the start of the program with the
options of the worked example as defaults: a game is started, its first
question is asked and answered incorrectly, and a new game is started. -/
def restart_after_miss : Option (Int × MC_State) :=
  (MC_StartGame example_options (fun _ => 0) fresh_state).bind (fun r1 =>
    (MC_NextQuestion (some blank_card) r1.2).bind (fun r2 =>
      (MC_AnsweredIncorrectly (fun _ => 0) r2.2.1 r2.2.2).bind (fun r3 =>
        MC_StartGame example_options (fun _ => 0) r3.2)))

/-- An initialized state with the options of the worked example, an empty
pending list and one missed question. -/
def missed_state : MC_State :=
  { fresh_state with
    math_opts := some example_options, initialized := 1,
    wrong_quests := ListVar.live [create_node 1 2 MC_OPER_ADD 3 MC_FORMAT_ANS_LAST],
    answered_wrong := 1 }

/-- The state `missed_state` with two pending questions. -/
def playing_state : MC_State :=
  { missed_state with
    question_list := ListVar.live [create_node 1 1 MC_OPER_ADD 2 MC_FORMAT_ANS_LAST,
      create_node 2 2 MC_OPER_ADD 4 MC_FORMAT_ANS_LAST],
    quest_list_length := 2, unanswered := 3, starting_length := 4, questions_pending := 1 }

/-- The function `MC_MissionAccomplished`: the condition
`starting_length && math_opts->repeat_wrongs && !unanswered` is evaluated from
the left, so `math_opts` is read only when `starting_length` is not 0. -/
def MC_MissionAccomplished (s : MC_State) : Option Int :=
  if s.starting_length ≠ 0 then
    match s.math_opts with
    | none => none
    | some o => some (if o.repeat_wrongs ≠ 0 ∧ s.unanswered = 0 then 1 else 0)
  else some 0

/-- The function `MC_TotalQuestionsLeft`: `return unanswered;`. -/
def MC_TotalQuestionsLeft (s : MC_State) : Int :=
  s.unanswered

/-- The function `MC_ListQuestionsLeft`: `return quest_list_length;`. -/
def MC_ListQuestionsLeft (s : MC_State) : Int :=
  s.quest_list_length

/-- The function `MC_EndGame`: both lists are freed and their variables set to
null, the options are freed and `math_opts` set to null, `initialized` is set
to 0.  No counter is assigned. -/
def MC_EndGame (s : MC_State) : Option MC_State :=
  match delete_list s.question_list, delete_list s.wrong_quests with
  | some _, some _ =>
    some { s with
      question_list := ListVar.live [],
      wrong_quests := ListVar.live [],
      math_opts := none,
      initialized := 0 }
  | _, _ => none

/-- A call of the interface during a game, with a valid card. -/
inductive MC_Call where
  | next (fc : MC_FlashCard)
  | correct (rand : Nat → Nat) (fc : MC_FlashCard)
  | incorrect (rand : Nat → Nat) (fc : MC_FlashCard)

/-- The state after one call, when the call has a defined result. -/
def run_call (c : MC_Call) (s : MC_State) : Option MC_State :=
  match c with
  | MC_Call.next fc => (MC_NextQuestion (some fc) s).map (fun r => r.2.2)
  | MC_Call.correct rand fc => (MC_AnsweredCorrectly rand (some fc) s).map (fun r => r.2)
  | MC_Call.incorrect rand fc => (MC_AnsweredIncorrectly rand (some fc) s).map (fun r => r.2)

/-- The state after a sequence of calls. -/
def run_calls : List MC_Call → MC_State → Option MC_State
  | [], s => some s
  | c :: rest, s => (run_call c s).bind (run_calls rest)

/-- A game is started with `MC_StartGameUsingWrongs` or with `MC_StartGame`
and the calls are made; the result is the return value of the start and the
state after the calls. -/
def start_and_run (use_wrongs : Bool) (defaults : MC_Options) (rand : Nat → Nat)
    (calls : List MC_Call) (s : MC_State) : Option (Int × MC_State) :=
  (if use_wrongs = true then MC_StartGameUsingWrongs defaults rand s
    else MC_StartGame defaults rand s).bind
    (fun r => (run_calls calls r.2).map (fun s2 => (r.1, s2)))

/-- Two questions are structurally equal: they agree on `num1`, `num2`,
`operation` and `format`. -/
def same_question (a b : MC_FlashCard) : Prop :=
  a.num1 = b.num1 ∧ a.num2 = b.num2 ∧ a.operation = b.operation ∧ a.format = b.format

/-- No two entries of the list are structurally equal. -/
def distinct_questions (l : List MC_FlashCard) : Prop :=
  l.Pairwise (fun a b => ¬ same_question a b)

/-- One question asked with `MC_NextQuestion` and answered with
`MC_AnsweredCorrectly` on the card that was written: the return value of
`MC_NextQuestion`, the card and the state after the two calls. -/
def play_round (rand : Nat → Nat) (card : MC_FlashCard) (s : MC_State) :
    Option (Int × MC_FlashCard × MC_State) :=
  (MC_NextQuestion (some card) s).bind (fun r =>
    match r.2.1 with
    | none => none
    | some served =>
      (MC_AnsweredCorrectly rand (some served) r.2.2).map (fun a => (r.1, served, a.2)))

/-- The rounds `play_round` repeated, the card variable being reused: the
cards served, in order, and the state after the last round. -/
def play_rounds (rand : Nat → Nat) : Nat → MC_FlashCard → MC_State →
    Option (List MC_FlashCard × MC_State)
  | 0, _, s => some ([], s)
  | k + 1, card, s =>
    (play_round rand card s).bind (fun r =>
      (play_rounds rand k r.2.1 r.2.2).map (fun t => (r.2.1 :: t.1, t.2)))

/-- An initialized state whose options are those of the worked example. -/
def example_state : MC_State :=
  { fresh_state with math_opts := some example_options, initialized := 1 }

/-- A game is started from the start of the program and ended at once. -/
def ended_game : Option MC_State :=
  (MC_StartGame example_options (fun _ => 0) fresh_state).bind (fun r => MC_EndGame r.2)

/-- The options are `o`, the pending list is valid and `quest_list_length` is
the number of its nodes. -/
def Counted (o : MC_Options) (s : MC_State) : Prop :=
  s.math_opts = some o
  ∧ ∃ l, s.question_list = ListVar.live l ∧ s.quest_list_length = l.length

/-- The counter `unanswered` is the number of questions in the list plus the
number of questions in play. -/
def Balanced (s : MC_State) : Prop :=
  s.unanswered = s.quest_list_length + s.questions_pending

/-- A short sequence of calls: a question is asked and answered incorrectly,
the next one is asked and answered correctly. -/
def sample_calls : List MC_Call :=
  [MC_Call.next blank_card,
   MC_Call.incorrect (fun _ => 2) (create_node 1 1 MC_OPER_ADD 2 MC_FORMAT_ANS_LAST),
   MC_Call.next blank_card,
   MC_Call.correct (fun _ => 1) (create_node 1 2 MC_OPER_ADD 3 MC_FORMAT_ANS_LAST)]

/-- The sequence of `MC_AnsweredIncorrectly` calls with the given draws and
cards. -/
def incorrect_calls (calls : List ((Nat → Nat) × MC_FlashCard)) : List MC_Call :=
  calls.map (fun c => MC_Call.incorrect c.1 c.2)

/-! ## Setters and getters of the options

A setter or getter starts with `if (!math_opts)`: with the null pointer a
setter prints a message and changes nothing, a getter returns
`MC_MATH_OPTS_INVALID`.  The setters below act on the value of `math_opts`,
`none` for the null pointer; they assign nothing else.  The constants
`MC_GLOBAL_MAX` and `MC_MATH_OPTS_INVALID` of `mathcards.h` are the parameters
`global_max` and `invalid`. -/

/-- The function `int_to_bool`: 1 for a value that is not 0, else 0. -/
def int_to_bool (i : Int) : Int :=
  if i ≠ 0 then 1 else 0

/-- The function `sane_value`: the value is brought into the range from
`-MC_GLOBAL_MAX` to `MC_GLOBAL_MAX`, and a negative value becomes 0 when
`math_opts` exists and does not allow negatives. -/
def sane_value (global_max : Int) (math_opts : Option MC_Options) (i : Int) : Int :=
  let i1 := if i > global_max then global_max else if i < -global_max then -global_max else i
  match math_opts with
  | some o => if i1 < 0 ∧ o.allow_negatives = 0 then 0 else i1
  | none => i1

/-- The function `MC_SetMaxAnswer`. -/
def MC_SetMaxAnswer (global_max : Int) (math_opts : Option MC_Options) (max : Int) :
    Option MC_Options :=
  match math_opts with
  | none => none
  | some o => some { o with max_answer := sane_value global_max math_opts max }

/-- The function `MC_SetAllowNegatives`: the flag is stored and, when the
argument is 0, `clear_negatives` is called. -/
def MC_SetAllowNegatives (math_opts : Option MC_Options) (opt : Int) : Option MC_Options :=
  match math_opts with
  | none => none
  | some o =>
    some (if opt = 0 then clear_negatives { o with allow_negatives := int_to_bool opt }
      else { o with allow_negatives := int_to_bool opt })

/-- The function `MC_SetCopiesRepeatedWrongs`: the number is brought into the
range from 1 to 10. -/
def MC_SetCopiesRepeatedWrongs (math_opts : Option MC_Options) (copies : Int) :
    Option MC_Options :=
  match math_opts with
  | none => none
  | some o =>
    let copies1 := if copies < 1 then 1 else copies
    let copies2 := if copies1 > 10 then 10 else copies1
    some { o with copies_repeated_wrongs := copies2 }

/-- The function `MC_SetQuestionCopies`: the number is brought into the range
from 1 to 10. -/
def MC_SetQuestionCopies (math_opts : Option MC_Options) (copies : Int) :
    Option MC_Options :=
  match math_opts with
  | none => none
  | some o =>
    let copies1 := if copies < 1 then 1 else copies
    let copies2 := if copies1 > 10 then 10 else copies1
    some { o with question_copies := copies2 }

/-- The function `MC_SetPlayThroughList`. -/
def MC_SetPlayThroughList (math_opts : Option MC_Options) (opt : Int) : Option MC_Options :=
  match math_opts with
  | none => none
  | some o => some { o with play_through_list := int_to_bool opt }

/-- The function `MC_SetRepeatWrongs`. -/
def MC_SetRepeatWrongs (math_opts : Option MC_Options) (opt : Int) : Option MC_Options :=
  match math_opts with
  | none => none
  | some o => some { o with repeat_wrongs := int_to_bool opt }

/-- The function `MC_SetFormatAnswerLast`. -/
def MC_SetFormatAnswerLast (math_opts : Option MC_Options) (opt : Int) : Option MC_Options :=
  match math_opts with
  | none => none
  | some o => some { o with format_answer_last := int_to_bool opt }

/-- The function `MC_SetFormatAnswerFirst`. -/
def MC_SetFormatAnswerFirst (math_opts : Option MC_Options) (opt : Int) : Option MC_Options :=
  match math_opts with
  | none => none
  | some o => some { o with format_answer_first := int_to_bool opt }

/-- The function `MC_SetFormatAnswerMiddle`. -/
def MC_SetFormatAnswerMiddle (math_opts : Option MC_Options) (opt : Int) : Option MC_Options :=
  match math_opts with
  | none => none
  | some o => some { o with format_answer_middle := int_to_bool opt }

/-- The function `MC_SetRandomize`. -/
def MC_SetRandomize (math_opts : Option MC_Options) (opt : Int) : Option MC_Options :=
  match math_opts with
  | none => none
  | some o => some { o with randomize := int_to_bool opt }

/-- The function `MC_SetAddAllowed`. -/
def MC_SetAddAllowed (math_opts : Option MC_Options) (opt : Int) : Option MC_Options :=
  match math_opts with
  | none => none
  | some o => some { o with addition_allowed := int_to_bool opt }

/-- The function `MC_SetSubAllowed`. -/
def MC_SetSubAllowed (math_opts : Option MC_Options) (opt : Int) : Option MC_Options :=
  match math_opts with
  | none => none
  | some o => some { o with subtraction_allowed := int_to_bool opt }

/-- The function `MC_SetMultAllowed`. -/
def MC_SetMultAllowed (math_opts : Option MC_Options) (opt : Int) : Option MC_Options :=
  match math_opts with
  | none => none
  | some o => some { o with multiplication_allowed := int_to_bool opt }

/-- The function `MC_SetDivAllowed`. -/
def MC_SetDivAllowed (math_opts : Option MC_Options) (opt : Int) : Option MC_Options :=
  match math_opts with
  | none => none
  | some o => some { o with division_allowed := int_to_bool opt }

/-- The function `MC_SetAddMinAugend`. -/
def MC_SetAddMinAugend (global_max : Int) (math_opts : Option MC_Options) (opt : Int) :
    Option MC_Options :=
  match math_opts with
  | none => none
  | some o => some { o with min_augend := sane_value global_max math_opts opt }

/-- The function `MC_SetAddMaxAugend`. -/
def MC_SetAddMaxAugend (global_max : Int) (math_opts : Option MC_Options) (opt : Int) :
    Option MC_Options :=
  match math_opts with
  | none => none
  | some o => some { o with max_augend := sane_value global_max math_opts opt }

/-- The function `MC_SetAddMinAddend`. -/
def MC_SetAddMinAddend (global_max : Int) (math_opts : Option MC_Options) (opt : Int) :
    Option MC_Options :=
  match math_opts with
  | none => none
  | some o => some { o with min_addend := sane_value global_max math_opts opt }

/-- The function `MC_SetAddMaxAddend`. -/
def MC_SetAddMaxAddend (global_max : Int) (math_opts : Option MC_Options) (opt : Int) :
    Option MC_Options :=
  match math_opts with
  | none => none
  | some o => some { o with max_addend := sane_value global_max math_opts opt }

/-- The function `MC_SetSubMinMinuend`. -/
def MC_SetSubMinMinuend (global_max : Int) (math_opts : Option MC_Options) (opt : Int) :
    Option MC_Options :=
  match math_opts with
  | none => none
  | some o => some { o with min_minuend := sane_value global_max math_opts opt }

/-- The function `MC_SetSubMaxMinuend`. -/
def MC_SetSubMaxMinuend (global_max : Int) (math_opts : Option MC_Options) (opt : Int) :
    Option MC_Options :=
  match math_opts with
  | none => none
  | some o => some { o with max_minuend := sane_value global_max math_opts opt }

/-- The function `MC_SetSubMinSubtrahend`. -/
def MC_SetSubMinSubtrahend (global_max : Int) (math_opts : Option MC_Options) (opt : Int) :
    Option MC_Options :=
  match math_opts with
  | none => none
  | some o => some { o with min_subtrahend := sane_value global_max math_opts opt }

/-- The function `MC_SetSubMaxSubtrahend`. -/
def MC_SetSubMaxSubtrahend (global_max : Int) (math_opts : Option MC_Options) (opt : Int) :
    Option MC_Options :=
  match math_opts with
  | none => none
  | some o => some { o with max_subtrahend := sane_value global_max math_opts opt }

/-- The function `MC_SetMultMinMultiplier`. -/
def MC_SetMultMinMultiplier (global_max : Int) (math_opts : Option MC_Options) (opt : Int) :
    Option MC_Options :=
  match math_opts with
  | none => none
  | some o => some { o with min_multiplier := sane_value global_max math_opts opt }

/-- The function `MC_SetMultMaxMultiplier`. -/
def MC_SetMultMaxMultiplier (global_max : Int) (math_opts : Option MC_Options) (opt : Int) :
    Option MC_Options :=
  match math_opts with
  | none => none
  | some o => some { o with max_multiplier := sane_value global_max math_opts opt }

/-- The function `MC_SetMultMinMultiplicand`. -/
def MC_SetMultMinMultiplicand (global_max : Int) (math_opts : Option MC_Options) (opt : Int) :
    Option MC_Options :=
  match math_opts with
  | none => none
  | some o => some { o with min_multiplicand := sane_value global_max math_opts opt }

/-- The function `MC_SetMultMaxMultiplicand`. -/
def MC_SetMultMaxMultiplicand (global_max : Int) (math_opts : Option MC_Options) (opt : Int) :
    Option MC_Options :=
  match math_opts with
  | none => none
  | some o => some { o with max_multiplicand := sane_value global_max math_opts opt }

/-- The function `MC_SetDivMinDivisor`. -/
def MC_SetDivMinDivisor (global_max : Int) (math_opts : Option MC_Options) (opt : Int) :
    Option MC_Options :=
  match math_opts with
  | none => none
  | some o => some { o with min_divisor := sane_value global_max math_opts opt }

/-- The function `MC_SetDivMaxDivisor`. -/
def MC_SetDivMaxDivisor (global_max : Int) (math_opts : Option MC_Options) (opt : Int) :
    Option MC_Options :=
  match math_opts with
  | none => none
  | some o => some { o with max_divisor := sane_value global_max math_opts opt }

/-- The function `MC_SetDivMinQuotient`. -/
def MC_SetDivMinQuotient (global_max : Int) (math_opts : Option MC_Options) (opt : Int) :
    Option MC_Options :=
  match math_opts with
  | none => none
  | some o => some { o with min_quotient := sane_value global_max math_opts opt }

/-- The function `MC_SetDivMaxQuotient`. -/
def MC_SetDivMaxQuotient (global_max : Int) (math_opts : Option MC_Options) (opt : Int) :
    Option MC_Options :=
  match math_opts with
  | none => none
  | some o => some { o with max_quotient := sane_value global_max math_opts opt }

/-- The function `MC_SetAddMin`: the two setters, one after the other. -/
def MC_SetAddMin (global_max : Int) (math_opts : Option MC_Options) (opt : Int) :
    Option MC_Options :=
  MC_SetAddMinAddend global_max (MC_SetAddMinAugend global_max math_opts opt) opt

/-- The function `MC_SetAddMax`: the two setters, one after the other. -/
def MC_SetAddMax (global_max : Int) (math_opts : Option MC_Options) (opt : Int) :
    Option MC_Options :=
  MC_SetAddMaxAddend global_max (MC_SetAddMaxAugend global_max math_opts opt) opt

/-- The function `MC_SetSubMin`: the two setters, one after the other. -/
def MC_SetSubMin (global_max : Int) (math_opts : Option MC_Options) (opt : Int) :
    Option MC_Options :=
  MC_SetSubMinSubtrahend global_max (MC_SetSubMinMinuend global_max math_opts opt) opt

/-- The function `MC_SetSubMax`: the two setters, one after the other. -/
def MC_SetSubMax (global_max : Int) (math_opts : Option MC_Options) (opt : Int) :
    Option MC_Options :=
  MC_SetSubMaxSubtrahend global_max (MC_SetSubMaxMinuend global_max math_opts opt) opt

/-- The function `MC_SetMultMin`: the two setters, one after the other. -/
def MC_SetMultMin (global_max : Int) (math_opts : Option MC_Options) (opt : Int) :
    Option MC_Options :=
  MC_SetMultMinMultiplicand global_max (MC_SetMultMinMultiplier global_max math_opts opt) opt

/-- The function `MC_SetMultMax`: the two setters, one after the other. -/
def MC_SetMultMax (global_max : Int) (math_opts : Option MC_Options) (opt : Int) :
    Option MC_Options :=
  MC_SetMultMaxMultiplicand global_max (MC_SetMultMaxMultiplier global_max math_opts opt) opt

/-- The function `MC_SetDivMin`: the two setters, one after the other. -/
def MC_SetDivMin (global_max : Int) (math_opts : Option MC_Options) (opt : Int) :
    Option MC_Options :=
  MC_SetDivMinQuotient global_max (MC_SetDivMinDivisor global_max math_opts opt) opt

/-- The function `MC_SetDivMax`: the two setters, one after the other. -/
def MC_SetDivMax (global_max : Int) (math_opts : Option MC_Options) (opt : Int) :
    Option MC_Options :=
  MC_SetDivMaxQuotient global_max (MC_SetDivMaxDivisor global_max math_opts opt) opt

/-- The function `MC_MaxAnswer`. -/
def MC_MaxAnswer (invalid : Int) (math_opts : Option MC_Options) : Int :=
  match math_opts with
  | none => invalid
  | some o => o.max_answer

/-- The function `MC_CopiesRepeatedWrongs`. -/
def MC_CopiesRepeatedWrongs (invalid : Int) (math_opts : Option MC_Options) : Int :=
  match math_opts with
  | none => invalid
  | some o => o.copies_repeated_wrongs

/-- The function `MC_QuestionCopies`. -/
def MC_QuestionCopies (invalid : Int) (math_opts : Option MC_Options) : Int :=
  match math_opts with
  | none => invalid
  | some o => o.question_copies

/-- The function `MC_AddMinAugend`. -/
def MC_AddMinAugend (invalid : Int) (math_opts : Option MC_Options) : Int :=
  match math_opts with
  | none => invalid
  | some o => o.min_augend

/-- The function `MC_AddMaxAugend`. -/
def MC_AddMaxAugend (invalid : Int) (math_opts : Option MC_Options) : Int :=
  match math_opts with
  | none => invalid
  | some o => o.max_augend

/-- The function `MC_AddMinAddend`. -/
def MC_AddMinAddend (invalid : Int) (math_opts : Option MC_Options) : Int :=
  match math_opts with
  | none => invalid
  | some o => o.min_addend

/-- The function `MC_AddMaxAddend`. -/
def MC_AddMaxAddend (invalid : Int) (math_opts : Option MC_Options) : Int :=
  match math_opts with
  | none => invalid
  | some o => o.max_addend

/-- The function `MC_SubMinMinuend`. -/
def MC_SubMinMinuend (invalid : Int) (math_opts : Option MC_Options) : Int :=
  match math_opts with
  | none => invalid
  | some o => o.min_minuend

/-- The function `MC_SubMaxMinuend`. -/
def MC_SubMaxMinuend (invalid : Int) (math_opts : Option MC_Options) : Int :=
  match math_opts with
  | none => invalid
  | some o => o.max_minuend

/-- The function `MC_SubMinSubtrahend`. -/
def MC_SubMinSubtrahend (invalid : Int) (math_opts : Option MC_Options) : Int :=
  match math_opts with
  | none => invalid
  | some o => o.min_subtrahend

/-- The function `MC_SubMaxSubtrahend`. -/
def MC_SubMaxSubtrahend (invalid : Int) (math_opts : Option MC_Options) : Int :=
  match math_opts with
  | none => invalid
  | some o => o.max_subtrahend

/-- The function `MC_MultMinMultiplier`. -/
def MC_MultMinMultiplier (invalid : Int) (math_opts : Option MC_Options) : Int :=
  match math_opts with
  | none => invalid
  | some o => o.min_multiplier

/-- The function `MC_MultMaxMultiplier`. -/
def MC_MultMaxMultiplier (invalid : Int) (math_opts : Option MC_Options) : Int :=
  match math_opts with
  | none => invalid
  | some o => o.max_multiplier

/-- The function `MC_MultMinMultiplicand`. -/
def MC_MultMinMultiplicand (invalid : Int) (math_opts : Option MC_Options) : Int :=
  match math_opts with
  | none => invalid
  | some o => o.min_multiplicand

/-- The function `MC_MultMaxMultiplicand`. -/
def MC_MultMaxMultiplicand (invalid : Int) (math_opts : Option MC_Options) : Int :=
  match math_opts with
  | none => invalid
  | some o => o.max_multiplicand

/-- The function `MC_DivMinDivisor`. -/
def MC_DivMinDivisor (invalid : Int) (math_opts : Option MC_Options) : Int :=
  match math_opts with
  | none => invalid
  | some o => o.min_divisor

/-- The function `MC_DivMaxDivisor`. -/
def MC_DivMaxDivisor (invalid : Int) (math_opts : Option MC_Options) : Int :=
  match math_opts with
  | none => invalid
  | some o => o.max_divisor

/-- The function `MC_DivMinQuotient`. -/
def MC_DivMinQuotient (invalid : Int) (math_opts : Option MC_Options) : Int :=
  match math_opts with
  | none => invalid
  | some o => o.min_quotient

/-- The function `MC_DivMaxQuotient`. -/
def MC_DivMaxQuotient (invalid : Int) (math_opts : Option MC_Options) : Int :=
  match math_opts with
  | none => invalid
  | some o => o.max_quotient

/-- A call of a setter, with its argument. -/
inductive MC_Setter where
  | MaxQuestions (v : Int)
  | MaxAnswer (v : Int)
  | AllowNegatives (v : Int)
  | CopiesRepeatedWrongs (v : Int)
  | QuestionCopies (v : Int)
  | PlayThroughList (v : Int)
  | RepeatWrongs (v : Int)
  | FormatAnswerLast (v : Int)
  | FormatAnswerFirst (v : Int)
  | FormatAnswerMiddle (v : Int)
  | Randomize (v : Int)
  | AddAllowed (v : Int)
  | SubAllowed (v : Int)
  | MultAllowed (v : Int)
  | DivAllowed (v : Int)
  | AddMinAugend (v : Int)
  | AddMaxAugend (v : Int)
  | AddMinAddend (v : Int)
  | AddMaxAddend (v : Int)
  | SubMinMinuend (v : Int)
  | SubMaxMinuend (v : Int)
  | SubMinSubtrahend (v : Int)
  | SubMaxSubtrahend (v : Int)
  | MultMinMultiplier (v : Int)
  | MultMaxMultiplier (v : Int)
  | MultMinMultiplicand (v : Int)
  | MultMaxMultiplicand (v : Int)
  | DivMinDivisor (v : Int)
  | DivMaxDivisor (v : Int)
  | DivMinQuotient (v : Int)
  | DivMaxQuotient (v : Int)
  | AddMin (v : Int)
  | AddMax (v : Int)
  | SubMin (v : Int)
  | SubMax (v : Int)
  | MultMin (v : Int)
  | MultMax (v : Int)
  | DivMin (v : Int)
  | DivMax (v : Int)

/-- The value of `math_opts` after the call of a setter.  `MC_SetMaxQuestions`
is the function on the options defined above, applied when `math_opts` is
not null. -/
def apply_setter (global_max : Int) (c : MC_Setter) (math_opts : Option MC_Options) :
    Option MC_Options :=
  match c with
  | MC_Setter.MaxQuestions v => math_opts.map (fun o => MC_SetMaxQuestions o v)
  | MC_Setter.MaxAnswer v => MC_SetMaxAnswer global_max math_opts v
  | MC_Setter.AllowNegatives v => MC_SetAllowNegatives math_opts v
  | MC_Setter.CopiesRepeatedWrongs v => MC_SetCopiesRepeatedWrongs math_opts v
  | MC_Setter.QuestionCopies v => MC_SetQuestionCopies math_opts v
  | MC_Setter.PlayThroughList v => MC_SetPlayThroughList math_opts v
  | MC_Setter.RepeatWrongs v => MC_SetRepeatWrongs math_opts v
  | MC_Setter.FormatAnswerLast v => MC_SetFormatAnswerLast math_opts v
  | MC_Setter.FormatAnswerFirst v => MC_SetFormatAnswerFirst math_opts v
  | MC_Setter.FormatAnswerMiddle v => MC_SetFormatAnswerMiddle math_opts v
  | MC_Setter.Randomize v => MC_SetRandomize math_opts v
  | MC_Setter.AddAllowed v => MC_SetAddAllowed math_opts v
  | MC_Setter.SubAllowed v => MC_SetSubAllowed math_opts v
  | MC_Setter.MultAllowed v => MC_SetMultAllowed math_opts v
  | MC_Setter.DivAllowed v => MC_SetDivAllowed math_opts v
  | MC_Setter.AddMinAugend v => MC_SetAddMinAugend global_max math_opts v
  | MC_Setter.AddMaxAugend v => MC_SetAddMaxAugend global_max math_opts v
  | MC_Setter.AddMinAddend v => MC_SetAddMinAddend global_max math_opts v
  | MC_Setter.AddMaxAddend v => MC_SetAddMaxAddend global_max math_opts v
  | MC_Setter.SubMinMinuend v => MC_SetSubMinMinuend global_max math_opts v
  | MC_Setter.SubMaxMinuend v => MC_SetSubMaxMinuend global_max math_opts v
  | MC_Setter.SubMinSubtrahend v => MC_SetSubMinSubtrahend global_max math_opts v
  | MC_Setter.SubMaxSubtrahend v => MC_SetSubMaxSubtrahend global_max math_opts v
  | MC_Setter.MultMinMultiplier v => MC_SetMultMinMultiplier global_max math_opts v
  | MC_Setter.MultMaxMultiplier v => MC_SetMultMaxMultiplier global_max math_opts v
  | MC_Setter.MultMinMultiplicand v => MC_SetMultMinMultiplicand global_max math_opts v
  | MC_Setter.MultMaxMultiplicand v => MC_SetMultMaxMultiplicand global_max math_opts v
  | MC_Setter.DivMinDivisor v => MC_SetDivMinDivisor global_max math_opts v
  | MC_Setter.DivMaxDivisor v => MC_SetDivMaxDivisor global_max math_opts v
  | MC_Setter.DivMinQuotient v => MC_SetDivMinQuotient global_max math_opts v
  | MC_Setter.DivMaxQuotient v => MC_SetDivMaxQuotient global_max math_opts v
  | MC_Setter.AddMin v => MC_SetAddMin global_max math_opts v
  | MC_Setter.AddMax v => MC_SetAddMax global_max math_opts v
  | MC_Setter.SubMin v => MC_SetSubMin global_max math_opts v
  | MC_Setter.SubMax v => MC_SetSubMax global_max math_opts v
  | MC_Setter.MultMin v => MC_SetMultMin global_max math_opts v
  | MC_Setter.MultMax v => MC_SetMultMax global_max math_opts v
  | MC_Setter.DivMin v => MC_SetDivMin global_max math_opts v
  | MC_Setter.DivMax v => MC_SetDivMax global_max math_opts v

/-- The value of `math_opts` after a sequence of setter calls. -/
def apply_setters (global_max : Int) (calls : List MC_Setter)
    (math_opts : Option MC_Options) : Option MC_Options :=
  calls.foldl (fun m c => apply_setter global_max c m) math_opts

/-- All sixteen operand range bounds are at least 0. -/
def bounds_nonneg (o : MC_Options) : Prop :=
  0 ≤ o.min_augend ∧ 0 ≤ o.max_augend ∧ 0 ≤ o.min_addend ∧ 0 ≤ o.max_addend
  ∧ 0 ≤ o.min_minuend ∧ 0 ≤ o.max_minuend ∧ 0 ≤ o.min_subtrahend ∧ 0 ≤ o.max_subtrahend
  ∧ 0 ≤ o.min_multiplier ∧ 0 ≤ o.max_multiplier
  ∧ 0 ≤ o.min_multiplicand ∧ 0 ≤ o.max_multiplicand
  ∧ 0 ≤ o.min_divisor ∧ 0 ≤ o.max_divisor ∧ 0 ≤ o.min_quotient ∧ 0 ≤ o.max_quotient

/-- The value clamped into the range from `-global_max` to `global_max`. -/
def clamp_global (global_max : Int) (v : Int) : Int :=
  min (max v (-global_max)) global_max

/-- The value that a setter of an operand bound or of `max_answer` stores for
the argument `v`: `v` clamped into the global range, and 0 in place of a
negative value when the options do not allow negatives. -/
def stored_value (global_max : Int) (o : MC_Options) (v : Int) : Int :=
  if clamp_global global_max v < 0 ∧ o.allow_negatives = 0 then 0
  else clamp_global global_max v

theorem iterate_next_eq (list : List MC_FlashCard) (steps : Nat) (h : steps < list.length) :
    Nat.iterate (fun ptr => ptr.bind (node_next list)) steps (list_head list) = some steps := by
  induction steps with
  | zero =>
    cases list with
    | nil => simp at h
    | cons a t => simp [list_head]
  | succ n ih =>
    rw [Function.iterate_succ_apply', ih (by omega)]
    simp [node_next, h]

theorem pick_random_pos (rand : Nat → Nat) (calls : Nat) (list : List MC_FlashCard)
    (h : list ≠ []) :
    ∃ k, k < list.length ∧
      (pick_random rand calls (list.length : Int) list).1 = some k := by
  have hlen : 0 < list.length := List.length_pos.mpr h
  have hne : ((list.length : Nat) : Int) ≠ 0 := by omega
  have h0 : 0 ≤ Int.tmod (rand calls) (list.length : Int) :=
    Int.tmod_nonneg _ (Int.ofNat_nonneg _)
  have h1 : Int.tmod (rand calls) (list.length : Int) < list.length :=
    Int.tmod_lt_of_pos _ (by omega)
  refine ⟨(Int.tmod (rand calls) (list.length : Int) - 1).toNat, by omega, ?_⟩
  simp only [pick_random, hne, if_false]
  exact iterate_next_eq list _ (by omega)

theorem pick_random_nil (rand : Nat → Nat) (calls : Nat) :
    (pick_random rand calls 0 []).1 = none := by
  simp [pick_random, list_head]

theorem insert_node_perm (first : List MC_FlashCard) (k : Nat) (card : MC_FlashCard) :
    (insert_node first (some k) (some card)).Perm (card :: first) := by
  simp only [insert_node]
  exact List.perm_middle.trans (by rw [List.take_append_drop])

theorem remove_node_perm (first : List MC_FlashCard) (k : Nat) (h : k < first.length) :
    (first.get ⟨k, h⟩ :: remove_node first (some k)).Perm first := by
  have hne : first.isEmpty = false := by
    cases first with
    | nil => simp at h
    | cons a t => rfl
  simp only [remove_node, hne]
  rw [List.eraseIdx_eq_take_drop_succ]
  have h2 : first = first.take k ++ first.get ⟨k, h⟩ :: first.drop (k + 1) := by
    conv_lhs => rw [← List.take_append_drop k first]
    rw [List.drop_eq_getElem_cons h]
    rfl
  conv_rhs => rw [h2]
  exact List.perm_middle.symm

theorem remove_node_length (first : List MC_FlashCard) (k : Nat) (h : k < first.length) :
    (remove_node first (some k)).length + 1 = first.length := by
  have := (remove_node_perm first k h).length_eq
  simpa using this

theorem randomize_loop_perm (rand : Nat → Nat) (n : Nat) :
    ∀ (calls : Nat) (old_list new_list : List MC_FlashCard), old_list.length = n →
      (randomize_loop rand n calls old_list new_list (new_list.length : Int)).Perm
        (old_list ++ new_list) := by
  induction n with
  | zero =>
    intro calls old_list new_list h
    have : old_list = [] := List.length_eq_zero.mp h
    subst this
    simp [randomize_loop]
  | succ n ih =>
    intro calls old_list new_list h
    have hne : old_list ≠ [] := by
      intro hnil; subst hnil; simp at h
    have hE : old_list.isEmpty = false := by
      cases old_list with
      | nil => exact absurd rfl hne
      | cons a t => rfl
    obtain ⟨k, hk, hpick⟩ := pick_random_pos rand calls old_list hne
    rw [h] at hpick
    simp only [randomize_loop, hE, Bool.false_eq_true, if_false]
    have hcast : ((n : Int) + 1) = ((n + 1 : Nat) : Int) := by push_cast; rfl
    rw [hcast, hpick]
    simp only
    have hget : old_list.get? k = some (old_list.get ⟨k, hk⟩) := by
      rw [List.get?_eq_getElem?, List.getElem?_eq_getElem hk]; rfl
    rw [hget]
    have hrl : (remove_node old_list (some k)).length = n := by
      have := remove_node_length old_list k hk; omega
    -- the new list after the insertion
    have hins : ∃ l, insert_node new_list
          (pick_random rand (pick_random rand calls (↑(n + 1)) old_list).2 (↑new_list.length) new_list).1
          (some (old_list.get ⟨k, hk⟩)) = l ∧ l.Perm (old_list.get ⟨k, hk⟩ :: new_list) := by
      refine ⟨_, rfl, ?_⟩
      cases hnl : new_list with
      | nil =>
        simp [pick_random, list_head, insert_node]
      | cons a t =>
        obtain ⟨j, _, hj⟩ := pick_random_pos rand
          (pick_random rand calls (↑(n + 1)) old_list).2 (a :: t) (by simp)
        rw [hj]
        exact insert_node_perm _ _ _
    obtain ⟨l, hl, hperm⟩ := hins
    rw [hl]
    have hlen : ((new_list.length : Int) + 1) = (l.length : Int) := by
      have := hperm.length_eq
      simp at this
      omega
    rw [hlen]
    refine (ih _ _ l hrl).trans ?_
    have h1 : (remove_node old_list (some k) ++ l).Perm
        (remove_node old_list (some k) ++ old_list.get ⟨k, hk⟩ :: new_list) :=
      List.Perm.append_left _ hperm
    refine h1.trans ?_
    refine List.perm_middle.trans ?_
    have h2 := remove_node_perm old_list k hk
    exact (List.Perm.append_right new_list h2)

theorem randomize_list_perm (rand : Nat → Nat) (calls : Nat) (list : List MC_FlashCard) :
    (randomize_list rand calls list).Perm list := by
  have := randomize_loop_perm rand list.length calls list [] rfl
  simpa [randomize_list, list_length] using this

/-! ## The generator walks through the enumeration -/

theorem push_foldl (cap : Int) (qs : List MC_FlashCard) :
    ∀ l : List MC_FlashCard, qs.foldl (push cap) l = l ++ qs.take (cap.toNat - l.length) := by
  induction qs with
  | nil => intro l; simp
  | cons q t ih =>
    intro l
    rw [List.foldl_cons, ih]
    by_cases h : (l.length : Int) < cap
    · have h2 : cap.toNat - l.length = (cap.toNat - (l.length + 1)) + 1 := by omega
      simp only [push, h, if_true, List.length_append, List.length_singleton]
      rw [h2, List.take_succ_cons]
      simp
    · have h2 : cap.toNat - l.length = 0 := by omega
      simp [push, h, h2]

theorem add_question_of_list (o : MC_Options) (n1 n2 : Int) (op : MC_Operation) (ans : Int)
    (f : MC_Format) : Emits o (add_question o n1 n2 op ans f) [create_node n1 n2 op ans f] := by
  intro l
  simp only [List.foldl_cons, List.foldl_nil, push, add_question, GenState.of_list]
  by_cases h : (l.length : Int) < o.max_questions
  · simp only [h, if_true]
    cases l with
    | nil => simp [insert_node, inserted_at, last_node]
    | cons a t => simp [insert_node, inserted_at, last_node]
  · simp only [h, if_false]

theorem Emits.skip (o : MC_Options) : Emits o (fun s => s) [] := by
  intro l; rfl

theorem Emits.seq {o : MC_Options} {f g : GenState → GenState} {qs rs : List MC_FlashCard}
    (hf : Emits o f qs) (hg : Emits o g rs) : Emits o (fun s => g (f s)) (qs ++ rs) := by
  intro l
  simp only [hf l, hg _, List.foldl_append]

theorem Emits.ite {o : MC_Options} {f : GenState → GenState} {qs : List MC_FlashCard}
    (c : Prop) [Decidable c] (hf : Emits o f qs) :
    Emits o (fun s => if c then f s else s) (if c then qs else []) := by
  by_cases h : c
  · simpa [h] using hf
  · simpa [h] using Emits.skip o

theorem Emits.loop {o : MC_Options} {α : Type} (xs : List α) (body : α → GenState → GenState)
    (cards : α → List MC_FlashCard) (h : ∀ x, Emits o (body x) (cards x)) :
    Emits o (fun s => xs.foldl (fun st x => body x st) s) (xs.flatMap cards) := by
  induction xs with
  | nil => intro l; rfl
  | cons x t ih =>
    intro l
    simp only [List.foldl_cons, List.flatMap_cons, List.foldl_append]
    rw [h x l]
    exact ih _

theorem add_formats_emits (o : MC_Options) (n1 n2 : Int) (op : MC_Operation) (ans : Int)
    (middle_ok first_ok : Bool) :
    Emits o (add_formats o n1 n2 op ans middle_ok first_ok)
      (format_cards o n1 n2 op ans middle_ok first_ok) := by
  have h1 := Emits.ite (o.format_answer_last ≠ 0)
    (add_question_of_list o n1 n2 op ans MC_FORMAT_ANS_LAST)
  have h2 := Emits.ite (o.format_answer_middle ≠ 0 ∧ middle_ok = true)
    (add_question_of_list o n1 n2 op ans MC_FORMAT_ANS_MIDDLE)
  have h3 := Emits.ite (o.format_answer_first ≠ 0 ∧ first_ok = true)
    (add_question_of_list o n1 n2 op ans MC_FORMAT_ANS_FIRST)
  have h := Emits.seq (Emits.seq h1 h2) h3
  intro l
  exact h l

theorem add_copies_emits (o : MC_Options) (t : Triple) :
    Emits o (add_copies o t.n1 t.n2 t.op t.ans
        (decide (t.op = MC_OPER_MULT → t.n1 ≠ 0)) (decide (t.op = MC_OPER_MULT → t.n2 ≠ 0)))
      (copy_cards o t) :=
  Emits.loop _ _ _ (fun _ => add_formats_emits o _ _ _ _ _ _)

theorem flatMap_ite_singleton {α β : Type} (c : Prop) [Decidable c] (t : α) (f : α → List β) :
    (if c then [t] else []).flatMap f = if c then f t else [] := by
  by_cases h : c <;> simp [h]

theorem flatMap_ite_nil_singleton {α β : Type} (c : Prop) [Decidable c] (t : α)
    (f : α → List β) : (if c then [] else [t]).flatMap f = if c then [] else f t := by
  by_cases h : c <;> simp [h]

theorem add_addition_emits (o : MC_Options) :
    Emits o (add_addition o) ((addition_triples o).flatMap (copy_cards o)) := by
  by_cases h : o.addition_allowed = 0
  · intro l
    simp [add_addition, addition_triples, h]
  · have key := Emits.loop (loop_values o.min_augend o.max_augend) _ _ (fun i =>
      Emits.loop (loop_values o.min_addend o.max_addend) _ _ (fun j =>
        Emits.ite (validate_question o i j (i + j) ≠ 0)
          (add_copies_emits o { n1 := i, n2 := j, op := MC_OPER_ADD, ans := i + j })))
    intro l
    have := key l
    simpa [add_addition, addition_triples, h, List.flatMap_assoc, flatMap_ite_singleton,
      flatMap_ite_nil_singleton] using this

theorem add_subtraction_emits (o : MC_Options) :
    Emits o (add_subtraction o) ((subtraction_triples o).flatMap (copy_cards o)) := by
  by_cases h : o.subtraction_allowed = 0
  · intro l
    simp [add_subtraction, subtraction_triples, h]
  · have key := Emits.loop (loop_values o.min_minuend o.max_minuend) _ _ (fun i =>
      Emits.loop (loop_values o.min_subtrahend o.max_subtrahend) _ _ (fun j =>
        Emits.ite (validate_question o i j (i - j) ≠ 0)
          (add_copies_emits o { n1 := i, n2 := j, op := MC_OPER_SUB, ans := i - j })))
    intro l
    have := key l
    simpa [add_subtraction, subtraction_triples, h, List.flatMap_assoc, flatMap_ite_singleton,
      flatMap_ite_nil_singleton] using this

theorem add_multiplication_emits (o : MC_Options) :
    Emits o (add_multiplication o) ((multiplication_triples o).flatMap (copy_cards o)) := by
  by_cases h : o.multiplication_allowed = 0
  · intro l
    simp [add_multiplication, multiplication_triples, h]
  · have key := Emits.loop (loop_values o.min_multiplier o.max_multiplier) _ _ (fun i =>
      Emits.loop (loop_values o.min_multiplicand o.max_multiplicand) _ _ (fun j =>
        Emits.ite (validate_question o i j (i * j) ≠ 0)
          (add_copies_emits o { n1 := i, n2 := j, op := MC_OPER_MULT, ans := i * j })))
    intro l
    have := key l
    simpa [add_multiplication, multiplication_triples, h, List.flatMap_assoc, flatMap_ite_singleton,
      flatMap_ite_nil_singleton] using this

theorem add_division_emits (o : MC_Options) :
    Emits o (add_division o) ((division_triples o).flatMap (copy_cards o)) := by
  by_cases h : o.division_allowed = 0
  · intro l
    simp [add_division, division_triples, h]
  · have key := Emits.loop (loop_values o.min_quotient o.max_quotient) _ _ (fun i =>
      Emits.loop (loop_values o.min_divisor o.max_divisor) _ _ (fun j =>
        Emits.ite (j ≠ 0 ∧ validate_question o (i * j) j i ≠ 0)
          (add_copies_emits o { n1 := i * j, n2 := j, op := MC_OPER_DIV, ans := i })))
    intro l
    have := key l
    simpa [add_division, division_triples, h, List.flatMap_assoc, flatMap_ite_singleton,
      flatMap_ite_nil_singleton] using this

theorem generate_questions_eq (o : MC_Options) :
    generate_questions o
      = GenState.of_list ((all_questions o).take o.max_questions.toNat) := by
  have h := Emits.seq (Emits.seq (Emits.seq (add_addition_emits o) (add_subtraction_emits o))
    (add_multiplication_emits o)) (add_division_emits o)
  have h2 := h []
  rw [push_foldl] at h2
  simp only [all_questions, validated_triples, List.flatMap_append]
  simpa [generate_questions, GenState.of_list, last_node] using h2

theorem generate_list_unshuffled (o : MC_Options) (rand : Nat → Nat) (h : o.randomize = 0) :
    generate_list o rand = (all_questions o).take o.max_questions.toNat := by
  simp [generate_list, h, generate_questions_eq, GenState.of_list]

theorem generate_list_perm (o : MC_Options) (rand : Nat → Nat) :
    (generate_list o rand).Perm ((all_questions o).take o.max_questions.toNat) := by
  by_cases h : o.randomize = 0
  · rw [generate_list_unshuffled o rand h]
  · simp only [generate_list, ne_eq, h, not_false_eq_true, if_true, generate_questions_eq,
      GenState.of_list]
    exact randomize_list_perm _ _ _


/-! ## Length of the generated list -/

theorem length_generate_list (o : MC_Options) (rand : Nat → Nat) :
    (generate_list o rand).length = min o.max_questions.toNat (all_questions o).length := by
  rw [(generate_list_perm o rand).length_eq, List.length_take]

theorem block_length {α β : Type} (xs : List α) (ys : List β) (v : α → β → Prop)
    [∀ i j, Decidable (v i j)] (T : α → β → Triple) (h : Triple → List MC_FlashCard)
    (P : α → β → Bool) (c : Nat)
    (hP : ∀ i j, (if v i j then (h (T i j)).length else 0) = c * (if P i j = true then 1 else 0)) :
    ((xs.flatMap (fun i => ys.flatMap (fun j => if v i j then [T i j] else []))).flatMap h).length
      = c * (xs.product ys).countP (fun p => P p.1 p.2) := by
  have inner : ∀ i, ((ys.flatMap (fun j => if v i j then [T i j] else [])).flatMap h).length
      = c * ys.countP (P i) := by
    intro i
    induction ys with
    | nil => simp
    | cons j t ih =>
      have hj := hP i j
      simp only [List.flatMap_cons, List.flatMap_append, List.length_append, ih,
        List.countP_cons]
      by_cases hv : v i j <;> by_cases hp : P i j = true <;> simp [hv, hp] at hj ⊢ <;>
        first | omega | exact hj | (rw [Nat.mul_add]; omega)
  induction xs with
  | nil => simp
  | cons i t ih =>
    have hprod : (i :: t).product ys = ys.map (Prod.mk i) ++ t.product ys := rfl
    simp only [List.flatMap_cons, List.flatMap_append, List.length_append, inner, ih,
      hprod, List.countP_append, List.countP_map, Nat.mul_add]
    rfl


theorem triple_cards_length (o : MC_Options) (f : MC_Format) (hf : only_format o f)
    (t : Triple) :
    (triple_cards o t).length
      = if (t.op = MC_OPER_MULT → (f = MC_FORMAT_ANS_MIDDLE → t.n1 ≠ 0)
            ∧ (f = MC_FORMAT_ANS_FIRST → t.n2 ≠ 0)) then 1 else 0 := by
  obtain ⟨h1, h2, h3⟩ := hf
  cases f <;> simp at h1 h2 h3 <;>
    by_cases hop : t.op = MC_OPER_MULT <;>
    by_cases hn1 : t.n1 = 0 <;> by_cases hn2 : t.n2 = 0 <;>
    simp [triple_cards, format_cards, h1, h2, h3, hop, hn1, hn2]

theorem const_flatMap_length {α : Type} (n : Nat) (l : List α) :
    ((List.range n).flatMap (fun _ => l)).length = n * l.length := by
  induction n with
  | zero => simp
  | succ k ih => simp [List.range_succ, List.flatMap_append, ih, Nat.succ_mul]

theorem copy_cards_length (o : MC_Options) (t : Triple) :
    (copy_cards o t).length = o.question_copies.toNat * (triple_cards o t).length :=
  const_flatMap_length _ _

theorem all_questions_length (o : MC_Options) (op : MC_Operation) (f : MC_Format)
    (hop : only_operation o op) (hf : only_format o f) :
    (all_questions o).length = o.question_copies.toNat * valid_pair_count o op f := by
  obtain ⟨ha, hs, hm, hd⟩ := hop
  unfold all_questions validated_triples valid_pair_count
  cases op <;> simp at ha hs hm hd
  · simp only [addition_triples, subtraction_triples, multiplication_triples,
      division_triples, ha, hs, hm, hd, ne_eq, not_true_eq_false, not_false_eq_true,
      if_true, if_false, List.append_nil, List.nil_append, outer_range, inner_range]
    apply block_length
    intro i j
    by_cases hv : validate_question o i j (i + j) = 0 <;>
      simp [hv, pair_counts, copy_cards_length, triple_cards_length o f hf]
  · simp only [addition_triples, subtraction_triples, multiplication_triples,
      division_triples, ha, hs, hm, hd, ne_eq, not_true_eq_false, not_false_eq_true,
      if_true, if_false, List.append_nil, List.nil_append, outer_range, inner_range]
    apply block_length
    intro i j
    by_cases hv : validate_question o i j (i - j) = 0 <;>
      simp [hv, pair_counts, copy_cards_length, triple_cards_length o f hf]
  · simp only [addition_triples, subtraction_triples, multiplication_triples,
      division_triples, ha, hs, hm, hd, ne_eq, not_true_eq_false, not_false_eq_true,
      if_true, if_false, List.append_nil, List.nil_append, outer_range, inner_range]
    apply block_length
    intro i j
    by_cases hv : validate_question o i j (i * j) = 0 <;>
      by_cases h1 : i = 0 <;> by_cases h2 : j = 0 <;> cases f <;>
      simp [hv, h1, h2, pair_counts, copy_cards_length, triple_cards_length o _ hf]
  · simp only [addition_triples, subtraction_triples, multiplication_triples,
      division_triples, ha, hs, hm, hd, ne_eq, not_true_eq_false, not_false_eq_true,
      if_true, if_false, List.append_nil, List.nil_append, outer_range, inner_range]
    apply block_length
    intro i j
    by_cases hj : j = 0 <;> by_cases hv : validate_question o (i * j) j i = 0 <;>
      simp [hj, hv, pair_counts, copy_cards_length, triple_cards_length o f hf]

/-- C1. With exactly one operation `op` and exactly one format `f` enabled, a
cap `max_questions ≥ 0` and `question_copies ≥ 0`, the generated list has
`min (max_questions, question_copies * V)` questions, where `V` counts the
pairs of the two operand ranges that yield a question. -/
theorem generate_list_length (o : MC_Options) (rand : Nat → Nat) (op : MC_Operation)
    (f : MC_Format) (hop : only_operation o op) (hf : only_format o f)
    (hm : 0 ≤ o.max_questions) (hc : 0 ≤ o.question_copies) :
    ((generate_list o rand).length : Int)
      = min o.max_questions (o.question_copies * (valid_pair_count o op f : Int)) := by
  rw [length_generate_list, all_questions_length o op f hop hf, Nat.cast_min]
  push_cast
  rw [Int.toNat_of_nonneg hm, Int.toNat_of_nonneg hc]


theorem generate_list_length_witness :
    only_operation example_options MC_OPER_ADD
    ∧ only_format example_options MC_FORMAT_ANS_LAST
    ∧ ((generate_list example_options (fun _ => 0)).length : Int)
        = min example_options.max_questions (example_options.question_copies
            * (valid_pair_count example_options MC_OPER_ADD MC_FORMAT_ANS_LAST : Int)) :=
  ⟨by unfold only_operation; decide, by unfold only_format; decide,
    generate_list_length example_options (fun _ => 0) MC_OPER_ADD MC_FORMAT_ANS_LAST
      (by unfold only_operation; decide) (by unfold only_format; decide)
      (by decide) (by decide)⟩

/-! ## The addition scenario -/

theorem flatMap_ite_eq_filter_map {α β : Type} (ys : List α) (v : α → Bool) (g : α → β) :
    ys.flatMap (fun j => if v j = true then [g j] else []) = (ys.filter v).map g := by
  induction ys with
  | nil => rfl
  | cons j t ih =>
    by_cases h : v j = true <;> simp [List.flatMap_cons, List.filter_cons, h, ih]

theorem all_questions_addition_last (o : MC_Options)
    (hop : only_operation o MC_OPER_ADD) (hf : only_format o MC_FORMAT_ANS_LAST)
    (hc : o.question_copies = 1) :
    all_questions o = (addition_pairs o).map
      (fun p => create_node p.1 p.2 MC_OPER_ADD (p.1 + p.2) MC_FORMAT_ANS_LAST) := by
  obtain ⟨ha, hs, hm, hd⟩ := hop
  obtain ⟨h1, h2, h3⟩ := hf
  simp at ha hs hm hd h1 h2 h3
  have hcards : ∀ i j : Int, copy_cards o { n1 := i, n2 := j, op := MC_OPER_ADD, ans := i + j }
      = [create_node i j MC_OPER_ADD (i + j) MC_FORMAT_ANS_LAST] := by
    intro i j
    have hr : List.range 1 = [0] := rfl
    simp [copy_cards, triple_cards, format_cards, hc, h1, h2, h3, hr]
  simp only [all_questions, validated_triples, addition_triples, subtraction_triples,
    multiplication_triples, division_triples, ha, hs, hm, hd, ne_eq, not_true_eq_false,
    not_false_eq_true, if_true, if_false, List.append_nil, List.flatMap_assoc,
    flatMap_ite_singleton, flatMap_ite_nil_singleton, hcards, addition_pairs]
  generalize loop_values o.min_augend o.max_augend = xs
  generalize loop_values o.min_addend o.max_addend = ys
  induction xs with
  | nil => rfl
  | cons i t ih =>
    have hprod : (i :: t).product ys = ys.map (Prod.mk i) ++ t.product ys := rfl
    rw [List.flatMap_cons, ih, hprod, List.filter_append, List.map_append, List.filter_map,
      List.map_map]
    congr 1
    have := flatMap_ite_eq_filter_map ys
      (fun j => decide (¬ validate_question o i j (i + j) = 0))
      (fun j => create_node i j MC_OPER_ADD (i + j) MC_FORMAT_ANS_LAST)
    simpa using this

/-- C2. With addition the only operation, answer-last the only format, one
copy, no shuffle and the cap not reached, `generate_list` returns the
row-by-row enumeration of the validated pairs, each as the question
`(a, b, Add, a + b, AnswerLast)`; for augend and addend in `[1, 2]`, no
negatives and `max_answer = 10` this is `1+1=2, 1+2=3, 2+1=3, 2+2=4`, of
length 4. -/
theorem generate_list_addition_last (o : MC_Options) (rand : Nat → Nat)
    (hop : only_operation o MC_OPER_ADD) (hf : only_format o MC_FORMAT_ANS_LAST)
    (hc : o.question_copies = 1) (hr : o.randomize = 0)
    (hcap : ((addition_pairs o).length : Int) ≤ o.max_questions) :
    generate_list o rand = (addition_pairs o).map
        (fun p => create_node p.1 p.2 MC_OPER_ADD (p.1 + p.2) MC_FORMAT_ANS_LAST)
    ∧ (o.min_augend = 1 ∧ o.max_augend = 2 ∧ o.min_addend = 1 ∧ o.max_addend = 2
        ∧ o.allow_negatives = 0 ∧ o.max_answer = 10 →
      generate_list o rand =
          [create_node 1 1 MC_OPER_ADD 2 MC_FORMAT_ANS_LAST,
           create_node 1 2 MC_OPER_ADD 3 MC_FORMAT_ANS_LAST,
           create_node 2 1 MC_OPER_ADD 3 MC_FORMAT_ANS_LAST,
           create_node 2 2 MC_OPER_ADD 4 MC_FORMAT_ANS_LAST]
        ∧ (generate_list o rand).length = 4) := by
  have hgen : generate_list o rand = (addition_pairs o).map
      (fun p => create_node p.1 p.2 MC_OPER_ADD (p.1 + p.2) MC_FORMAT_ANS_LAST) := by
    rw [generate_list_unshuffled o rand hr, all_questions_addition_last o hop hf hc]
    apply List.take_of_length_le
    rw [List.length_map]
    omega
  refine ⟨hgen, ?_⟩
  rintro ⟨h1, h2, h3, h4, h5, h6⟩
  have hpairs : addition_pairs o = [(1, 1), (1, 2), (2, 1), (2, 2)] := by
    have hl : loop_values 1 2 = [1, 2] := by decide
    simp [addition_pairs, h1, h2, h3, h4, hl, List.product, validate_question, abs_value,
      h5, h6]
  rw [hgen, hpairs]
  simp [create_node]

theorem generate_list_addition_last_witness :
    generate_list example_options (fun _ => 0) =
      [create_node 1 1 MC_OPER_ADD 2 MC_FORMAT_ANS_LAST,
       create_node 1 2 MC_OPER_ADD 3 MC_FORMAT_ANS_LAST,
       create_node 2 1 MC_OPER_ADD 3 MC_FORMAT_ANS_LAST,
       create_node 2 2 MC_OPER_ADD 4 MC_FORMAT_ANS_LAST]
    ∧ (generate_list example_options (fun _ => 0)).length = 4 :=
  (generate_list_addition_last example_options (fun _ => 0)
    (by unfold only_operation; decide) (by unfold only_format; decide) (by decide) (by decide)
    (by decide)).2 (by decide)

/-! ## Validation -/

theorem abs_value_eq_abs (i : Int) : abs_value i = |i| := by
  unfold abs_value
  split
  · rw [abs_of_pos]; assumption
  · rw [abs_of_nonpos]; omega

theorem validate_question_eq_zero_iff (o : MC_Options) (a b r : Int) :
    validate_question o a b r = 0 ↔
      (|a| > |o.max_answer| ∨ |b| > |o.max_answer| ∨ |r| > |o.max_answer|)
      ∨ (o.allow_negatives = 0 ∧ (a < 0 ∨ b < 0 ∨ r < 0)) := by
  unfold validate_question
  simp only [abs_value_eq_abs]
  split_ifs with h1 h2 <;> simp_all

theorem validate_question_values (o : MC_Options) (a b r : Int) :
    validate_question o a b r = 0 ∨ validate_question o a b r = 1 := by
  unfold validate_question
  split_ifs <;> simp

theorem abs_value_fits (i : Int) (h : negatable i) :
    abs_value i = |i| ∧ 0 ≤ abs_value i ∧ abs_value i ≤ INT_MAX := by
  obtain ⟨h1, h2⟩ := h
  unfold INT_MIN at h1
  unfold INT_MAX at h2 ⊢
  rw [abs_value_eq_abs]
  refine ⟨rfl, abs_nonneg i, ?_⟩
  rw [abs_le]
  constructor <;> omega

/-- C3, as the code has it. The values `a`, `b`, `result` and `max_answer` are
of type `int` and none is `INT_MIN`, so that no negation in `abs_value`
overflows: the four magnitudes that the function computes are values of type
`int`.  Then `validate_question` returns 0 exactly when one of `|a|`, `|b|`,
`|result|` exceeds `|max_answer|`, the magnitude of the option, or negatives
are not allowed and one of the three is negative; it returns 1 otherwise, and
the operation is no argument of it, so the verdict cannot depend on it. -/
theorem validate_question_rejects_iff (o : MC_Options) (a b r : Int)
    (ha : negatable a) (hb : negatable b) (hr : negatable r)
    (hm : negatable o.max_answer) :
    (validate_question o a b r = 0 ↔
      (|a| > |o.max_answer| ∨ |b| > |o.max_answer| ∨ |r| > |o.max_answer|)
      ∨ (o.allow_negatives = 0 ∧ (a < 0 ∨ b < 0 ∨ r < 0)))
    ∧ (validate_question o a b r = 0 ∨ validate_question o a b r = 1)
    ∧ (abs_value a ≤ INT_MAX ∧ abs_value b ≤ INT_MAX ∧ abs_value r ≤ INT_MAX
        ∧ abs_value o.max_answer ≤ INT_MAX) :=
  ⟨validate_question_eq_zero_iff o a b r, validate_question_values o a b r,
    (abs_value_fits a ha).2.2, (abs_value_fits b hb).2.2, (abs_value_fits r hr).2.2,
    (abs_value_fits o.max_answer hm).2.2⟩

theorem validate_question_rejects_iff_witness :
    validate_question example_options 11 0 0 = 0
    ∧ validate_question negative_max_options (-3) 4 1 = 1 := by
  constructor
  · exact (validate_question_rejects_iff example_options 11 0 0
      ⟨by decide, by decide⟩ ⟨by decide, by decide⟩ ⟨by decide, by decide⟩
      ⟨by decide, by decide⟩).1.mpr (Or.inl (Or.inl (by decide)))
  · obtain ⟨h1, h2, _⟩ := validate_question_rejects_iff negative_max_options (-3) 4 1
      ⟨by decide, by decide⟩ ⟨by decide, by decide⟩ ⟨by decide, by decide⟩
      ⟨by decide, by decide⟩
    refine h2.resolve_left (fun h0 => ?_)
    have := h1.mp h0
    revert this
    decide

/-- C3 as stated fails: with negatives allowed and `max_answer = -5` the
triple `(0, 0, 0)` is accepted, although `|0|` exceeds `max_answer`. -/
theorem validate_question_negative_max :
    validate_question negative_max_options 0 0 0 = 1
    ∧ ¬ (validate_question negative_max_options 0 0 0 = 0 ↔
        ((|(0 : Int)| > negative_max_options.max_answer
            ∨ |(0 : Int)| > negative_max_options.max_answer
            ∨ |(0 : Int)| > negative_max_options.max_answer)
          ∨ (negative_max_options.allow_negatives = 0
              ∧ ((0 : Int) < 0 ∨ (0 : Int) < 0 ∨ (0 : Int) < 0)))) := by
  refine ⟨by decide, ?_⟩
  intro h
  have h1 : validate_question negative_max_options 0 0 0 = 0 :=
    h.mpr (Or.inl (Or.inl (by decide)))
  revert h1
  decide



/-! ## Every generated question comes from a validated triple -/

set_option maxRecDepth 100000

theorem mem_generate_list (o : MC_Options) (rand : Nat → Nat) (q : MC_FlashCard)
    (h : q ∈ generate_list o rand) :
    ∃ t ∈ validated_triples o, q ∈ triple_cards o t := by
  have h1 : q ∈ (all_questions o).take o.max_questions.toNat :=
    (generate_list_perm o rand).mem_iff.mp h
  have h2 : q ∈ all_questions o := List.mem_of_mem_take h1
  simp only [all_questions, copy_cards, List.mem_flatMap] at h2
  obtain ⟨t, ht, _, _, hq⟩ := h2
  exact ⟨t, ht, hq⟩

theorem mem_triple_cards (o : MC_Options) (t : Triple) (q : MC_FlashCard)
    (h : q ∈ triple_cards o t) :
    q.num1 = t.n1 ∧ q.num2 = t.n2 ∧ q.num3 = t.ans ∧ q.operation = t.op
    ∧ (q.format = MC_FORMAT_ANS_MIDDLE → t.op = MC_OPER_MULT → t.n1 ≠ 0)
    ∧ (q.format = MC_FORMAT_ANS_FIRST → t.op = MC_OPER_MULT → t.n2 ≠ 0) := by
  simp only [triple_cards, format_cards, List.mem_append] at h
  rcases h with (h | h) | h
  · split at h
    · simp only [List.mem_singleton] at h
      subst h
      simp [create_node]
    · simp at h
  · split at h
    · rename_i hc
      simp only [List.mem_singleton] at h
      subst h
      have := hc.2
      simp only [decide_eq_true_eq] at this
      simp [create_node]
      exact this
    · simp at h
  · split at h
    · rename_i hc
      simp only [List.mem_singleton] at h
      subst h
      have := hc.2
      simp only [decide_eq_true_eq] at this
      simp [create_node]
      exact this
    · simp at h

theorem mem_validated_triples (o : MC_Options) (t : Triple) (h : t ∈ validated_triples o) :
    validate_question o t.n1 t.n2 t.ans ≠ 0
    ∧ (t.op = MC_OPER_ADD → t.ans = t.n1 + t.n2)
    ∧ (t.op = MC_OPER_SUB → t.ans = t.n1 - t.n2)
    ∧ (t.op = MC_OPER_MULT → t.ans = t.n1 * t.n2)
    ∧ (t.op = MC_OPER_DIV → t.n2 ≠ 0 ∧ t.n1 = t.n2 * t.ans) := by
  simp only [validated_triples, List.mem_append] at h
  rcases h with ((h | h) | h) | h
  · unfold addition_triples at h
    split at h
    · simp only [List.mem_flatMap] at h
      obtain ⟨i, _, j, _, h⟩ := h
      split at h
      · rename_i hv
        simp only [List.mem_singleton] at h
        subst h
        simp [hv]
      · simp at h
    · simp at h
  · unfold subtraction_triples at h
    split at h
    · simp only [List.mem_flatMap] at h
      obtain ⟨i, _, j, _, h⟩ := h
      split at h
      · rename_i hv
        simp only [List.mem_singleton] at h
        subst h
        simp [hv]
      · simp at h
    · simp at h
  · unfold multiplication_triples at h
    split at h
    · simp only [List.mem_flatMap] at h
      obtain ⟨i, _, j, _, h⟩ := h
      split at h
      · rename_i hv
        simp only [List.mem_singleton] at h
        subst h
        simp [hv]
      · simp at h
    · simp at h
  · unfold division_triples at h
    split at h
    · simp only [List.mem_flatMap] at h
      obtain ⟨i, _, j, _, h⟩ := h
      split at h
      · rename_i hv
        simp only [List.mem_singleton] at h
        subst h
        simp [hv.1, hv.2, Int.mul_comm]
      · simp at h
    · simp at h

/-- C4. Every question of the generated list passes `validate_question`: its
three values are at most `|max_answer|` in magnitude, and none of them is
negative when negatives are not allowed. -/
theorem generate_list_validated (o : MC_Options) (rand : Nat → Nat) (q : MC_FlashCard)
    (h : q ∈ generate_list o rand) :
    validate_question o q.num1 q.num2 q.num3 = 1
    ∧ (|q.num1| ≤ |o.max_answer| ∧ |q.num2| ≤ |o.max_answer| ∧ |q.num3| ≤ |o.max_answer|)
    ∧ (o.allow_negatives = 0 → 0 ≤ q.num1 ∧ 0 ≤ q.num2 ∧ 0 ≤ q.num3) := by
  obtain ⟨t, ht, hq⟩ := mem_generate_list o rand q h
  obtain ⟨e1, e2, e3, _, _, _⟩ := mem_triple_cards o t q hq
  have hv := (mem_validated_triples o t ht).1
  rw [← e1, ← e2, ← e3] at hv
  have hiff := validate_question_eq_zero_iff o q.num1 q.num2 q.num3
  have hnot := mt hiff.mpr hv
  simp only [not_or, not_and, not_lt, gt_iff_lt] at hnot
  refine ⟨?_, hnot.1, fun hn => hnot.2 hn⟩
  rcases validate_question_values o q.num1 q.num2 q.num3 with h0 | h1
  · exact absurd h0 hv
  · exact h1

theorem generate_list_validated_witness :
    create_node 0 2 MC_OPER_DIV 0 MC_FORMAT_ANS_MIDDLE ∈ generate_list mixed_options (fun n => 3 * n + 1)
    ∧ validate_question mixed_options 0 2 0 = 1 :=
  ⟨by decide,
    (generate_list_validated mixed_options (fun n => 3 * n + 1)
      (create_node 0 2 MC_OPER_DIV 0 MC_FORMAT_ANS_MIDDLE) (by decide)).1⟩

/-- C5. Every question of the generated list is correct for its operation:
`num3 = num1 + num2` for Add, `num3 = num1 - num2` for Sub, `num3 = num1 * num2`
for Mult, and for Div the divisor `num2` is not zero and `num1 = num2 * num3`. -/
theorem generate_list_arithmetic (o : MC_Options) (rand : Nat → Nat) (q : MC_FlashCard)
    (h : q ∈ generate_list o rand) :
    (q.operation = MC_OPER_ADD → q.num3 = q.num1 + q.num2)
    ∧ (q.operation = MC_OPER_SUB → q.num3 = q.num1 - q.num2)
    ∧ (q.operation = MC_OPER_MULT → q.num3 = q.num1 * q.num2)
    ∧ (q.operation = MC_OPER_DIV → q.num2 ≠ 0 ∧ q.num1 = q.num2 * q.num3) := by
  obtain ⟨t, ht, hq⟩ := mem_generate_list o rand q h
  obtain ⟨e1, e2, e3, e4, _, _⟩ := mem_triple_cards o t q hq
  have hv := (mem_validated_triples o t ht).2
  rw [← e1, ← e2, ← e3, ← e4] at hv
  exact hv

theorem generate_list_arithmetic_witness :
    create_node 2 2 MC_OPER_DIV 1 MC_FORMAT_ANS_FIRST ∈ generate_list mixed_options (fun n => 3 * n + 1)
    ∧ ((2 : Int) ≠ 0 ∧ (2 : Int) = 2 * 1) :=
  ⟨by decide,
    (generate_list_arithmetic mixed_options (fun n => 3 * n + 1)
      (create_node 2 2 MC_OPER_DIV 1 MC_FORMAT_ANS_FIRST) (by decide)).2.2.2 rfl⟩

/-- C6. The generated list holds no multiplication question whose unknown
multiplies a known zero: none in the middle format with `num1 = 0` and none
in the first format with `num2 = 0`. -/
theorem generate_list_no_zero_unknown (o : MC_Options) (rand : Nat → Nat) (q : MC_FlashCard)
    (h : q ∈ generate_list o rand) (hop : q.operation = MC_OPER_MULT) :
    ¬ (q.format = MC_FORMAT_ANS_MIDDLE ∧ q.num1 = 0)
    ∧ ¬ (q.format = MC_FORMAT_ANS_FIRST ∧ q.num2 = 0) := by
  obtain ⟨t, _, hq⟩ := mem_generate_list o rand q h
  obtain ⟨e1, e2, _, e4, hm, hf⟩ := mem_triple_cards o t q hq
  rw [← e4, ← e1] at hm
  rw [← e4, ← e2] at hf
  exact ⟨fun hx => hm hx.1 hop hx.2, fun hx => hf hx.1 hop hx.2⟩

theorem generate_list_no_zero_unknown_witness :
    create_node 0 1 MC_OPER_MULT 0 MC_FORMAT_ANS_FIRST ∈ generate_list mixed_options (fun n => 3 * n + 1)
    ∧ ¬ (MC_FORMAT_ANS_FIRST = MC_FORMAT_ANS_MIDDLE ∧ (0 : Int) = 0)
    ∧ ¬ (MC_FORMAT_ANS_FIRST = MC_FORMAT_ANS_FIRST ∧ (1 : Int) = 0) :=
  ⟨by decide,
    generate_list_no_zero_unknown mixed_options (fun n => 3 * n + 1)
      (create_node 0 1 MC_OPER_MULT 0 MC_FORMAT_ANS_FIRST) (by decide) rfl⟩



/-! ## The cap -/

theorem all_questions_set_max (o : MC_Options) (m : Int) :
    all_questions (MC_SetMaxQuestions o m) = all_questions o := by
  unfold MC_SetMaxQuestions
  split <;> rfl

theorem generate_list_set_max (o : MC_Options) (rand : Nat → Nat) (m : Int)
    (hr : o.randomize = 0) (hm : 0 ≤ m) :
    generate_list (MC_SetMaxQuestions o m) rand = (all_questions o).take m.toNat := by
  have h1 : (MC_SetMaxQuestions o m).randomize = 0 := by
    unfold MC_SetMaxQuestions; split <;> exact hr
  have h2 : (MC_SetMaxQuestions o m).max_questions = m := by
    unfold MC_SetMaxQuestions
    rw [if_neg (by omega)]
  rw [generate_list_unshuffled _ rand h1, all_questions_set_max, h2]

/-- C7. Without the shuffle, the list generated with the cap `m ≥ 0` is the
first `m` questions (or all of them) of the list generated with a cap `M`
that is at least `m` or at least the number of questions offered; it has at
most `m` questions; and with a cap of at least the number of questions
offered the list is the whole enumeration. -/
theorem generate_list_cap (o : MC_Options) (rand rand2 : Nat → Nat) (m M : Int)
    (hr : o.randomize = 0) (hm : 0 ≤ m)
    (hM : m ≤ M ∨ ((all_questions o).length : Int) ≤ M) :
    generate_list (MC_SetMaxQuestions o m) rand
        = (generate_list (MC_SetMaxQuestions o M) rand2).take m.toNat
    ∧ ((generate_list (MC_SetMaxQuestions o m) rand).length : Int) ≤ m
    ∧ (((all_questions o).length : Int) ≤ M →
        generate_list (MC_SetMaxQuestions o M) rand2 = all_questions o) := by
  have hM0 : 0 ≤ M := by
    rcases hM with h | h
    · omega
    · have := Int.ofNat_nonneg (all_questions o).length
      omega
  rw [generate_list_set_max o rand m hr hm, generate_list_set_max o rand2 M hr hM0]
  refine ⟨?_, ?_, ?_⟩
  · rw [List.take_take]
    rcases hM with h | h
    · rw [min_eq_left (by omega)]
    · have hle : (all_questions o).length ≤ M.toNat := by omega
      rw [List.take_eq_take]
      omega
  · rw [List.length_take]
    omega
  · intro h
    exact List.take_of_length_le (by omega)

theorem generate_list_cap_witness :
    generate_list (MC_SetMaxQuestions ordered_options 5) (fun _ => 0)
        = (generate_list (MC_SetMaxQuestions ordered_options 100) (fun n => n)).take 5
    ∧ ((generate_list (MC_SetMaxQuestions ordered_options 5) (fun _ => 0)).length : Int) ≤ 5
    ∧ (((all_questions ordered_options).length : Int) ≤ 100 →
        generate_list (MC_SetMaxQuestions ordered_options 100) (fun n => n)
          = all_questions ordered_options) :=
  generate_list_cap ordered_options (fun _ => 0) (fun n => n) 5 100 (by decide) (by decide)
    (Or.inl (by decide))



/-! ## The order of the generated list -/

theorem loop_values_pairwise (lo hi : Int) :
    (loop_values lo hi).Pairwise (fun a b => a < b) := by
  unfold loop_values
  have h : (List.range (hi + 1 - lo).toNat).Pairwise
      (fun a b : Nat => lo + (a : Int) < lo + (b : Int)) :=
    (List.pairwise_lt_range _).imp (by intro a b h; omega)
  exact List.pairwise_map.mpr h

theorem block_pairwise (op : MC_Operation) (xs ys : List Int) (v : Int → Int → Prop)
    [∀ i j, Decidable (v i j)] (T : Int → Int → Triple)
    (hx : xs.Pairwise (fun a b => a < b)) (hy : ys.Pairwise (fun a b => a < b))
    (hT : ∀ i j, (T i j).op = op ∧ triple_key (T i j) = (i, j)) :
    (xs.flatMap (fun i => ys.flatMap (fun j => if v i j then [T i j] else []))).Pairwise
      triple_before := by
  have hmem : ∀ i t, t ∈ ys.flatMap (fun j => if v i j then [T i j] else []) →
      t.op = op ∧ (triple_key t).1 = i := by
    intro i t ht
    simp only [List.mem_flatMap] at ht
    obtain ⟨j, _, hj⟩ := ht
    split at hj
    · simp only [List.mem_singleton] at hj
      subst hj
      simp [hT i j]
    · simp at hj
  rw [List.pairwise_flatMap]
  refine ⟨fun i _ => ?_, hx.imp ?_⟩
  · rw [List.pairwise_flatMap]
    refine ⟨fun j _ => ?_, hy.imp ?_⟩
    · split <;> simp
    · intro j1 j2 hlt t1 h1 t2 h2
      split at h1
      · split at h2
        · simp only [List.mem_singleton] at h1 h2
          subst h1 h2
          refine Or.inr ⟨by rw [(hT i j1).1, (hT i j2).1],
            Or.inr ⟨by rw [(hT i j1).2, (hT i j2).2], ?_⟩⟩
          rw [(hT i j1).2, (hT i j2).2]
          exact le_of_lt hlt
        · simp at h2
      · simp at h1
  · intro i1 i2 hlt t1 h1 t2 h2
    obtain ⟨o1, k1⟩ := hmem i1 t1 h1
    obtain ⟨o2, k2⟩ := hmem i2 t2 h2
    right
    exact ⟨by rw [o1, o2], Or.inl (by rw [k1, k2]; exact hlt)⟩

theorem block_op (xs ys : List Int) (v : Int → Int → Prop) [∀ i j, Decidable (v i j)]
    (T : Int → Int → Triple) (op : MC_Operation) (hT : ∀ i j, (T i j).op = op) (t : Triple)
    (ht : t ∈ xs.flatMap (fun i => ys.flatMap (fun j => if v i j then [T i j] else []))) :
    t.op = op := by
  simp only [List.mem_flatMap] at ht
  obtain ⟨i, _, j, _, hj⟩ := ht
  split at hj
  · simp only [List.mem_singleton] at hj
    subst hj
    exact hT i j
  · simp at hj

theorem addition_triples_op (o : MC_Options) (t : Triple) (h : t ∈ addition_triples o) :
    t.op = MC_OPER_ADD := by
  unfold addition_triples at h
  split at h
  · refine block_op _ _ _ _ _ ?_ t h
    intro _ _
    rfl
  · simp at h

theorem subtraction_triples_op (o : MC_Options) (t : Triple) (h : t ∈ subtraction_triples o) :
    t.op = MC_OPER_SUB := by
  unfold subtraction_triples at h
  split at h
  · refine block_op _ _ _ _ _ ?_ t h
    intro _ _
    rfl
  · simp at h

theorem multiplication_triples_op (o : MC_Options) (t : Triple)
    (h : t ∈ multiplication_triples o) : t.op = MC_OPER_MULT := by
  unfold multiplication_triples at h
  split at h
  · refine block_op _ _ _ _ _ ?_ t h
    intro _ _
    rfl
  · simp at h

theorem division_triples_op (o : MC_Options) (t : Triple) (h : t ∈ division_triples o) :
    t.op = MC_OPER_DIV := by
  unfold division_triples at h
  split at h
  · refine block_op _ _ _ _ _ ?_ t h
    intro _ _
    rfl
  · simp at h

theorem validated_triples_pairwise (o : MC_Options) :
    (validated_triples o).Pairwise triple_before := by
  have hA : (addition_triples o).Pairwise triple_before := by
    unfold addition_triples
    split
    · refine block_pairwise MC_OPER_ADD _ _ _ _ (loop_values_pairwise _ _)
        (loop_values_pairwise _ _) ?_
      intro _ _
      exact ⟨rfl, rfl⟩
    · exact List.Pairwise.nil
  have hS : (subtraction_triples o).Pairwise triple_before := by
    unfold subtraction_triples
    split
    · refine block_pairwise MC_OPER_SUB _ _ _ _ (loop_values_pairwise _ _)
        (loop_values_pairwise _ _) ?_
      intro _ _
      exact ⟨rfl, rfl⟩
    · exact List.Pairwise.nil
  have hM : (multiplication_triples o).Pairwise triple_before := by
    unfold multiplication_triples
    split
    · refine block_pairwise MC_OPER_MULT _ _ _ _ (loop_values_pairwise _ _)
        (loop_values_pairwise _ _) ?_
      intro _ _
      exact ⟨rfl, rfl⟩
    · exact List.Pairwise.nil
  have hD : (division_triples o).Pairwise triple_before := by
    unfold division_triples
    split
    · refine block_pairwise MC_OPER_DIV _ _ _ _ (loop_values_pairwise _ _)
        (loop_values_pairwise _ _) ?_
      intro _ _
      exact ⟨rfl, rfl⟩
    · exact List.Pairwise.nil
  unfold validated_triples
  rw [List.pairwise_append, List.pairwise_append, List.pairwise_append]
  refine ⟨⟨⟨hA, hS, ?_⟩, hM, ?_⟩, hD, ?_⟩
  · intro a ha b hb
    left
    rw [addition_triples_op o a ha, subtraction_triples_op o b hb]
    decide
  · intro a ha b hb
    left
    rw [multiplication_triples_op o b hb]
    rcases List.mem_append.mp ha with h | h
    · rw [addition_triples_op o a h]; decide
    · rw [subtraction_triples_op o a h]; decide
  · intro a ha b hb
    left
    rw [division_triples_op o b hb]
    rcases List.mem_append.mp ha with h | h
    · rcases List.mem_append.mp h with h | h
      · rw [addition_triples_op o a h]; decide
      · rw [subtraction_triples_op o a h]; decide
    · rw [multiplication_triples_op o a h]; decide

theorem mem_copy_cards (o : MC_Options) (t : Triple) (q : MC_FlashCard)
    (h : q ∈ copy_cards o t) : q ∈ triple_cards o t := by
  simp only [copy_cards, List.mem_flatMap] at h
  obtain ⟨_, _, hq⟩ := h
  exact hq

theorem generated_before_of_triples (o : MC_Options) (t1 t2 : Triple) (q1 q2 : MC_FlashCard)
    (h1 : q1 ∈ copy_cards o t1) (h2 : q2 ∈ copy_cards o t2) (h : triple_before t1 t2) :
    generated_before q1 q2 := by
  obtain ⟨a1, a2, a3, a4, _, _⟩ := mem_triple_cards o t1 q1 (mem_copy_cards o t1 q1 h1)
  obtain ⟨b1, b2, b3, b4, _, _⟩ := mem_triple_cards o t2 q2 (mem_copy_cards o t2 q2 h2)
  have k1 : loop_key q1 = triple_key t1 := by
    simp only [loop_key, triple_key, a1, a2, a3, a4]
  have k2 : loop_key q2 = triple_key t2 := by
    simp only [loop_key, triple_key, b1, b2, b3, b4]
  unfold generated_before
  rw [k1, k2, a4, b4]
  exact h

theorem triple_before_refl (t : Triple) : triple_before t t :=
  Or.inr ⟨rfl, Or.inr ⟨rfl, le_refl _⟩⟩

theorem all_questions_pairwise (o : MC_Options) :
    (all_questions o).Pairwise generated_before := by
  unfold all_questions
  rw [List.pairwise_flatMap]
  refine ⟨fun t _ => ?_, (validated_triples_pairwise o).imp ?_⟩
  · exact List.pairwise_of_forall_mem_list (fun q1 h1 q2 h2 =>
      generated_before_of_triples o t t q1 q2 h1 h2 (triple_before_refl t))
  · intro t1 t2 h q1 h1 q2 h2
    exact generated_before_of_triples o t1 t2 q1 q2 h1 h2 h

/-- C8. Without the shuffle, of any two questions of the generated list the
earlier one belongs to an earlier block (Add, Sub, Mult, Div in this order),
or to the same block with a pair (outer loop value, inner loop value) that is
not larger in the lexicographic order, where the pair is `(num1, num2)` for
Add, Sub and Mult and `(num3, num2)` for Div. -/
theorem generate_list_ordered (o : MC_Options) (rand : Nat → Nat) (hr : o.randomize = 0) :
    (generate_list o rand).Pairwise generated_before := by
  rw [generate_list_unshuffled o rand hr]
  exact (all_questions_pairwise o).sublist (List.take_sublist _ _)

theorem generate_list_ordered_witness :
    (generate_list ordered_options (fun _ => 0)).Pairwise generated_before :=
  generate_list_ordered ordered_options (fun _ => 0) (by decide)



/-! ## The order of the formats -/

theorem triple_cards_all_formats (o : MC_Options) (t : Triple)
    (hl : o.format_answer_last ≠ 0) (hm : o.format_answer_middle ≠ 0)
    (hf : o.format_answer_first ≠ 0)
    (ht : t.op ≠ MC_OPER_MULT ∨ (t.n1 ≠ 0 ∧ t.n2 ≠ 0)) :
    triple_cards o t =
      [create_node t.n1 t.n2 t.op t.ans MC_FORMAT_ANS_LAST,
       create_node t.n1 t.n2 t.op t.ans MC_FORMAT_ANS_MIDDLE,
       create_node t.n1 t.n2 t.op t.ans MC_FORMAT_ANS_FIRST] := by
  rcases ht with h | ⟨h1, h2⟩
  · simp [triple_cards, format_cards, hl, hm, hf, h]
  · simp [triple_cards, format_cards, hl, hm, hf, h1, h2]

/-- C9. With all three formats enabled, no shuffle and the cap not reached,
the generated list is the concatenation, over the validated triples in loop
order and over the copies of each, of one block of questions per copy; for
an Add, Sub or Div triple and for a Mult triple with both operands non-zero
the block is the three questions AnswerLast, AnswerMiddle, AnswerFirst, in
this order. -/
theorem generate_list_format_order (o : MC_Options) (rand : Nat → Nat)
    (hl : o.format_answer_last ≠ 0) (hm : o.format_answer_middle ≠ 0)
    (hf : o.format_answer_first ≠ 0) (hr : o.randomize = 0)
    (hcap : ((all_questions o).length : Int) ≤ o.max_questions) :
    generate_list o rand =
      (validated_triples o).flatMap (fun t =>
        (List.range o.question_copies.toNat).flatMap (fun _ =>
          if t.op ≠ MC_OPER_MULT ∨ (t.n1 ≠ 0 ∧ t.n2 ≠ 0) then
            [create_node t.n1 t.n2 t.op t.ans MC_FORMAT_ANS_LAST,
             create_node t.n1 t.n2 t.op t.ans MC_FORMAT_ANS_MIDDLE,
             create_node t.n1 t.n2 t.op t.ans MC_FORMAT_ANS_FIRST]
          else triple_cards o t)) := by
  rw [generate_list_unshuffled o rand hr, List.take_of_length_le (by omega)]
  unfold all_questions copy_cards
  congr 1
  funext t
  congr 1
  funext _
  split
  · rename_i ht
    exact triple_cards_all_formats o t hl hm hf ht
  · rfl

theorem generate_list_format_order_witness :
    generate_list ordered_options (fun _ => 0) =
      (validated_triples ordered_options).flatMap (fun t =>
        (List.range ordered_options.question_copies.toNat).flatMap (fun _ =>
          if t.op ≠ MC_OPER_MULT ∨ (t.n1 ≠ 0 ∧ t.n2 ≠ 0) then
            [create_node t.n1 t.n2 t.op t.ans MC_FORMAT_ANS_LAST,
             create_node t.n1 t.n2 t.op t.ans MC_FORMAT_ANS_MIDDLE,
             create_node t.n1 t.n2 t.op t.ans MC_FORMAT_ANS_FIRST]
          else triple_cards ordered_options t)) :=
  generate_list_format_order ordered_options (fun _ => 0) (by decide) (by decide) (by decide)
    (by decide) (by decide)

/-! ## The shuffle -/

/-- C10. For every list and every stream of random draws, `randomize_list`
returns a permutation of its input: the same length and every question the
same number of times, none lost and none doubled. -/
theorem randomize_list_permutation (rand : Nat → Nat) (calls : Nat)
    (list : List MC_FlashCard) :
    (randomize_list rand calls list).Perm list
    ∧ (randomize_list rand calls list).length = list.length
    ∧ ∀ q : MC_FlashCard, (randomize_list rand calls list).count q = list.count q :=
  ⟨randomize_list_perm rand calls list, (randomize_list_perm rand calls list).length_eq,
    fun q => (randomize_list_perm rand calls list).count_eq q⟩




/-! ## The draw of `pick_random` -/

theorem pick_random_two (rand : Nat → Nat) (calls : Nat) (a b : MC_FlashCard) :
    (pick_random rand calls 2 [a, b]).1 = some 0 := by
  have h0 : 0 ≤ Int.tmod (rand calls) 2 := Int.tmod_nonneg _ (Int.ofNat_nonneg _)
  have h1 : Int.tmod (rand calls) 2 < 2 := Int.tmod_lt_of_pos _ (by decide)
  have hs : (Int.tmod (rand calls) 2 - 1).toNat = 0 := by omega
  simp [pick_random, hs, list_head]

/-- C11 fails on the code.  On a list of two nodes `pick_random(2, list)`
with the draw `rand() % 2 = 1` returns the first node, at offset 0, and not
the node at offset 1; whatever the draw, it returns the first node, so the
last node is the result for no draw.  With `length = 0` it returns `list`
itself and draws nothing. -/
theorem pick_random_skips_offset (a b : MC_FlashCard) :
    Int.tmod ((fun _ => 1 : Nat → Nat) 0) 2 = 1
    ∧ (pick_random (fun _ => 1) 0 2 [a, b]).1 = some 0
    ∧ (pick_random (fun _ => 1) 0 2 [a, b]).1 ≠ some 1
    ∧ (∀ (rand : Nat → Nat) (calls : Nat), (pick_random rand calls 2 [a, b]).1 ≠ some 1)
    ∧ (∀ (rand : Nat → Nat) (calls : Nat) (list : List MC_FlashCard),
        pick_random rand calls 0 list = (list_head list, calls)) := by
  refine ⟨by decide, pick_random_two _ _ a b, ?_, ?_, ?_⟩
  · rw [pick_random_two]; decide
  · intro rand calls
    rw [pick_random_two]; decide
  · intro rand calls list
    simp [pick_random]

/-! ## The session engine: starting a game -/

theorem generate_list_eq_nil_iff (o : MC_Options) (rand : Nat → Nat) :
    generate_list o rand = [] ↔ (all_questions o).take o.max_questions.toNat = [] := by
  constructor
  · intro h
    have := generate_list_perm o rand
    rw [h] at this
    exact List.Perm.eq_nil this.symm
  · intro h
    have := generate_list_perm o rand
    rw [h] at this
    exact List.Perm.eq_nil this

theorem MC_StartGame_eq (defaults : MC_Options) (rand : Nat → Nat) (s : MC_State)
    (o : MC_Options) (pending missed : List MC_FlashCard)
    (ho : s.math_opts = some o) (hi : s.initialized ≠ 0)
    (hq : s.question_list = ListVar.live pending) (hw : s.wrong_quests = ListVar.live missed) :
    MC_StartGame defaults rand s =
      some (if generate_list o rand ≠ [] then 1 else 0,
        { s with
          question_list := ListVar.live (generate_list o rand),
          wrong_quests := freed (ListVar.live missed),
          next_wrong_quest := none,
          quest_list_length := (generate_list o rand).length,
          unanswered := (generate_list o rand).length,
          starting_length := (generate_list o rand).length,
          answered_correctly := 0,
          answered_wrong := 0,
          questions_pending := 0 }) := by
  unfold MC_StartGame
  simp only [hi, if_false, ho, hq, hw, delete_list, list_length]
  congr 2
  by_cases h : generate_list o rand = []
  · simp [h]
  · have : (generate_list o rand).length ≠ 0 := by
      intro h0; exact h (List.length_eq_zero.mp h0)
    simp [h, this]

/-- C12. For every prior state with a configuration (initialized, options
present) and two valid lists, `MC_StartGame` completes, keeps the options,
makes the pending list the list that `generate_list` produces for them, sets
`questions_pending`, `answered_correctly` and `answered_wrong` to 0 and sets
`starting_length`, `quest_list_length` and `unanswered` to the length of the
pending list. -/
theorem MC_StartGame_pending (defaults : MC_Options) (rand : Nat → Nat) (s : MC_State)
    (o : MC_Options) (pending missed : List MC_FlashCard)
    (ho : s.math_opts = some o) (hi : s.initialized ≠ 0)
    (hq : s.question_list = ListVar.live pending) (hw : s.wrong_quests = ListVar.live missed) :
    ∃ ret s2, MC_StartGame defaults rand s = some (ret, s2)
      ∧ s2.math_opts = some o
      ∧ s2.question_list = ListVar.live (generate_list o rand)
      ∧ s2.questions_pending = 0 ∧ s2.answered_correctly = 0 ∧ s2.answered_wrong = 0
      ∧ s2.starting_length = (generate_list o rand).length
      ∧ s2.quest_list_length = (generate_list o rand).length
      ∧ s2.unanswered = (generate_list o rand).length := by
  refine ⟨_, _, MC_StartGame_eq defaults rand s o pending missed ho hi hq hw, ?_⟩
  exact ⟨ho, rfl, rfl, rfl, rfl, rfl, rfl, rfl⟩

theorem MC_StartGame_pending_witness :
    ∃ ret s2, MC_StartGame example_options (fun _ => 0) playing_state = some (ret, s2)
      ∧ s2.math_opts = some example_options
      ∧ s2.question_list = ListVar.live (generate_list example_options (fun _ => 0))
      ∧ s2.questions_pending = 0 ∧ s2.answered_correctly = 0 ∧ s2.answered_wrong = 0
      ∧ s2.starting_length = (generate_list example_options (fun _ => 0)).length
      ∧ s2.quest_list_length = (generate_list example_options (fun _ => 0)).length
      ∧ s2.unanswered = (generate_list example_options (fun _ => 0)).length :=
  MC_StartGame_pending example_options (fun _ => 0) playing_state example_options
    [create_node 1 1 MC_OPER_ADD 2 MC_FORMAT_ANS_LAST,
      create_node 2 2 MC_OPER_ADD 4 MC_FORMAT_ANS_LAST]
    [create_node 1 2 MC_OPER_ADD 3 MC_FORMAT_ANS_LAST] rfl (by decide) rfl rfl

theorem all_questions_no_operation (o : MC_Options)
    (h : o.addition_allowed = 0 ∧ o.subtraction_allowed = 0
      ∧ o.multiplication_allowed = 0 ∧ o.division_allowed = 0) :
    all_questions o = [] := by
  obtain ⟨h1, h2, h3, h4⟩ := h
  simp [all_questions, validated_triples, addition_triples, subtraction_triples,
    multiplication_triples, division_triples, h1, h2, h3, h4]

theorem all_questions_no_format (o : MC_Options)
    (h : o.format_answer_last = 0 ∧ o.format_answer_middle = 0 ∧ o.format_answer_first = 0) :
    all_questions o = [] := by
  obtain ⟨h1, h2, h3⟩ := h
  have hc : ∀ t, copy_cards o t = [] := by
    intro t
    simp [copy_cards, triple_cards, format_cards, h1, h2, h3]
  simp [all_questions, hc]

/-- C13. In a state with a configuration `MC_StartGame` completes and returns
0 exactly when the generated list is empty, and 1 otherwise; the list is empty
when no operation is enabled, when no triple validates, when no format is
enabled and when `max_questions` is 0. -/
theorem MC_StartGame_return (defaults : MC_Options) (rand : Nat → Nat) (s : MC_State)
    (o : MC_Options) (pending missed : List MC_FlashCard)
    (ho : s.math_opts = some o) (hi : s.initialized ≠ 0)
    (hq : s.question_list = ListVar.live pending) (hw : s.wrong_quests = ListVar.live missed) :
    ∃ ret s2, MC_StartGame defaults rand s = some (ret, s2)
      ∧ (ret = 0 ↔ generate_list o rand = [])
      ∧ (generate_list o rand ≠ [] → ret = 1)
      ∧ (o.addition_allowed = 0 ∧ o.subtraction_allowed = 0
          ∧ o.multiplication_allowed = 0 ∧ o.division_allowed = 0 → generate_list o rand = [])
      ∧ (validated_triples o = [] → generate_list o rand = [])
      ∧ (o.format_answer_last = 0 ∧ o.format_answer_middle = 0 ∧ o.format_answer_first = 0 →
          generate_list o rand = [])
      ∧ (o.max_questions = 0 → generate_list o rand = []) := by
  refine ⟨_, _, MC_StartGame_eq defaults rand s o pending missed ho hi hq hw, ?_, ?_, ?_, ?_,
    ?_, ?_⟩
  · by_cases h : generate_list o rand = [] <;> simp [h]
  · intro h; simp [h]
  · intro h
    rw [generate_list_eq_nil_iff, all_questions_no_operation o h, List.take_nil]
  · intro h
    rw [generate_list_eq_nil_iff]
    simp [all_questions, h]
  · intro h
    rw [generate_list_eq_nil_iff, all_questions_no_format o h, List.take_nil]
  · intro h
    rw [generate_list_eq_nil_iff, h]
    rfl

theorem MC_StartGame_return_witness :
    ∃ ret s2, MC_StartGame example_options (fun _ => 0)
        { fresh_state with
          math_opts := some (MC_SetMaxQuestions example_options 0), initialized := 1 }
        = some (ret, s2) ∧ ret = 0 := by
  obtain ⟨ret, s2, h, hiff, _, _, _, _, hmax⟩ :=
    MC_StartGame_return example_options (fun _ => 0)
      { fresh_state with
        math_opts := some (MC_SetMaxQuestions example_options 0), initialized := 1 }
      (MC_SetMaxQuestions example_options 0) [] [] rfl (by decide) rfl rfl
  exact ⟨ret, s2, h, hiff.mpr (hmax rfl)⟩

/-- C14 fails on the code.  In the session `restart_after_miss` the second
`MC_StartGame` returns 1 and leaves `wrong_quests` pointing to the freed nodes
of the missed question, not null; `MC_StartGameUsingWrongs`, called next,
reads those freed nodes instead of delegating to `MC_StartGame`, and has no
defined result. -/
theorem MC_StartGame_keeps_freed_missed :
    restart_after_miss.map (fun r => (r.1, r.2.wrong_quests)) = some (1, ListVar.dangling)
    ∧ (restart_after_miss.bind
        (fun r => MC_StartGameUsingWrongs example_options (fun _ => 0) r.2)).isNone = true := by
  constructor <;> decide


theorem MC_StartGameUsingWrongs_eq (defaults : MC_Options) (rand : Nat → Nat)
    (s : MC_State) (pending missed : List MC_FlashCard)
    (hq : s.question_list = ListVar.live pending) (hw : s.wrong_quests = ListVar.live missed)
    (hne : missed ≠ []) :
    MC_StartGameUsingWrongs defaults rand s =
      some (1,
        { s with
          question_list := ListVar.live (randomize_list rand 0 missed),
          wrong_quests := ListVar.live [],
          next_wrong_quest := none,
          quest_list_length := (randomize_list rand 0 missed).length,
          unanswered := (randomize_list rand 0 missed).length,
          starting_length := (randomize_list rand 0 missed).length,
          answered_correctly := 0,
          answered_wrong := 0,
          questions_pending := 0 }) := by
  have hlen : missed.length ≠ 0 := fun h0 => hne (List.length_eq_zero.mp h0)
  unfold MC_StartGameUsingWrongs
  simp only [hw, hq, delete_list, list_length]
  rw [if_pos ⟨hne, by exact_mod_cast hlen⟩]

/-- C15. In a state whose missed list is valid and not empty (and whose
pending list is valid) `MC_StartGameUsingWrongs` returns 1, makes the pending
list a permutation of the missed list, leaves the missed list empty, sets
`questions_pending`, `answered_correctly` and `answered_wrong` to 0 and sets
`starting_length`, `quest_list_length` and `unanswered` to the number of
missed questions; with an empty missed list its result is that of
`MC_StartGame`. -/
theorem MC_StartGameUsingWrongs_spec (defaults : MC_Options) (rand : Nat → Nat)
    (s : MC_State) (pending missed : List MC_FlashCard)
    (hq : s.question_list = ListVar.live pending) (hw : s.wrong_quests = ListVar.live missed) :
    (missed ≠ [] →
      ∃ s2 l, MC_StartGameUsingWrongs defaults rand s = some (1, s2)
        ∧ s2.question_list = ListVar.live l ∧ l.Perm missed
        ∧ s2.wrong_quests = ListVar.live []
        ∧ s2.questions_pending = 0 ∧ s2.answered_correctly = 0 ∧ s2.answered_wrong = 0
        ∧ s2.starting_length = missed.length
        ∧ s2.quest_list_length = missed.length
        ∧ s2.unanswered = missed.length)
    ∧ (missed = [] →
        MC_StartGameUsingWrongs defaults rand s = MC_StartGame defaults rand s) := by
  constructor
  · intro hne
    have hperm := randomize_list_perm rand 0 missed
    refine ⟨_, randomize_list rand 0 missed,
      MC_StartGameUsingWrongs_eq defaults rand s pending missed hq hw hne, rfl, hperm, rfl,
      rfl, rfl, rfl, ?_, ?_, ?_⟩ <;>
    · show ((randomize_list rand 0 missed).length : Int) = missed.length
      rw [hperm.length_eq]
  · intro hnil
    subst hnil
    unfold MC_StartGameUsingWrongs
    simp [hw]

theorem MC_StartGameUsingWrongs_spec_witness :
    ∃ s2 l, MC_StartGameUsingWrongs example_options (fun _ => 0) playing_state = some (1, s2)
      ∧ s2.question_list = ListVar.live l
      ∧ l.Perm [create_node 1 2 MC_OPER_ADD 3 MC_FORMAT_ANS_LAST]
      ∧ s2.wrong_quests = ListVar.live []
      ∧ s2.questions_pending = 0 ∧ s2.answered_correctly = 0 ∧ s2.answered_wrong = 0
      ∧ s2.starting_length = ([create_node 1 2 MC_OPER_ADD 3 MC_FORMAT_ANS_LAST].length : Int)
      ∧ s2.quest_list_length = ([create_node 1 2 MC_OPER_ADD 3 MC_FORMAT_ANS_LAST].length : Int)
      ∧ s2.unanswered = ([create_node 1 2 MC_OPER_ADD 3 MC_FORMAT_ANS_LAST].length : Int) :=
  (MC_StartGameUsingWrongs_spec example_options (fun _ => 0) playing_state
    [create_node 1 1 MC_OPER_ADD 2 MC_FORMAT_ANS_LAST,
      create_node 2 2 MC_OPER_ADD 4 MC_FORMAT_ANS_LAST]
    [create_node 1 2 MC_OPER_ADD 3 MC_FORMAT_ANS_LAST] rfl rfl).1 (by decide)

/-! ## The session engine: asking a question -/

/-- C16. With a pending list `first :: rest` and a valid output card,
`MC_NextQuestion` returns 1, writes the five fields of `first` to the card,
leaves `rest` as the pending list, decrements `quest_list_length`, increments
`questions_pending` and changes nothing else. -/
theorem MC_NextQuestion_serves_first (card first : MC_FlashCard) (rest : List MC_FlashCard)
    (s : MC_State) (hq : s.question_list = ListVar.live (first :: rest)) :
    ∃ out s2, MC_NextQuestion (some card) s = some (1, some out, s2)
      ∧ out.num1 = first.num1 ∧ out.num2 = first.num2 ∧ out.num3 = first.num3
      ∧ out.operation = first.operation ∧ out.format = first.format
      ∧ s2 = { s with
          question_list := ListVar.live rest,
          quest_list_length := s.quest_list_length - 1,
          questions_pending := s.questions_pending + 1 }
      ∧ s2.unanswered = s.unanswered ∧ s2.answered_correctly = s.answered_correctly
      ∧ s2.answered_wrong = s.answered_wrong ∧ s2.starting_length = s.starting_length
      ∧ s2.wrong_quests = s.wrong_quests ∧ s2.math_opts = s.math_opts := by
  refine ⟨_, _, ?_, rfl, rfl, rfl, rfl, rfl, rfl, rfl, rfl, rfl, rfl, rfl, rfl⟩
  unfold MC_NextQuestion
  simp [hq, remove_node, list_head]

theorem MC_NextQuestion_serves_first_witness :
    ∃ out s2, MC_NextQuestion (some blank_card) playing_state = some (1, some out, s2)
      ∧ out.num1 = 1 ∧ out.num2 = 1 ∧ out.num3 = 2
      ∧ out.operation = MC_OPER_ADD ∧ out.format = MC_FORMAT_ANS_LAST
      ∧ s2.question_list = ListVar.live [create_node 2 2 MC_OPER_ADD 4 MC_FORMAT_ANS_LAST]
      ∧ s2.quest_list_length = 1 ∧ s2.questions_pending = 2 := by
  obtain ⟨out, s2, h, h1, h2, h3, h4, h5, hs, _⟩ :=
    MC_NextQuestion_serves_first blank_card (create_node 1 1 MC_OPER_ADD 2 MC_FORMAT_ANS_LAST)
      [create_node 2 2 MC_OPER_ADD 4 MC_FORMAT_ANS_LAST] playing_state rfl
  refine ⟨out, s2, h, h1, h2, h3, h4, h5, ?_, ?_, ?_⟩ <;> rw [hs] <;> rfl

/-- C17. When the output card is null, or the pending list is empty,
`MC_NextQuestion` returns 0 and leaves the card and the whole state, both
lists and every counter, as they were. -/
theorem MC_NextQuestion_fails (fc : Option MC_FlashCard) (s : MC_State)
    (h : fc = none ∨ s.question_list = ListVar.live []) :
    MC_NextQuestion fc s = some (0, fc, s) := by
  unfold MC_NextQuestion
  rcases h with h | h
  · subst h; rfl
  · cases fc with
    | none => rfl
    | some c => simp [h]

theorem MC_NextQuestion_fails_witness :
    MC_NextQuestion (some blank_card) missed_state = some (0, some blank_card, missed_state)
    ∧ MC_NextQuestion none playing_state = some (0, none, playing_state) :=
  ⟨MC_NextQuestion_fails (some blank_card) missed_state (Or.inr rfl),
    MC_NextQuestion_fails none playing_state (Or.inl rfl)⟩


/-! ## The session engine: answers -/

theorem insert_pick (rand : Nat → Nat) (calls : Nat) (list : List MC_FlashCard)
    (q : MC_FlashCard) :
    ∃ k, k ≤ list.length ∧
      insert_node list (pick_random rand calls (list.length : Int) list).1 (some q)
        = list.take k ++ q :: list.drop k := by
  cases hl : list with
  | nil =>
    exact ⟨0, le_refl _, by simp [pick_random, list_head, insert_node]⟩
  | cons a t =>
    obtain ⟨k, hk, hpick⟩ := pick_random_pos rand calls (a :: t) (by simp)
    refine ⟨k + 1, hk, ?_⟩
    rw [hpick]
    rfl

theorem take_insert_drop_perm (list : List MC_FlashCard) (k : Nat) (q : MC_FlashCard) :
    (list.take k ++ q :: list.drop k).Perm (q :: list) :=
  List.perm_middle.trans (by rw [List.take_append_drop])

theorem take_insert_drop_sublist (list : List MC_FlashCard) (k : Nat) (q : MC_FlashCard) :
    list.Sublist (list.take k ++ q :: list.drop k) := by
  conv_lhs => rw [← List.take_append_drop k list]
  exact List.Sublist.append (List.Sublist.refl _) (List.sublist_cons_self _ _)

theorem MC_AnsweredCorrectly_off (rand : Nat → Nat) (q : MC_FlashCard) (s : MC_State)
    (o : MC_Options) (pending : List MC_FlashCard)
    (ho : s.math_opts = some o) (hq : s.question_list = ListVar.live pending)
    (hlen : s.quest_list_length = pending.length) (hp : o.play_through_list = 0) :
    ∃ k, k ≤ pending.length ∧
      MC_AnsweredCorrectly rand (some q) s =
        some (1, { s with
          answered_correctly := s.answered_correctly + 1,
          questions_pending := s.questions_pending - 1,
          question_list := ListVar.live (pending.take k ++ q :: pending.drop k),
          quest_list_length := s.quest_list_length + 1 }) := by
  obtain ⟨k, hk, hins⟩ := insert_pick rand 0 pending q
  refine ⟨k, hk, ?_⟩
  unfold MC_AnsweredCorrectly
  simp only [ho, hq, hp, if_true, hlen, create_node_from_card]
  rw [← hins]

theorem MC_AnsweredCorrectly_on (rand : Nat → Nat) (q : MC_FlashCard) (s : MC_State)
    (o : MC_Options) (ho : s.math_opts = some o) (hp : o.play_through_list ≠ 0) :
    MC_AnsweredCorrectly rand (some q) s =
      some (1, { s with
        answered_correctly := s.answered_correctly + 1,
        questions_pending := s.questions_pending - 1,
        unanswered := s.unanswered - 1 }) := by
  unfold MC_AnsweredCorrectly
  simp only [ho, hp, if_false]

theorem reinsert_rounds (rand : Nat → Nat) (q : MC_FlashCard) (list : List MC_FlashCard)
    (calls0 : Nat) (n : Nat) :
    ∃ l calls,
      (List.range n).foldl (fun acc _ => reinsert_round rand (some q) acc)
          (list, (list.length : Int), calls0)
        = (l, (list.length : Int) + n, calls)
      ∧ l.Perm (List.replicate n q ++ list) ∧ list.Sublist l := by
  induction n with
  | zero => exact ⟨list, calls0, by simp, by simp, List.Sublist.refl _⟩
  | succ n ih =>
    obtain ⟨l, calls, heq, hperm, hsub⟩ := ih
    have hlen : (list.length : Int) + n = (l.length : Int) := by
      have := hperm.length_eq
      simp at this
      omega
    obtain ⟨k, _, hins⟩ := insert_pick rand calls l q
    refine ⟨l.take k ++ q :: l.drop k, (pick_random rand calls (l.length : Int) l).2, ?_, ?_, ?_⟩
    · rw [List.range_succ, List.foldl_append, heq]
      simp only [List.foldl_cons, List.foldl_nil, reinsert_round, create_node_from_card]
      rw [hlen, hins]
      have hcast : (l.length : Int) + 1 = (list.length : Int) + ((n + 1 : Nat) : Int) := by
        push_cast
        omega
      rw [hcast]
    · refine (take_insert_drop_perm l k q).trans ?_
      rw [List.replicate_succ, List.cons_append]
      exact List.Perm.cons q hperm
    · exact hsub.trans (take_insert_drop_sublist l k q)

theorem MC_AnsweredIncorrectly_eq (rand : Nat → Nat) (q : MC_FlashCard) (s : MC_State)
    (o : MC_Options) (pending missed : List MC_FlashCard)
    (ho : s.math_opts = some o) (hq : s.question_list = ListVar.live pending)
    (hw : s.wrong_quests = ListVar.live missed) :
    MC_AnsweredIncorrectly rand (some q) s =
      some (1, { s with
        answered_wrong := s.answered_wrong + 1,
        questions_pending := s.questions_pending - 1,
        wrong_quests := ListVar.live
          (if already_in_list missed (some q) = 0 then append_node missed (some q) else missed),
        question_list := ListVar.live
          (if o.repeat_wrongs ≠ 0 then
            ((List.range o.copies_repeated_wrongs.toNat).foldl
              (fun acc _ => reinsert_round rand (some q) acc)
              (pending, s.quest_list_length, 0)).1
          else pending),
        quest_list_length :=
          if o.repeat_wrongs ≠ 0 then
            ((List.range o.copies_repeated_wrongs.toNat).foldl
              (fun acc _ => reinsert_round rand (some q) acc)
              (pending, s.quest_list_length, 0)).2.1
          else s.quest_list_length,
        unanswered :=
          if o.repeat_wrongs ≠ 0 then s.unanswered + (o.copies_repeated_wrongs - 1)
          else s.unanswered - 1 }) := by
  cases s
  simp only at ho hq hw
  subst ho hq hw
  unfold MC_AnsweredIncorrectly
  by_cases hin : already_in_list missed (some q) = 0 <;>
    by_cases hr : o.repeat_wrongs = 0 <;>
    simp [hin, hr, create_node_from_card]

theorem MC_NextQuestion_eq (card first : MC_FlashCard) (rest : List MC_FlashCard)
    (s : MC_State) (hq : s.question_list = ListVar.live (first :: rest)) :
    MC_NextQuestion (some card) s =
      some (1, some first,
        { s with
          question_list := ListVar.live rest,
          quest_list_length := s.quest_list_length - 1,
          questions_pending := s.questions_pending + 1 }) := by
  unfold MC_NextQuestion
  simp [hq, remove_node, list_head]

theorem generate_list_scenario (o : MC_Options) (rand : Nat → Nat)
    (hop : only_operation o MC_OPER_ADD) (hf : only_format o MC_FORMAT_ANS_LAST)
    (hc : o.question_copies = 1) (hr : o.randomize = 0) (hcap : 4 ≤ o.max_questions)
    (hv : o.min_augend = 1 ∧ o.max_augend = 2 ∧ o.min_addend = 1 ∧ o.max_addend = 2
      ∧ o.allow_negatives = 0 ∧ o.max_answer = 10) :
    (generate_list o rand).length = 4 := by
  obtain ⟨h1, h2, h3, h4, h5, h6⟩ := hv
  have hl : loop_values 1 2 = [1, 2] := by decide
  have hpairs : addition_pairs o = [(1, 1), (1, 2), (2, 1), (2, 2)] := by
    simp [addition_pairs, h1, h2, h3, h4, hl, List.product, validate_question, abs_value,
      h5, h6]
  rw [generate_list_unshuffled o rand hr, all_questions_addition_last o hop hf hc, hpairs,
    List.length_take]
  simp only [List.map_cons, List.map_nil, List.length_cons, List.length_nil]
  omega

/-- C19. After a `MC_StartGame` that returns 1, with `play_through_list`
off, the generated list has `n ≥ 1` questions; `MC_NextQuestion` followed by
`MC_AnsweredCorrectly` on the card it wrote both return 1 and leave
`quest_list_length = n`, `unanswered = n` and a pending list that is a
permutation of the one before the two calls.  For the options of the addition
scenario `n` is 4, so both counters are 4. -/
theorem next_then_correct (defaults : MC_Options) (rand rand2 : Nat → Nat) (s s1 : MC_State)
    (o : MC_Options) (pending missed : List MC_FlashCard) (card : MC_FlashCard)
    (ho : s.math_opts = some o) (hi : s.initialized ≠ 0)
    (hq : s.question_list = ListVar.live pending) (hw : s.wrong_quests = ListVar.live missed)
    (hp : o.play_through_list = 0)
    (hstart : MC_StartGame defaults rand s = some (1, s1)) :
    ∃ (n : Nat) (served : MC_FlashCard) (s2 s3 : MC_State) (after : List MC_FlashCard),
      1 ≤ n ∧ n = (generate_list o rand).length
      ∧ s1.question_list = ListVar.live (generate_list o rand)
      ∧ s1.quest_list_length = n ∧ s1.unanswered = n
      ∧ MC_NextQuestion (some card) s1 = some (1, some served, s2)
      ∧ MC_AnsweredCorrectly rand2 (some served) s2 = some (1, s3)
      ∧ s3.quest_list_length = n ∧ s3.unanswered = n
      ∧ s3.question_list = ListVar.live after ∧ after.Perm (generate_list o rand)
      ∧ (only_operation o MC_OPER_ADD ∧ only_format o MC_FORMAT_ANS_LAST
          ∧ o.question_copies = 1 ∧ o.randomize = 0 ∧ 4 ≤ o.max_questions
          ∧ o.min_augend = 1 ∧ o.max_augend = 2 ∧ o.min_addend = 1 ∧ o.max_addend = 2
          ∧ o.allow_negatives = 0 ∧ o.max_answer = 10 →
          s3.quest_list_length = 4 ∧ s3.unanswered = 4) := by
  have heq := MC_StartGame_eq defaults rand s o pending missed ho hi hq hw
  rw [heq] at hstart
  simp only [Option.some.injEq, Prod.mk.injEq] at hstart
  obtain ⟨hret, hs1⟩ := hstart
  have hne : generate_list o rand ≠ [] := by
    intro h
    simp [h] at hret
  obtain ⟨first, rest, hL⟩ := List.exists_cons_of_ne_nil hne
  have hq1 : s1.question_list = ListVar.live (first :: rest) := by
    rw [← hs1, hL]
  have hnext := MC_NextQuestion_eq card first rest s1 hq1
  have hlen1 : s1.quest_list_length = ((first :: rest).length : Int) := by
    rw [← hs1, hL]
  have hun1 : s1.unanswered = ((first :: rest).length : Int) := by
    rw [← hs1, hL]
  have ho1 : s1.math_opts = some o := by
    rw [← hs1]; exact ho
  obtain ⟨k, _, hans⟩ := MC_AnsweredCorrectly_off rand2 first
    { s1 with
      question_list := ListVar.live rest,
      quest_list_length := s1.quest_list_length - 1,
      questions_pending := s1.questions_pending + 1 } o rest ho1 rfl
    (by show s1.quest_list_length - 1 = _
        rw [hlen1]; simp) hp
  have hn3 : s1.quest_list_length - 1 + 1 = ((generate_list o rand).length : Int) := by
    rw [hlen1, hL]; ring
  have hu3 : s1.unanswered = ((generate_list o rand).length : Int) := by
    rw [hun1, hL]
  refine ⟨(generate_list o rand).length, first, _, _, rest.take k ++ first :: rest.drop k,
    ?_, rfl, ?_, ?_, ?_, hnext, hans, hn3, hu3, rfl, ?_, ?_⟩
  · rw [hL]; simp
  · rw [hq1, hL]
  · rw [hlen1, hL]
  · rw [hun1, hL]
  · rw [hL]; exact take_insert_drop_perm rest k first
  · rintro ⟨a1, a2, a3, a4, a5, a6⟩
    have h4 := generate_list_scenario o rand a1 a2 a3 a4 a5 a6
    constructor
    · show s1.quest_list_length - 1 + 1 = 4
      rw [hn3, h4]; rfl
    · show s1.unanswered = 4
      rw [hu3, h4]; rfl

theorem next_then_correct_witness :
    ∃ (s1 s3 : MC_State),
      MC_StartGame example_options (fun _ => 0) sampling_state = some (1, s1)
      ∧ s3.quest_list_length = 4 ∧ s3.unanswered = 4 := by
  have hstart : ∃ s1, MC_StartGame example_options (fun _ => 0) sampling_state = some (1, s1) :=
    ⟨_, MC_StartGame_eq example_options (fun _ => 0) sampling_state sampling_options [] []
      rfl (by decide) rfl rfl⟩
  obtain ⟨s1, h1⟩ := hstart
  obtain ⟨_, _, _, s3, _, _, _, _, _, _, _, _, _, _, _, _, hsc⟩ :=
    next_then_correct example_options (fun _ => 0) (fun n => n) sampling_state s1
      sampling_options [] [] blank_card rfl (by decide) rfl rfl rfl h1
  have h := hsc ⟨by unfold only_operation; decide, by unfold only_format; decide,
    by decide, by decide, by decide, by decide, by decide, by decide, by decide, by decide,
    by decide⟩
  exact ⟨s1, s3, h1, h.1, h.2⟩



/-! ## The session engine: queries, initialization and the end of a game -/

/-- C22. In a state with options `MC_MissionAccomplished` returns 1 exactly
when `starting_length` is not 0, `repeat_wrongs` is enabled and `unanswered`
is 0, and 0 otherwise; `starting_length`, a list length, is never negative,
and then "not 0" is "greater than 0".  With `starting_length = 0` it returns 0
whatever the options and the other counters are, also without options. -/
theorem MC_MissionAccomplished_iff (s : MC_State) :
    (∀ o, s.math_opts = some o →
      ∃ r, MC_MissionAccomplished s = some r ∧ (r = 0 ∨ r = 1)
        ∧ (r = 1 ↔ s.starting_length ≠ 0 ∧ o.repeat_wrongs ≠ 0 ∧ s.unanswered = 0)
        ∧ (0 ≤ s.starting_length →
            (r = 1 ↔ 0 < s.starting_length ∧ o.repeat_wrongs ≠ 0 ∧ s.unanswered = 0)))
    ∧ (s.starting_length = 0 → MC_MissionAccomplished s = some 0) := by
  constructor
  · intro o ho
    unfold MC_MissionAccomplished
    by_cases h0 : s.starting_length = 0
    · refine ⟨0, by simp [h0], Or.inl rfl, by simp [h0], fun _ => by simp [h0]⟩
    · by_cases h1 : o.repeat_wrongs ≠ 0 ∧ s.unanswered = 0
      · refine ⟨1, by simp [h0, ho, h1], Or.inr rfl, by simp [h0, h1], fun hn => ?_⟩
        have : 0 < s.starting_length := by omega
        simp [this, h1]
      · refine ⟨0, by simp [h0, ho, h1], Or.inl rfl, ?_, fun _ => ?_⟩
        · simp only [zero_ne_one, false_iff]
          exact fun h => h1 h.2
        · simp only [zero_ne_one, false_iff]
          exact fun h => h1 h.2
  · intro h0
    simp [MC_MissionAccomplished, h0]

theorem MC_MissionAccomplished_iff_witness :
    MC_MissionAccomplished playing_state = some 0
    ∧ MC_MissionAccomplished { playing_state with unanswered := 0 } = some 1
    ∧ MC_MissionAccomplished fresh_state = some 0 := by
  refine ⟨?_, ?_, (MC_MissionAccomplished_iff fresh_state).2 rfl⟩
  · obtain ⟨r, hr, h01, hiff, _⟩ :=
      (MC_MissionAccomplished_iff playing_state).1 example_options rfl
    rcases h01 with h | h
    · rw [hr, h]
    · exact absurd (hiff.mp h).2.2 (by decide)
  · obtain ⟨r, hr, _, hiff, _⟩ :=
      (MC_MissionAccomplished_iff { playing_state with unanswered := 0 }).1 example_options rfl
    rw [hr, hiff.mpr ⟨by decide, by decide, rfl⟩]

/-- C26. In an initialized state `MC_Initialize` returns 1 and changes
nothing; so a second call, right after a first one, returns 1 and leaves the
state that the first call left. -/
theorem MC_Initialize_idempotent (defaults : MC_Options) (s : MC_State) :
    (s.initialized ≠ 0 → MC_Initialize defaults s = (1, s))
    ∧ MC_Initialize defaults (MC_Initialize defaults s).2 = (1, (MC_Initialize defaults s).2) := by
  have h1 : ∀ t : MC_State, t.initialized ≠ 0 → MC_Initialize defaults t = (1, t) := by
    intro t ht
    simp [MC_Initialize, ht]
  refine ⟨h1 s, h1 _ ?_⟩
  unfold MC_Initialize
  split
  · assumption
  · simp

theorem MC_Initialize_idempotent_witness :
    MC_Initialize example_options playing_state = (1, playing_state) :=
  (MC_Initialize_idempotent example_options playing_state).1 (by decide)

theorem MC_EndGame_eq (s : MC_State) (pending missed : List MC_FlashCard)
    (hq : s.question_list = ListVar.live pending) (hw : s.wrong_quests = ListVar.live missed) :
    MC_EndGame s = some { s with
      question_list := ListVar.live [],
      wrong_quests := ListVar.live [],
      math_opts := none,
      initialized := 0 } := by
  simp [MC_EndGame, hq, hw, delete_list]

/-- The counters after `MC_EndGame`. From a state with valid lists `MC_EndGame`
completes and leaves both lists empty; it assigns no counter, so
`quest_list_length`, `questions_pending`, `unanswered`, `answered_correctly`,
`answered_wrong` and `starting_length` keep their values, and
`MC_TotalQuestionsLeft` and `MC_ListQuestionsLeft` return what they returned
before. -/
theorem MC_EndGame_keeps_counters (s : MC_State) (pending missed : List MC_FlashCard)
    (hq : s.question_list = ListVar.live pending) (hw : s.wrong_quests = ListVar.live missed) :
    ∃ s2, MC_EndGame s = some s2
      ∧ s2.question_list = ListVar.live [] ∧ s2.wrong_quests = ListVar.live []
      ∧ s2.quest_list_length = s.quest_list_length
      ∧ s2.questions_pending = s.questions_pending
      ∧ s2.unanswered = s.unanswered
      ∧ s2.answered_correctly = s.answered_correctly
      ∧ s2.answered_wrong = s.answered_wrong
      ∧ s2.starting_length = s.starting_length
      ∧ MC_TotalQuestionsLeft s2 = MC_TotalQuestionsLeft s
      ∧ MC_ListQuestionsLeft s2 = MC_ListQuestionsLeft s :=
  ⟨_, MC_EndGame_eq s pending missed hq hw, rfl, rfl, rfl, rfl, rfl, rfl, rfl, rfl, rfl, rfl⟩

theorem MC_EndGame_keeps_counters_witness :
    ∃ s2, MC_EndGame playing_state = some s2
      ∧ s2.question_list = ListVar.live [] ∧ s2.wrong_quests = ListVar.live []
      ∧ s2.quest_list_length = 2 ∧ s2.unanswered = 3 ∧ s2.starting_length = 4 := by
  obtain ⟨s2, h, h1, h2, h3, _, h5, _, _, h8, _⟩ :=
    MC_EndGame_keeps_counters playing_state
      [create_node 1 1 MC_OPER_ADD 2 MC_FORMAT_ANS_LAST,
        create_node 2 2 MC_OPER_ADD 4 MC_FORMAT_ANS_LAST]
      [create_node 1 2 MC_OPER_ADD 3 MC_FORMAT_ANS_LAST] rfl rfl
  exact ⟨s2, h, h1, h2, h3, h5, h8⟩

/-- C27 fails on the code. A game of four questions is started from the
start of the program and ended with `MC_EndGame`: both lists are empty, and
`quest_list_length`, `unanswered` and `starting_length` are still 4, so
`MC_TotalQuestionsLeft` and `MC_ListQuestionsLeft` return 4 for lists that
hold nothing.  In the state `playing_state` the counters 2, 1, 3, 1 and 4
stay as well, and the two functions return 3 and 2, not 0. -/
theorem MC_EndGame_counters_not_reset :
    ended_game.map
        (fun s => (s.question_list, s.wrong_quests, s.quest_list_length, s.unanswered,
          s.starting_length))
      = some (ListVar.live [], ListVar.live [], 4, 4, 4)
    ∧ ended_game.map (fun s => (MC_TotalQuestionsLeft s, MC_ListQuestionsLeft s))
      = some (4, 4)
    ∧ (MC_EndGame playing_state).map (fun s2 => (s2.question_list, s2.wrong_quests))
      = some (ListVar.live [], ListVar.live [])
    ∧ (MC_EndGame playing_state).map
        (fun s2 => (s2.quest_list_length, s2.questions_pending, s2.unanswered,
          s2.answered_wrong, s2.starting_length))
      = some (2, 1, 3, 1, 4)
    ∧ (MC_EndGame playing_state).map
        (fun s2 => (MC_TotalQuestionsLeft s2, MC_ListQuestionsLeft s2)) = some (3, 2)
    ∧ ¬ ((MC_EndGame playing_state).map
        (fun s2 => (MC_TotalQuestionsLeft s2, MC_ListQuestionsLeft s2)) = some (0, 0)) := by
  refine ⟨by decide, by decide, by decide, by decide, by decide, by decide⟩

/-- C28, as the code has it. From an initialized state with valid lists
`MC_EndGame` completes, discards the options (`math_opts` is null afterwards)
and leaves the engine uninitialized (`initialized = 0`); a following
`MC_Initialize` is no no-op: it returns 1 and installs the default options,
with negative bounds cleared when the defaults disallow negatives. -/
theorem MC_EndGame_discards_options (defaults : MC_Options) (s : MC_State)
    (pending missed : List MC_FlashCard)
    (hq : s.question_list = ListVar.live pending) (hw : s.wrong_quests = ListVar.live missed) :
    ∃ s2, MC_EndGame s = some s2
      ∧ s2.math_opts = none ∧ s2.initialized = 0
      ∧ MC_Initialize defaults s2 =
          (1, { s2 with
            math_opts := some
              (if defaults.allow_negatives = 0 then clear_negatives defaults else defaults),
            initialized := 1 }) :=
  ⟨_, MC_EndGame_eq s pending missed hq hw, rfl, rfl, by simp [MC_Initialize]⟩

theorem MC_EndGame_discards_options_witness :
    ∃ s2, MC_EndGame playing_state = some s2 ∧ s2.math_opts = none ∧ s2.initialized = 0 := by
  obtain ⟨s2, h, h1, h2, _⟩ :=
    MC_EndGame_discards_options example_options playing_state
      [create_node 1 1 MC_OPER_ADD 2 MC_FORMAT_ANS_LAST,
        create_node 2 2 MC_OPER_ADD 4 MC_FORMAT_ANS_LAST]
      [create_node 1 2 MC_OPER_ADD 3 MC_FORMAT_ANS_LAST] rfl rfl
  exact ⟨s2, h, h1, h2⟩

/-- C28 as stated fails: `playing_state` is initialized and has options, and
after `MC_EndGame` there are no options, `initialized` is 0, and
`MC_Initialize` changes the state instead of being a no-op. -/
theorem MC_EndGame_not_initialized :
    playing_state.initialized = 1 ∧ playing_state.math_opts.isSome = true
    ∧ (MC_EndGame playing_state).map (fun s2 => (s2.math_opts.isSome, s2.initialized))
        = some (false, 0)
    ∧ (MC_EndGame playing_state).map
        (fun s2 => ((MC_Initialize example_options s2).2.math_opts.isSome,
          (MC_Initialize example_options s2).2.initialized))
        = some (true, 1) := by
  refine ⟨rfl, rfl, by decide, by decide⟩

/-- C29 fails on the code. In the state at the start of the program, which
has no options, `MC_AnsweredCorrectly` and `MC_AnsweredIncorrectly` with a
valid card read `math_opts->play_through_list` and
`math_opts->repeat_wrongs` through the null pointer; after a game that was
started and ended, `starting_length` is still 4 and `MC_MissionAccomplished`
reads `math_opts->repeat_wrongs` through the null pointer.  None of the three
calls has a defined result. -/
theorem answers_read_null_options :
    fresh_state.math_opts.isNone = true
    ∧ (MC_AnsweredCorrectly (fun _ => 0) (some blank_card) fresh_state).isNone = true
    ∧ (MC_AnsweredIncorrectly (fun _ => 0) (some blank_card) fresh_state).isNone = true
    ∧ ended_game.map (fun s => (s.math_opts.isNone, s.starting_length)) = some (true, 4)
    ∧ (ended_game.bind MC_MissionAccomplished).isNone = true
    ∧ (ended_game.bind (fun s => MC_AnsweredCorrectly (fun _ => 0) (some blank_card) s)).isNone
        = true
    ∧ (ended_game.bind (fun s => MC_AnsweredIncorrectly (fun _ => 0) (some blank_card) s)).isNone
        = true := by
  refine ⟨rfl, by decide, by decide, by decide, by decide, by decide, by decide⟩

/-- C30. Given a null card, `MC_AnsweredCorrectly` and
`MC_AnsweredIncorrectly` return 0 and leave the whole state, both lists and
every counter, as it was. -/
theorem answers_refuse_null_card (rand : Nat → Nat) (s : MC_State) :
    MC_AnsweredCorrectly rand none s = some (0, s)
    ∧ MC_AnsweredIncorrectly rand none s = some (0, s) :=
  ⟨rfl, rfl⟩


/-! ## The session engine: invariants of a game -/

theorem MC_NextQuestion_nil (card : MC_FlashCard) (s : MC_State)
    (hq : s.question_list = ListVar.live []) :
    MC_NextQuestion (some card) s = some (0, some card, s) := by
  simp [MC_NextQuestion, hq]

theorem MC_AnsweredIncorrectly_dangling (rand : Nat → Nat) (q : MC_FlashCard) (s : MC_State)
    (hw : s.wrong_quests = ListVar.dangling) :
    MC_AnsweredIncorrectly rand (some q) s = none := by
  simp [MC_AnsweredIncorrectly, hw]

theorem take_insert_drop_length (list : List MC_FlashCard) (k : Nat) (q : MC_FlashCard) :
    (list.take k ++ q :: list.drop k).length = list.length + 1 := by
  have := (take_insert_drop_perm list k q).length_eq
  simpa using this

theorem run_call_next (o : MC_Options) (s s2 : MC_State) (fc : MC_FlashCard)
    (h : Counted o s) (hr : run_call (MC_Call.next fc) s = some s2) :
    Counted o s2 ∧ s2.wrong_quests = s.wrong_quests ∧ (Balanced s → Balanced s2) := by
  obtain ⟨ho, l, hq, hlen⟩ := h
  cases l with
  | nil =>
    simp only [run_call, MC_NextQuestion_nil fc s hq, Option.map_some', Option.some.injEq]
      at hr
    subst hr
    exact ⟨⟨ho, [], hq, hlen⟩, rfl, fun hb => hb⟩
  | cons first rest =>
    simp only [run_call, MC_NextQuestion_eq fc first rest s hq, Option.map_some',
      Option.some.injEq] at hr
    subst hr
    refine ⟨⟨ho, rest, rfl, ?_⟩, rfl, ?_⟩
    · show s.quest_list_length - 1 = _
      rw [hlen]
      simp
    · intro hb
      unfold Balanced at hb ⊢
      show s.unanswered = s.quest_list_length - 1 + (s.questions_pending + 1)
      omega

theorem run_call_correct (o : MC_Options) (s s2 : MC_State) (rand : Nat → Nat)
    (fc : MC_FlashCard) (h : Counted o s)
    (hr : run_call (MC_Call.correct rand fc) s = some s2) :
    Counted o s2 ∧ s2.wrong_quests = s.wrong_quests ∧ (Balanced s → Balanced s2) := by
  obtain ⟨ho, l, hq, hlen⟩ := h
  by_cases hp : o.play_through_list = 0
  · obtain ⟨k, _, heq⟩ := MC_AnsweredCorrectly_off rand fc s o l ho hq hlen hp
    simp only [run_call, heq, Option.map_some', Option.some.injEq] at hr
    subst hr
    refine ⟨⟨ho, _, rfl, ?_⟩, rfl, ?_⟩
    · show s.quest_list_length + 1 = _
      rw [take_insert_drop_length, hlen]
      simp
    · intro hb
      unfold Balanced at hb ⊢
      show s.unanswered = s.quest_list_length + 1 + (s.questions_pending - 1)
      omega
  · simp only [run_call, MC_AnsweredCorrectly_on rand fc s o ho hp, Option.map_some',
      Option.some.injEq] at hr
    subst hr
    refine ⟨⟨ho, l, hq, hlen⟩, rfl, ?_⟩
    intro hb
    unfold Balanced at hb ⊢
    show s.unanswered - 1 = s.quest_list_length + (s.questions_pending - 1)
    omega

theorem run_call_incorrect (o : MC_Options) (s s2 : MC_State) (rand : Nat → Nat)
    (fc : MC_FlashCard) (h : Counted o s)
    (hr : run_call (MC_Call.incorrect rand fc) s = some s2) :
    Counted o s2
    ∧ (∃ m, s.wrong_quests = ListVar.live m
        ∧ s2.wrong_quests = ListVar.live
            (if already_in_list m (some fc) = 0 then append_node m (some fc) else m))
    ∧ (0 ≤ o.copies_repeated_wrongs → Balanced s → Balanced s2) := by
  obtain ⟨ho, l, hq, hlen⟩ := h
  cases hwq : s.wrong_quests with
  | dangling =>
    simp [run_call, MC_AnsweredIncorrectly_dangling rand fc s hwq] at hr
  | live m =>
    obtain ⟨l2, calls, hfold, hperm, _⟩ :=
      reinsert_rounds rand fc l 0 o.copies_repeated_wrongs.toNat
    have heq := MC_AnsweredIncorrectly_eq rand fc s o l m ho hq hwq
    rw [hlen, hfold] at heq
    simp only [run_call, heq, Option.map_some', Option.some.injEq] at hr
    subst hr
    have hl2 : (l2.length : Int) = (l.length : Int) + o.copies_repeated_wrongs.toNat := by
      have := hperm.length_eq
      simp at this
      omega
    refine ⟨⟨ho, ?_⟩, ⟨m, rfl, rfl⟩, ?_⟩
    · by_cases hrw : o.repeat_wrongs = 0
      · exact ⟨l, by simp [hrw], by simp [hrw]⟩
      · exact ⟨l2, by simp [hrw], by simp [hrw, hl2]⟩
    · intro hc hb
      unfold Balanced at hb ⊢
      have hn : (o.copies_repeated_wrongs.toNat : Int) = o.copies_repeated_wrongs :=
        Int.toNat_of_nonneg hc
      by_cases hrw : o.repeat_wrongs = 0
      · simp only [hrw, ne_eq, not_true_eq_false, if_false]
        rw [hlen] at hb
        omega
      · simp only [hrw, ne_eq, not_false_eq_true, if_true]
        rw [hlen] at hb
        omega

theorem run_call_invariant (o : MC_Options) (s s2 : MC_State) (c : MC_Call)
    (h : Counted o s) (hr : run_call c s = some s2) :
    Counted o s2 ∧ (0 ≤ o.copies_repeated_wrongs → Balanced s → Balanced s2) := by
  cases c with
  | next fc =>
    obtain ⟨h1, _, h3⟩ := run_call_next o s s2 fc h hr
    exact ⟨h1, fun _ => h3⟩
  | correct rand fc =>
    obtain ⟨h1, _, h3⟩ := run_call_correct o s s2 rand fc h hr
    exact ⟨h1, fun _ => h3⟩
  | incorrect rand fc =>
    obtain ⟨h1, _, h3⟩ := run_call_incorrect o s s2 rand fc h hr
    exact ⟨h1, h3⟩

theorem run_calls_invariant (o : MC_Options) (calls : List MC_Call) :
    ∀ (s s2 : MC_State), Counted o s → run_calls calls s = some s2 →
      Counted o s2 ∧ (0 ≤ o.copies_repeated_wrongs → Balanced s → Balanced s2) := by
  induction calls with
  | nil =>
    intro s s2 h hr
    simp only [run_calls, Option.some.injEq] at hr
    subst hr
    exact ⟨h, fun _ hb => hb⟩
  | cons c rest ih =>
    intro s s2 h hr
    simp only [run_calls] at hr
    cases hc : run_call c s with
    | none => simp [hc] at hr
    | some s1 =>
      rw [hc] at hr
      simp only [Option.some_bind] at hr
      obtain ⟨h1, hb1⟩ := run_call_invariant o s s1 c h hc
      obtain ⟨h2, hb2⟩ := ih s1 s2 h1 hr
      exact ⟨h2, fun hcw hb => hb2 hcw (hb1 hcw hb)⟩

theorem run_call_of_next {s : MC_State} {fc : MC_FlashCard}
    {r : Int × Option MC_FlashCard × MC_State} (h : MC_NextQuestion (some fc) s = some r) :
    run_call (MC_Call.next fc) s = some r.2.2 := by
  simp [run_call, h]

theorem run_call_of_correct {s : MC_State} {rand : Nat → Nat} {fc : MC_FlashCard}
    {r : Int × MC_State} (h : MC_AnsweredCorrectly rand (some fc) s = some r) :
    run_call (MC_Call.correct rand fc) s = some r.2 := by
  simp [run_call, h]

theorem run_call_of_incorrect {s : MC_State} {rand : Nat → Nat} {fc : MC_FlashCard}
    {r : Int × MC_State} (h : MC_AnsweredIncorrectly rand (some fc) s = some r) :
    run_call (MC_Call.incorrect rand fc) s = some r.2 := by
  simp [run_call, h]

theorem run_call_total (o : MC_Options) (s : MC_State) (c : MC_Call) (m : List MC_FlashCard)
    (h : Counted o s) (hw : s.wrong_quests = ListVar.live m) :
    ∃ s2 m2, run_call c s = some s2 ∧ s2.wrong_quests = ListVar.live m2 := by
  obtain ⟨ho, l, hq, hlen⟩ := h
  cases c with
  | next fc =>
    cases l with
    | nil => exact ⟨_, m, run_call_of_next (MC_NextQuestion_nil fc s hq), hw⟩
    | cons first rest =>
      exact ⟨_, m, run_call_of_next (MC_NextQuestion_eq fc first rest s hq), hw⟩
  | correct rand fc =>
    by_cases hp : o.play_through_list = 0
    · obtain ⟨k, _, heq⟩ := MC_AnsweredCorrectly_off rand fc s o l ho hq hlen hp
      exact ⟨_, m, run_call_of_correct heq, hw⟩
    · exact ⟨_, m, run_call_of_correct (MC_AnsweredCorrectly_on rand fc s o ho hp), hw⟩
  | incorrect rand fc =>
    exact ⟨_, _, run_call_of_incorrect (MC_AnsweredIncorrectly_eq rand fc s o l m ho hq hw),
      rfl⟩

theorem run_calls_total (o : MC_Options) (calls : List MC_Call) :
    ∀ (s : MC_State) (m : List MC_FlashCard), Counted o s → s.wrong_quests = ListVar.live m →
      ∃ s2, run_calls calls s = some s2 := by
  induction calls with
  | nil => intro s m _ _; exact ⟨s, rfl⟩
  | cons c rest ih =>
    intro s m h hw
    obtain ⟨s1, m1, hc, hw1⟩ := run_call_total o s c m h hw
    obtain ⟨s2, h2⟩ := ih s1 m1 (run_call_invariant o s s1 c h hc).1 hw1
    exact ⟨s2, by simp only [run_calls, hc, Option.some_bind, h2]⟩

theorem MC_StartGameUsingWrongs_empty (defaults : MC_Options) (rand : Nat → Nat)
    (s : MC_State) (missed : List MC_FlashCard)
    (hw : s.wrong_quests = ListVar.live missed) (hm : missed = []) :
    MC_StartGameUsingWrongs defaults rand s = MC_StartGame defaults rand s := by
  subst hm
  unfold MC_StartGameUsingWrongs
  simp [hw]

theorem start_counted (use_wrongs : Bool) (defaults : MC_Options) (rand : Nat → Nat)
    (s s1 : MC_State) (ret : Int) (o : MC_Options) (pending missed : List MC_FlashCard)
    (ho : s.math_opts = some o) (hi : s.initialized ≠ 0)
    (hq : s.question_list = ListVar.live pending) (hw : s.wrong_quests = ListVar.live missed)
    (hstart : (if use_wrongs = true then MC_StartGameUsingWrongs defaults rand s
      else MC_StartGame defaults rand s) = some (ret, s1)) :
    Counted o s1 ∧ Balanced s1
    ∧ ((use_wrongs = true ∨ missed = []) → s1.wrong_quests = ListVar.live []) := by
  have hsg : ∀ t : MC_State, MC_StartGame defaults rand s = some (ret, t) →
      Counted o t ∧ Balanced t ∧ (missed = [] → t.wrong_quests = ListVar.live []) := by
    intro t ht
    rw [MC_StartGame_eq defaults rand s o pending missed ho hi hq hw] at ht
    simp only [Option.some.injEq, Prod.mk.injEq] at ht
    obtain ⟨_, ht⟩ := ht
    subst ht
    refine ⟨⟨ho, _, rfl, rfl⟩, ?_, ?_⟩
    · unfold Balanced
      show ((generate_list o rand).length : Int) = (generate_list o rand).length + 0
      omega
    · intro hm
      subst hm
      rfl
  by_cases hu : use_wrongs = true
  · simp only [hu, if_true] at hstart
    by_cases hm : missed = []
    · have hdel := (MC_StartGameUsingWrongs_empty defaults rand s missed hw hm)
      rw [hdel] at hstart
      obtain ⟨h1, h2, h3⟩ := hsg s1 hstart
      exact ⟨h1, h2, fun _ => h3 hm⟩
    · rw [MC_StartGameUsingWrongs_eq defaults rand s pending missed hq hw hm] at hstart
      simp only [Option.some.injEq, Prod.mk.injEq] at hstart
      obtain ⟨_, ht⟩ := hstart
      subst ht
      refine ⟨⟨ho, _, rfl, rfl⟩, ?_, fun _ => rfl⟩
      unfold Balanced
      show ((randomize_list rand 0 missed).length : Int)
        = (randomize_list rand 0 missed).length + 0
      omega
  · simp only [hu, if_false] at hstart
    obtain ⟨h1, h2, h3⟩ := hsg s1 hstart
    exact ⟨h1, h2, fun h => h3 (h.resolve_left hu)⟩


theorem start_defined (use_wrongs : Bool) (defaults : MC_Options) (rand : Nat → Nat)
    (s : MC_State) (o : MC_Options) (pending missed : List MC_FlashCard)
    (ho : s.math_opts = some o) (hi : s.initialized ≠ 0)
    (hq : s.question_list = ListVar.live pending) (hw : s.wrong_quests = ListVar.live missed) :
    ∃ r, (if use_wrongs = true then MC_StartGameUsingWrongs defaults rand s
      else MC_StartGame defaults rand s) = some r := by
  have hsg := MC_StartGame_eq defaults rand s o pending missed ho hi hq hw
  by_cases hu : use_wrongs = true
  · simp only [hu, if_true]
    by_cases hm : missed = []
    · rw [MC_StartGameUsingWrongs_empty defaults rand s missed hw hm]
      exact ⟨_, hsg⟩
    · exact ⟨_, MC_StartGameUsingWrongs_eq defaults rand s pending missed hq hw hm⟩
  · simp only [hu, if_false]
    exact ⟨_, hsg⟩

theorem start_and_run_invariant (use_wrongs : Bool) (defaults : MC_Options)
    (rand : Nat → Nat) (calls : List MC_Call) (s : MC_State) (o : MC_Options)
    (pending missed : List MC_FlashCard)
    (ho : s.math_opts = some o) (hi : s.initialized ≠ 0)
    (hq : s.question_list = ListVar.live pending) (hw : s.wrong_quests = ListVar.live missed) :
    (∀ ret s2, start_and_run use_wrongs defaults rand calls s = some (ret, s2) →
      Counted o s2 ∧ (0 ≤ o.copies_repeated_wrongs → Balanced s2))
    ∧ ((use_wrongs = true ∨ missed = []) →
        ∃ ret s2, start_and_run use_wrongs defaults rand calls s = some (ret, s2)) := by
  obtain ⟨r, hr⟩ := start_defined use_wrongs defaults rand s o pending missed ho hi hq hw
  obtain ⟨hc, hb, hlive⟩ :=
    start_counted use_wrongs defaults rand s r.2 r.1 o pending missed ho hi hq hw hr
  constructor
  · intro ret s2 hrun
    simp only [start_and_run, hr, Option.some_bind] at hrun
    cases h2 : run_calls calls r.2 with
    | none => simp [h2] at hrun
    | some t =>
      rw [h2] at hrun
      simp only [Option.map_some', Option.some.injEq, Prod.mk.injEq] at hrun
      obtain ⟨_, ht⟩ := hrun
      subst ht
      obtain ⟨k1, k2⟩ := run_calls_invariant o calls r.2 t hc h2
      exact ⟨k1, fun hcw => k2 hcw hb⟩
  · intro hcase
    obtain ⟨t, ht⟩ := run_calls_total o calls r.2 [] hc (hlive hcase)
    exact ⟨r.1, t, by simp only [start_and_run, hr, Option.some_bind, ht, Option.map_some']⟩

/-- C23. A game is started with `MC_StartGame` or `MC_StartGameUsingWrongs`
from an initialized state with valid lists, and any sequence of
`MC_NextQuestion`, `MC_AnsweredCorrectly` and `MC_AnsweredIncorrectly` calls
with valid cards follows.  In every state so reached the pending list is
valid and `quest_list_length`, which `MC_ListQuestionsLeft` returns, is the
number of its nodes.  Such a state is reached for every sequence of calls when
the game was started from the missed questions or with no missed question
left behind. -/
theorem quest_list_length_counts (use_wrongs : Bool) (defaults : MC_Options)
    (rand : Nat → Nat) (calls : List MC_Call) (s : MC_State) (o : MC_Options)
    (pending missed : List MC_FlashCard)
    (ho : s.math_opts = some o) (hi : s.initialized ≠ 0)
    (hq : s.question_list = ListVar.live pending) (hw : s.wrong_quests = ListVar.live missed) :
    (∀ ret s2, start_and_run use_wrongs defaults rand calls s = some (ret, s2) →
      ∃ l, s2.question_list = ListVar.live l ∧ s2.quest_list_length = l.length
        ∧ MC_ListQuestionsLeft s2 = l.length)
    ∧ ((use_wrongs = true ∨ missed = []) →
        ∃ ret s2, start_and_run use_wrongs defaults rand calls s = some (ret, s2)) := by
  obtain ⟨h1, h2⟩ :=
    start_and_run_invariant use_wrongs defaults rand calls s o pending missed ho hi hq hw
  refine ⟨fun ret s2 hrun => ?_, h2⟩
  obtain ⟨⟨_, l, hl, hlen⟩, _⟩ := h1 ret s2 hrun
  exact ⟨l, hl, hlen, hlen⟩

/-- C24. In every state reached as in C23, with
`copies_repeated_wrongs ≥ 1`, `unanswered = quest_list_length +
questions_pending`, that is, `MC_TotalQuestionsLeft` is `MC_ListQuestionsLeft`
plus the number of questions in play, whatever `play_through_list` and
`repeat_wrongs` are. -/
theorem unanswered_is_list_plus_pending (use_wrongs : Bool) (defaults : MC_Options)
    (rand : Nat → Nat) (calls : List MC_Call) (s : MC_State) (o : MC_Options)
    (pending missed : List MC_FlashCard)
    (ho : s.math_opts = some o) (hi : s.initialized ≠ 0)
    (hq : s.question_list = ListVar.live pending) (hw : s.wrong_quests = ListVar.live missed)
    (hc : 1 ≤ o.copies_repeated_wrongs) :
    (∀ ret s2, start_and_run use_wrongs defaults rand calls s = some (ret, s2) →
      s2.unanswered = s2.quest_list_length + s2.questions_pending
        ∧ MC_TotalQuestionsLeft s2 = MC_ListQuestionsLeft s2 + s2.questions_pending)
    ∧ ((use_wrongs = true ∨ missed = []) →
        ∃ ret s2, start_and_run use_wrongs defaults rand calls s = some (ret, s2)) := by
  obtain ⟨h1, h2⟩ :=
    start_and_run_invariant use_wrongs defaults rand calls s o pending missed ho hi hq hw
  refine ⟨fun ret s2 hrun => ?_, h2⟩
  have hb := (h1 ret s2 hrun).2 (by omega)
  exact ⟨hb, hb⟩


theorem quest_list_length_counts_witness :
    ∃ ret s2 l, start_and_run false example_options (fun _ => 0) sample_calls sampling_state
        = some (ret, s2)
      ∧ s2.question_list = ListVar.live l ∧ s2.quest_list_length = l.length := by
  obtain ⟨h1, h2⟩ := quest_list_length_counts false example_options (fun _ => 0) sample_calls
    sampling_state sampling_options [] [] rfl (by decide) rfl rfl
  obtain ⟨ret, s2, hrun⟩ := h2 (Or.inr rfl)
  obtain ⟨l, hl, hlen, _⟩ := h1 ret s2 hrun
  exact ⟨ret, s2, l, hrun, hl, hlen⟩

theorem unanswered_is_list_plus_pending_witness :
    ∃ ret s2, start_and_run false example_options (fun _ => 0) sample_calls sampling_state
        = some (ret, s2)
      ∧ s2.unanswered = s2.quest_list_length + s2.questions_pending := by
  obtain ⟨h1, h2⟩ := unanswered_is_list_plus_pending false example_options (fun _ => 0)
    sample_calls sampling_state sampling_options [] [] rfl (by decide) rfl rfl (by decide)
  obtain ⟨ret, s2, hrun⟩ := h2 (Or.inr rfl)
  exact ⟨ret, s2, hrun, (h1 ret s2 hrun).1⟩

/-! ## The session engine: the missed questions -/

theorem compare_node_ne_zero_iff (a b : MC_FlashCard) :
    compare_node (some a) (some b) ≠ 0 ↔ same_question a b := by
  by_cases h : a.num1 = b.num1 ∧ a.num2 = b.num2 ∧ a.operation = b.operation
      ∧ a.format = b.format
  · simp [compare_node, same_question, h]
  · simp only [compare_node, same_question, h, if_false, ne_eq, not_true_eq_false]

theorem already_in_list_eq_zero_iff (l : List MC_FlashCard) (q : MC_FlashCard) :
    already_in_list l (some q) = 0 ↔ ∀ e ∈ l, ¬ same_question e q := by
  induction l with
  | nil => simp [already_in_list]
  | cons a t ih =>
    rw [already_in_list]
    by_cases h : compare_node (some a) (some q) ≠ 0
    · have hs := (compare_node_ne_zero_iff a q).mp h
      rw [if_pos h]
      constructor
      · intro h1
        exact absurd h1 one_ne_zero
      · intro hall
        exact absurd hs (hall a (List.mem_cons_self _ _))
    · have hs : ¬ same_question a q := fun hs => h ((compare_node_ne_zero_iff a q).mpr hs)
      rw [if_neg h, ih]
      constructor
      · intro hall e he
        rcases List.mem_cons.mp he with h1 | h1
        · subst h1; exact hs
        · exact hall e h1
      · intro hall e he
        exact hall e (List.mem_cons_of_mem _ he)

theorem same_question_refl (a : MC_FlashCard) : same_question a a :=
  ⟨rfl, rfl, rfl, rfl⟩

theorem same_question_symm {a b : MC_FlashCard} (h : same_question a b) :
    same_question b a :=
  ⟨h.1.symm, h.2.1.symm, h.2.2.1.symm, h.2.2.2.symm⟩

theorem same_question_trans {a b c : MC_FlashCard} (h1 : same_question a b)
    (h2 : same_question b c) : same_question a c :=
  ⟨h1.1.trans h2.1, h1.2.1.trans h2.2.1, h1.2.2.1.trans h2.2.2.1, h1.2.2.2.trans h2.2.2.2⟩

theorem missed_step (m : List MC_FlashCard) (q : MC_FlashCard) (hd : distinct_questions m) :
    distinct_questions (if already_in_list m (some q) = 0 then append_node m (some q) else m)
    ∧ (∀ e ∈ m, e ∈ (if already_in_list m (some q) = 0 then append_node m (some q) else m))
    ∧ (∃ e ∈ (if already_in_list m (some q) = 0 then append_node m (some q) else m),
        same_question e q)
    ∧ (∀ e ∈ (if already_in_list m (some q) = 0 then append_node m (some q) else m),
        e ∈ m ∨ e = q) := by
  by_cases h : already_in_list m (some q) = 0
  · have hall := (already_in_list_eq_zero_iff m q).mp h
    simp only [h, if_true, append_node]
    refine ⟨?_, ?_, ⟨q, by simp, same_question_refl q⟩, ?_⟩
    · unfold distinct_questions
      rw [List.pairwise_append]
      refine ⟨hd, List.pairwise_singleton _ _, ?_⟩
      intro a ha b hb
      simp only [List.mem_singleton] at hb
      subst hb
      exact hall a ha
    · intro e he
      simp [he]
    · intro e he
      simpa using he
  · simp only [h, if_false]
    have hex : ∃ e ∈ m, same_question e q := by
      by_contra hne
      push_neg at hne
      exact h ((already_in_list_eq_zero_iff m q).mpr hne)
    exact ⟨hd, fun e he => he, hex, fun e he => Or.inl he⟩

theorem MC_AnsweredIncorrectly_missed (rand : Nat → Nat) (q : MC_FlashCard) (s : MC_State)
    (o : MC_Options) (pending missed : List MC_FlashCard)
    (ho : s.math_opts = some o) (hq : s.question_list = ListVar.live pending)
    (hw : s.wrong_quests = ListVar.live missed) :
    ∃ s1 p1, MC_AnsweredIncorrectly rand (some q) s = some (1, s1)
      ∧ s1.math_opts = some o ∧ s1.question_list = ListVar.live p1
      ∧ s1.wrong_quests = ListVar.live
          (if already_in_list missed (some q) = 0 then append_node missed (some q)
            else missed) :=
  ⟨_, _, MC_AnsweredIncorrectly_eq rand q s o pending missed ho hq hw, ho, rfl, rfl⟩

theorem missed_after_calls (o : MC_Options) (calls : List ((Nat → Nat) × MC_FlashCard)) :
    ∀ (s : MC_State) (pending missed : List MC_FlashCard),
      s.math_opts = some o → s.question_list = ListVar.live pending →
      s.wrong_quests = ListVar.live missed → distinct_questions missed →
      ∃ s2 m, run_calls (incorrect_calls calls) s = some s2
        ∧ s2.wrong_quests = ListVar.live m ∧ distinct_questions m
        ∧ (∀ e ∈ missed, e ∈ m)
        ∧ (∀ c ∈ calls, ∃ e ∈ m, same_question e c.2)
        ∧ (∀ e ∈ m, e ∈ missed ∨ ∃ c ∈ calls, e = c.2) := by
  induction calls with
  | nil =>
    intro s pending missed _ _ hw hd
    exact ⟨s, missed, rfl, hw, hd, fun e he => he, by simp, fun e he => Or.inl he⟩
  | cons c rest ih =>
    intro s pending missed ho hq hw hd
    obtain ⟨s1, p1, heq, ho1, hq1, hw1⟩ :=
      MC_AnsweredIncorrectly_missed c.1 c.2 s o pending missed ho hq hw
    obtain ⟨k1, k2, k3, k4⟩ := missed_step missed c.2 hd
    obtain ⟨s2, m, hrun, hm, hdm, hsub, hall, hfrom⟩ := ih s1 p1 _ ho1 hq1 hw1 k1
    refine ⟨s2, m, ?_, hm, hdm, fun e he => hsub e (k2 e he), ?_, ?_⟩
    · have hstep : run_calls (incorrect_calls (c :: rest)) s
          = run_calls (incorrect_calls rest) s1 := by
        simp only [incorrect_calls, List.map_cons, run_calls, run_call_of_incorrect heq,
          Option.some_bind]
      rw [hstep]
      exact hrun
    · intro c2 hc2
      rcases List.mem_cons.mp hc2 with h | h
      · subst h
        obtain ⟨e, he, hs⟩ := k3
        exact ⟨e, hsub e he, hs⟩
      · exact hall c2 h
    · intro e he
      rcases hfrom e he with h | ⟨c2, hc2, h⟩
      · rcases k4 e h with h2 | h2
        · exact Or.inl h2
        · exact Or.inr ⟨c, List.mem_cons_self _ _, h2⟩
      · exact Or.inr ⟨c2, List.mem_cons_of_mem _ hc2, h⟩

/-- C21. From a state with options and valid lists whose missed list holds no
two structurally equal questions (the empty list is one), every sequence of
`MC_AnsweredIncorrectly` calls with valid cards completes and leaves a missed
list in which no two entries agree on `num1`, `num2`, `operation` and
`format`; the list keeps its old entries and holds, for every card of the
calls, an entry structurally equal to it.  Starting from the empty list, two
calls with structurally equal cards leave exactly one entry. -/
theorem missed_stays_distinct (o : MC_Options) (calls : List ((Nat → Nat) × MC_FlashCard))
    (s : MC_State) (pending missed : List MC_FlashCard)
    (ho : s.math_opts = some o) (hq : s.question_list = ListVar.live pending)
    (hw : s.wrong_quests = ListVar.live missed) (hd : distinct_questions missed) :
    ∃ s2 m, run_calls (incorrect_calls calls) s = some s2
      ∧ s2.wrong_quests = ListVar.live m ∧ distinct_questions m
      ∧ (∀ e ∈ missed, e ∈ m)
      ∧ (∀ c ∈ calls, ∃ e ∈ m, same_question e c.2)
      ∧ (missed = [] → ∀ r1 r2 q1 q2, calls = [(r1, q1), (r2, q2)] → same_question q1 q2 →
          m.length = 1) := by
  obtain ⟨s2, m, hrun, hm, hdm, hsub, hall, hfrom⟩ :=
    missed_after_calls o calls s pending missed ho hq hw hd
  refine ⟨s2, m, hrun, hm, hdm, hsub, hall, ?_⟩
  intro hnil r1 r2 q1 q2 hcalls hsame
  subst hnil hcalls
  have hq1 : ∀ e ∈ m, same_question e q1 := by
    intro e he
    rcases hfrom e he with h | ⟨c, hc, h⟩
    · simp at h
    · simp only [List.mem_cons, List.mem_singleton, List.not_mem_nil, or_false] at hc
      rcases hc with hc | hc
      · subst hc; subst h; exact same_question_refl _
      · subst hc; subst h; exact same_question_symm hsame
  obtain ⟨e0, he0, _⟩ := hall (r1, q1) (by simp)
  match m, hdm, hq1, he0 with
  | [], _, _, he0 => simp at he0
  | [_], _, _, _ => rfl
  | a :: b :: t, hdm, hq1, _ =>
    exfalso
    have hab : ¬ same_question a b := by
      unfold distinct_questions at hdm
      exact (List.pairwise_cons.mp hdm).1 b (by simp)
    exact hab (same_question_trans (hq1 a (by simp)) (same_question_symm (hq1 b (by simp))))

theorem missed_stays_distinct_witness :
    ∃ s2 m, run_calls (incorrect_calls
        [((fun _ => 0), create_node 1 1 MC_OPER_ADD 2 MC_FORMAT_ANS_LAST),
         ((fun _ => 1), create_node 1 1 MC_OPER_ADD 7 MC_FORMAT_ANS_LAST)]) example_state
        = some s2
      ∧ s2.wrong_quests = ListVar.live m ∧ distinct_questions m ∧ m.length = 1 := by
  obtain ⟨s2, m, hrun, hm, hd, _, _, hone⟩ :=
    missed_stays_distinct example_options
      [((fun _ => 0), create_node 1 1 MC_OPER_ADD 2 MC_FORMAT_ANS_LAST),
       ((fun _ => 1), create_node 1 1 MC_OPER_ADD 7 MC_FORMAT_ANS_LAST)]
      example_state [] [] rfl rfl rfl List.Pairwise.nil
  exact ⟨s2, m, hrun, hm, hd, hone rfl _ _ _ _ rfl ⟨rfl, rfl, rfl, rfl⟩⟩


/-! ## The session engine: playing through the list -/

theorem play_round_of {rand : Nat → Nat} {card served : MC_FlashCard} {s sa sb : MC_State}
    {r r2 : Int} (hnext : MC_NextQuestion (some card) s = some (r, some served, sa))
    (hans : MC_AnsweredCorrectly rand (some served) sa = some (r2, sb)) :
    play_round rand card s = some (r, served, sb) := by
  simp only [play_round, hnext, Option.some_bind, hans, Option.map_some']

theorem play_round_through (rand : Nat → Nat) (o : MC_Options) (card first : MC_FlashCard)
    (rest : List MC_FlashCard) (s : MC_State) (hp : o.play_through_list ≠ 0)
    (ho : s.math_opts = some o) (hq : s.question_list = ListVar.live (first :: rest)) :
    ∃ sb, play_round rand card s = some (1, first, sb)
      ∧ sb.math_opts = some o ∧ sb.question_list = ListVar.live rest
      ∧ sb.unanswered = s.unanswered - 1 ∧ sb.starting_length = s.starting_length := by
  have hnext := MC_NextQuestion_eq card first rest s hq
  have hans := MC_AnsweredCorrectly_on rand first
    { s with
      question_list := ListVar.live rest,
      quest_list_length := s.quest_list_length - 1,
      questions_pending := s.questions_pending + 1 } o ho hp
  exact ⟨_, play_round_of hnext hans, ho, rfl, rfl, rfl⟩

theorem play_rounds_through (rand : Nat → Nat) (o : MC_Options)
    (hp : o.play_through_list ≠ 0) :
    ∀ (k : Nat) (card : MC_FlashCard) (s : MC_State) (l : List MC_FlashCard),
      s.math_opts = some o → s.question_list = ListVar.live l → k ≤ l.length →
      ∃ sk, play_rounds rand k card s = some (l.take k, sk)
        ∧ sk.math_opts = some o ∧ sk.question_list = ListVar.live (l.drop k)
        ∧ sk.unanswered = s.unanswered - k ∧ sk.starting_length = s.starting_length := by
  intro k
  induction k with
  | zero =>
    intro card s l ho hq _
    exact ⟨s, rfl, ho, by simpa using hq, by simp, rfl⟩
  | succ k ih =>
    intro card s l ho hq hk
    cases l with
    | nil => simp at hk
    | cons first rest =>
      obtain ⟨sb, hround, hob, hqb, hub, hsb⟩ :=
        play_round_through rand o card first rest s hp ho hq
      obtain ⟨sk, hrounds, hok, hqk, huk, hsk⟩ :=
        ih first sb rest hob hqb (by simpa using hk)
      refine ⟨sk, ?_, hok, by simpa using hqk, ?_, by rw [hsk, hsb]⟩
      · simp only [play_rounds, hround, Option.some_bind, hrounds, Option.map_some',
          List.take_succ_cons]
      · rw [huk, hub]
        push_cast
        ring

/-- C25. With `play_through_list` on and `repeat_wrongs` on, after a
`MC_StartGame` that returns 1 the generated list `L` has `n ≥ 1` questions.
For every `k ≤ n`, `k` rounds of `MC_NextQuestion` followed by
`MC_AnsweredCorrectly` on the card written serve the first `k` questions of
`L` in order and leave the rest of `L` pending, `MC_TotalQuestionsLeft` is
`n - k` and `MC_MissionAccomplished` is 1 when `k = n` and 0 when `k < n`.
When `k < n` the next `MC_NextQuestion` returns 1 and writes `L[k]`, and
`MC_MissionAccomplished` is still 0 before the answer; when `k = n`,
`MC_TotalQuestionsLeft` is 0 and a further `MC_NextQuestion` returns 0 and
changes nothing. -/
theorem play_through_in_order (defaults : MC_Options) (rand rand2 : Nat → Nat)
    (s s1 : MC_State) (o : MC_Options) (pending missed : List MC_FlashCard)
    (card : MC_FlashCard)
    (ho : s.math_opts = some o) (hi : s.initialized ≠ 0)
    (hq : s.question_list = ListVar.live pending) (hw : s.wrong_quests = ListVar.live missed)
    (hp : o.play_through_list ≠ 0) (hrw : o.repeat_wrongs ≠ 0)
    (hstart : MC_StartGame defaults rand s = some (1, s1)) :
    1 ≤ (generate_list o rand).length
    ∧ ∀ k, k ≤ (generate_list o rand).length →
      ∃ sk, play_rounds rand2 k card s1 = some ((generate_list o rand).take k, sk)
        ∧ sk.question_list = ListVar.live ((generate_list o rand).drop k)
        ∧ MC_TotalQuestionsLeft sk = ((generate_list o rand).length : Int) - k
        ∧ MC_MissionAccomplished sk
            = some (if k = (generate_list o rand).length then 1 else 0)
        ∧ (k < (generate_list o rand).length →
            ∀ c, ∃ served sa, MC_NextQuestion (some c) sk = some (1, some served, sa)
              ∧ (generate_list o rand)[k]? = some served
              ∧ MC_MissionAccomplished sa = some 0)
        ∧ (k = (generate_list o rand).length →
            MC_TotalQuestionsLeft sk = 0
              ∧ ∀ c, MC_NextQuestion (some c) sk = some (0, some c, sk)) := by
  have heq := MC_StartGame_eq defaults rand s o pending missed ho hi hq hw
  rw [heq] at hstart
  simp only [Option.some.injEq, Prod.mk.injEq] at hstart
  obtain ⟨hret, hs1⟩ := hstart
  have hne : generate_list o rand ≠ [] := by
    intro h
    simp [h] at hret
  have hn : 1 ≤ (generate_list o rand).length := List.length_pos.mpr hne
  have ho1 : s1.math_opts = some o := by rw [← hs1]; exact ho
  have hq1 : s1.question_list = ListVar.live (generate_list o rand) := by rw [← hs1]
  have hu1 : s1.unanswered = ((generate_list o rand).length : Int) := by rw [← hs1]
  have hst1 : s1.starting_length = ((generate_list o rand).length : Int) := by rw [← hs1]
  refine ⟨hn, fun k hk => ?_⟩
  obtain ⟨sk, hrounds, hok, hqk, huk, hsk⟩ :=
    play_rounds_through rand2 o hp k card s1 (generate_list o rand) ho1 hq1 hk
  have hstk : sk.starting_length ≠ 0 := by rw [hsk, hst1]; omega
  have hunk : sk.unanswered = ((generate_list o rand).length : Int) - k := by rw [huk, hu1]
  refine ⟨sk, hrounds, hqk, hunk, ?_, ?_, ?_⟩
  · unfold MC_MissionAccomplished
    simp only [hstk, ne_eq, not_false_eq_true, if_true, hok, hrw, hunk, true_and]
    congr 1
    by_cases hkn : k = (generate_list o rand).length
    · simp [hkn]
    · have : ¬ (((generate_list o rand).length : Int) - k = 0) := by omega
      simp [hkn, this]
  · intro hlt c
    have hdrop := List.drop_eq_getElem_cons hlt
    rw [hdrop] at hqk
    refine ⟨_, _, MC_NextQuestion_eq c _ _ sk hqk, List.getElem?_eq_getElem hlt, ?_⟩
    unfold MC_MissionAccomplished
    have : ¬ (((generate_list o rand).length : Int) - k = 0) := by omega
    simp [hstk, hok, hunk, this]
  · intro hkn
    refine ⟨by rw [MC_TotalQuestionsLeft, hunk, hkn]; simp, fun c => ?_⟩
    apply MC_NextQuestion_nil
    rw [hqk, hkn, List.drop_length]

theorem play_through_in_order_witness :
    ∃ s1 sk, MC_StartGame example_options (fun _ => 0) example_state = some (1, s1)
      ∧ play_rounds (fun _ => 0) 4 blank_card s1
          = some ((generate_list example_options (fun _ => 0)).take 4, sk)
      ∧ MC_MissionAccomplished sk = some 1
      ∧ MC_TotalQuestionsLeft sk = 0
      ∧ MC_NextQuestion (some blank_card) sk = some (0, some blank_card, sk) := by
  have hstart : ∃ s1, MC_StartGame example_options (fun _ => 0) example_state = some (1, s1) :=
    ⟨_, MC_StartGame_eq example_options (fun _ => 0) example_state example_options [] []
      rfl (by decide) rfl rfl⟩
  obtain ⟨s1, h1⟩ := hstart
  obtain ⟨_, hall⟩ := play_through_in_order example_options (fun _ => 0) (fun _ => 0)
    example_state s1 example_options [] [] blank_card rfl (by decide) rfl rfl (by decide)
    (by decide) h1
  obtain ⟨sk, hrounds, _, _, hmission, _, hend⟩ := hall 4 (by decide)
  have h4 : 4 = (generate_list example_options (fun _ => 0)).length := by decide
  refine ⟨s1, sk, h1, hrounds, ?_, (hend h4).1, (hend h4).2 blank_card⟩
  rw [hmission, if_pos h4]



/-! ## Setters and getters -/

theorem sane_value_eq (global_max : Int) (o : MC_Options) (v : Int) (hG : 0 ≤ global_max) :
    sane_value global_max (some o) v = stored_value global_max o v := by
  unfold sane_value stored_value clamp_global
  by_cases h1 : v > global_max
  · have hc : min (max v (-global_max)) global_max = global_max := by
      rw [min_eq_right]; exact le_trans (le_of_lt h1) (le_max_left _ _)
    simp only [h1, if_true, hc]
  · by_cases h2 : v < -global_max
    · have hc : min (max v (-global_max)) global_max = -global_max := by
        rw [max_eq_right (le_of_lt h2), min_eq_left (by omega)]
      simp only [h1, if_false, h2, if_true, hc]
    · have hc : min (max v (-global_max)) global_max = v := by
        rw [max_eq_left (by omega), min_eq_left (by omega)]
      simp only [h1, if_false, h2, hc]

theorem sane_value_idem (global_max : Int) (o : MC_Options) (v : Int)
    (hG : 0 ≤ global_max) :
    sane_value global_max (some o) (sane_value global_max (some o) v)
      = sane_value global_max (some o) v := by
  unfold sane_value
  simp only
  split_ifs <;> omega

/-- C31. With options present and `MC_GLOBAL_MAX ≥ 0`, after `MC_SetMaxAnswer`
or any setter of an operand bound (the sixteen single ones and the eight that
set two bounds) is called with `v`, the matching getter returns `v` clamped
into the range from `-MC_GLOBAL_MAX` to `MC_GLOBAL_MAX`, and 0 in place of a
negative value when negatives are not allowed.  A value inside the range,
and not negative when negatives are not allowed, is stored as it is, and
`sane_value` applied twice gives what it gives once. -/
theorem setters_store_clamped (global_max invalid : Int) (o : MC_Options) (v : Int)
    (hG : 0 ≤ global_max) :
    sane_value global_max (some o) v = stored_value global_max o v
    ∧ MC_MaxAnswer invalid (MC_SetMaxAnswer global_max (some o) v) = stored_value global_max o v
    ∧ MC_AddMinAugend invalid (MC_SetAddMinAugend global_max (some o) v) = stored_value global_max o v
    ∧ MC_AddMaxAugend invalid (MC_SetAddMaxAugend global_max (some o) v) = stored_value global_max o v
    ∧ MC_AddMinAddend invalid (MC_SetAddMinAddend global_max (some o) v) = stored_value global_max o v
    ∧ MC_AddMaxAddend invalid (MC_SetAddMaxAddend global_max (some o) v) = stored_value global_max o v
    ∧ MC_SubMinMinuend invalid (MC_SetSubMinMinuend global_max (some o) v) = stored_value global_max o v
    ∧ MC_SubMaxMinuend invalid (MC_SetSubMaxMinuend global_max (some o) v) = stored_value global_max o v
    ∧ MC_SubMinSubtrahend invalid (MC_SetSubMinSubtrahend global_max (some o) v) = stored_value global_max o v
    ∧ MC_SubMaxSubtrahend invalid (MC_SetSubMaxSubtrahend global_max (some o) v) = stored_value global_max o v
    ∧ MC_MultMinMultiplier invalid (MC_SetMultMinMultiplier global_max (some o) v) = stored_value global_max o v
    ∧ MC_MultMaxMultiplier invalid (MC_SetMultMaxMultiplier global_max (some o) v) = stored_value global_max o v
    ∧ MC_MultMinMultiplicand invalid (MC_SetMultMinMultiplicand global_max (some o) v) = stored_value global_max o v
    ∧ MC_MultMaxMultiplicand invalid (MC_SetMultMaxMultiplicand global_max (some o) v) = stored_value global_max o v
    ∧ MC_DivMinDivisor invalid (MC_SetDivMinDivisor global_max (some o) v) = stored_value global_max o v
    ∧ MC_DivMaxDivisor invalid (MC_SetDivMaxDivisor global_max (some o) v) = stored_value global_max o v
    ∧ MC_DivMinQuotient invalid (MC_SetDivMinQuotient global_max (some o) v) = stored_value global_max o v
    ∧ MC_DivMaxQuotient invalid (MC_SetDivMaxQuotient global_max (some o) v) = stored_value global_max o v
    ∧ MC_AddMinAugend invalid (MC_SetAddMin global_max (some o) v) = stored_value global_max o v
    ∧ MC_AddMinAddend invalid (MC_SetAddMin global_max (some o) v) = stored_value global_max o v
    ∧ MC_AddMaxAugend invalid (MC_SetAddMax global_max (some o) v) = stored_value global_max o v
    ∧ MC_AddMaxAddend invalid (MC_SetAddMax global_max (some o) v) = stored_value global_max o v
    ∧ MC_SubMinMinuend invalid (MC_SetSubMin global_max (some o) v) = stored_value global_max o v
    ∧ MC_SubMinSubtrahend invalid (MC_SetSubMin global_max (some o) v) = stored_value global_max o v
    ∧ MC_SubMaxMinuend invalid (MC_SetSubMax global_max (some o) v) = stored_value global_max o v
    ∧ MC_SubMaxSubtrahend invalid (MC_SetSubMax global_max (some o) v) = stored_value global_max o v
    ∧ MC_MultMinMultiplier invalid (MC_SetMultMin global_max (some o) v) = stored_value global_max o v
    ∧ MC_MultMinMultiplicand invalid (MC_SetMultMin global_max (some o) v) = stored_value global_max o v
    ∧ MC_MultMaxMultiplier invalid (MC_SetMultMax global_max (some o) v) = stored_value global_max o v
    ∧ MC_MultMaxMultiplicand invalid (MC_SetMultMax global_max (some o) v) = stored_value global_max o v
    ∧ MC_DivMinDivisor invalid (MC_SetDivMin global_max (some o) v) = stored_value global_max o v
    ∧ MC_DivMinQuotient invalid (MC_SetDivMin global_max (some o) v) = stored_value global_max o v
    ∧ MC_DivMaxDivisor invalid (MC_SetDivMax global_max (some o) v) = stored_value global_max o v
    ∧ MC_DivMaxQuotient invalid (MC_SetDivMax global_max (some o) v) = stored_value global_max o v
    ∧ (-global_max ≤ v ∧ v ≤ global_max ∧ (o.allow_negatives = 0 → 0 ≤ v) →
        stored_value global_max o v = v)
    ∧ sane_value global_max (some o) (sane_value global_max (some o) v)
        = sane_value global_max (some o) v := by
  have h0 := sane_value_eq global_max o v hG
  refine ⟨h0, h0, h0, h0, h0, h0, h0, h0, h0, h0, h0, h0, h0, h0, h0, h0, h0, h0, h0, h0, h0, h0, h0, h0, h0, h0, h0, h0, h0, h0, h0, h0, h0, h0, ?_, sane_value_idem global_max o v hG⟩
  rintro ⟨h1, h2, h3⟩
  have hc : clamp_global global_max v = v := by
    unfold clamp_global
    rw [max_eq_left h1, min_eq_left h2]
  unfold stored_value
  rw [hc]
  by_cases hn : o.allow_negatives = 0
  · have := h3 hn
    rw [if_neg (by omega)]
  · rw [if_neg (fun h => hn h.2)]

theorem setters_store_clamped_witness :
    MC_AddMinAugend (-1) (MC_SetAddMinAugend 999 (some example_options) (-5)) = 0
    ∧ MC_MaxAnswer (-1) (MC_SetMaxAnswer 999 (some example_options) 1500) = 999
    ∧ MC_DivMaxQuotient (-1) (MC_SetDivMax 999 (some negative_max_options) (-2000)) = -999 := by
  refine ⟨?_, ?_, ?_⟩
  · rw [(setters_store_clamped 999 (-1) example_options (-5) (by decide)).2.2.1]
    decide
  · rw [(setters_store_clamped 999 (-1) example_options 1500 (by decide)).2.1]
    decide
  · have h := (setters_store_clamped 999 (-1) negative_max_options (-2000) (by decide)).1
    have h2 : MC_DivMaxQuotient (-1) (MC_SetDivMax 999 (some negative_max_options) (-2000))
        = sane_value 999 (some negative_max_options) (-2000) := rfl
    rw [h2, h]
    decide

/-- C32. With options present, after `MC_SetCopiesRepeatedWrongs(v)` the
getter `MC_CopiesRepeatedWrongs` returns `min (max v 1) 10`, and after
`MC_SetQuestionCopies(v)` the getter `MC_QuestionCopies` returns
`min (max v 1) 10`; both numbers lie between 1 and 10. -/
theorem copies_setters_clamp (invalid : Int) (o : MC_Options) (v : Int) :
    MC_CopiesRepeatedWrongs invalid (MC_SetCopiesRepeatedWrongs (some o) v) = min (max v 1) 10
    ∧ MC_QuestionCopies invalid (MC_SetQuestionCopies (some o) v) = min (max v 1) 10
    ∧ 1 ≤ MC_CopiesRepeatedWrongs invalid (MC_SetCopiesRepeatedWrongs (some o) v)
    ∧ MC_CopiesRepeatedWrongs invalid (MC_SetCopiesRepeatedWrongs (some o) v) ≤ 10
    ∧ 1 ≤ MC_QuestionCopies invalid (MC_SetQuestionCopies (some o) v)
    ∧ MC_QuestionCopies invalid (MC_SetQuestionCopies (some o) v) ≤ 10 := by
  have h : (if (if v < 1 then 1 else v) > 10 then 10 else (if v < 1 then 1 else v))
      = min (max v 1) 10 := by
    split_ifs <;> omega
  have h1 : MC_CopiesRepeatedWrongs invalid (MC_SetCopiesRepeatedWrongs (some o) v)
      = min (max v 1) 10 := h
  have h2 : MC_QuestionCopies invalid (MC_SetQuestionCopies (some o) v)
      = min (max v 1) 10 := h
  refine ⟨h1, h2, ?_, ?_, ?_, ?_⟩ <;> (first | rw [h1] | rw [h2]) <;> omega

/-- C40. `MC_SetMaxQuestions(m)` stores every `m ≥ 0` as it is, also above
`MC_GLOBAL_MAX`, and changes no other option; for `m < 0` it leaves the
options as they were; so `max_questions` stays non-negative once it is. -/
theorem MC_SetMaxQuestions_spec (o : MC_Options) (m : Int) :
    (0 ≤ m → MC_SetMaxQuestions o m = { o with max_questions := m }
      ∧ (MC_SetMaxQuestions o m).max_questions = m)
    ∧ (m < 0 → MC_SetMaxQuestions o m = o)
    ∧ (0 ≤ o.max_questions → 0 ≤ (MC_SetMaxQuestions o m).max_questions) := by
  unfold MC_SetMaxQuestions
  refine ⟨fun h => ?_, fun h => ?_, fun h => ?_⟩
  · rw [if_neg (by omega)]
    exact ⟨rfl, rfl⟩
  · rw [if_pos h]
  · split
    · exact h
    · show 0 ≤ m
      omega

theorem MC_SetMaxQuestions_spec_witness :
    (MC_SetMaxQuestions example_options 100000).max_questions = 100000
    ∧ MC_SetMaxQuestions example_options (-3) = example_options :=
  ⟨((MC_SetMaxQuestions_spec example_options 100000).1 (by decide)).2,
    (MC_SetMaxQuestions_spec example_options (-3)).2.1 (by decide)⟩


/-! ## Structural equality of questions -/

theorem compare_node_eq_one_iff (a b : MC_FlashCard) :
    compare_node (some a) (some b) = 1 ↔ same_question a b := by
  by_cases h : a.num1 = b.num1 ∧ a.num2 = b.num2 ∧ a.operation = b.operation
      ∧ a.format = b.format <;> simp [compare_node, same_question, h]

theorem compare_node_zero_or_one (a b : Option MC_FlashCard) :
    compare_node a b = 0 ∨ compare_node a b = 1 := by
  cases a with
  | none => left; rfl
  | some a =>
    cases b with
    | none => left; rfl
    | some b =>
      by_cases h : a.num1 = b.num1 ∧ a.num2 = b.num2 ∧ a.operation = b.operation
        ∧ a.format = b.format <;> simp [compare_node, h]

theorem already_in_list_zero_or_one (l : List MC_FlashCard) (q : Option MC_FlashCard) :
    already_in_list l q = 0 ∨ already_in_list l q = 1 := by
  induction l with
  | nil => left; rfl
  | cons a t ih =>
    cases q with
    | none => left; rfl
    | some p =>
      rw [already_in_list]
      split
      · right; rfl
      · exact ih

/-- C34. For two existing questions `compare_node` returns 1 exactly when
their `num1`, `num2`, `operation` and `format` agree, and 0 otherwise; the
answers `num3` play no part.  The relation is reflexive, symmetric and
transitive, and `already_in_list(list, q)` returns 1 exactly when a node of
the list compares equal to `q`, and 0 otherwise. -/
theorem compare_node_structural :
    (∀ a b : MC_FlashCard, compare_node (some a) (some b) = 1 ↔
      (a.num1 = b.num1 ∧ a.num2 = b.num2 ∧ a.operation = b.operation ∧ a.format = b.format))
    ∧ (∀ a b : MC_FlashCard, compare_node (some a) (some b) ≠ 1 →
        compare_node (some a) (some b) = 0)
    ∧ (∀ (a b : MC_FlashCard) (x y : Int),
        compare_node (some { a with num3 := x }) (some { b with num3 := y })
          = compare_node (some a) (some b))
    ∧ (∀ a : MC_FlashCard, compare_node (some a) (some a) = 1)
    ∧ (∀ a b : MC_FlashCard, compare_node (some a) (some b) = 1 →
        compare_node (some b) (some a) = 1)
    ∧ (∀ a b c : MC_FlashCard, compare_node (some a) (some b) = 1 →
        compare_node (some b) (some c) = 1 → compare_node (some a) (some c) = 1)
    ∧ (∀ (l : List MC_FlashCard) (q : MC_FlashCard),
        already_in_list l (some q) = 1 ↔ ∃ e ∈ l, compare_node (some e) (some q) = 1)
    ∧ (∀ (l : List MC_FlashCard) (q : MC_FlashCard),
        already_in_list l (some q) ≠ 1 → already_in_list l (some q) = 0) := by
  refine ⟨fun a b => compare_node_eq_one_iff a b, ?_, ?_, ?_, ?_, ?_, ?_, ?_⟩
  · intro a b h
    exact (compare_node_zero_or_one _ _).resolve_right h
  · intro a b x y
    rfl
  · intro a
    exact (compare_node_eq_one_iff a a).mpr (same_question_refl a)
  · intro a b h
    exact (compare_node_eq_one_iff b a).mpr
      (same_question_symm ((compare_node_eq_one_iff a b).mp h))
  · intro a b c h1 h2
    exact (compare_node_eq_one_iff a c).mpr
      (same_question_trans ((compare_node_eq_one_iff a b).mp h1)
        ((compare_node_eq_one_iff b c).mp h2))
  · intro l q
    constructor
    · intro h
      by_contra hne
      have h0 : already_in_list l (some q) = 0 := by
        rw [already_in_list_eq_zero_iff]
        intro e he hs
        exact hne ⟨e, he, (compare_node_eq_one_iff e q).mpr hs⟩
      rw [h0] at h
      exact absurd h (by decide)
    · rintro ⟨e, he, hc⟩
      rcases already_in_list_zero_or_one l (some q) with h0 | h1
      · exact absurd ((compare_node_eq_one_iff e q).mp hc)
          ((already_in_list_eq_zero_iff l q).mp h0 e he)
      · exact h1
  · intro l q h
    exact (already_in_list_zero_or_one _ _).resolve_right h

theorem compare_node_structural_witness :
    compare_node (some (create_node 2 3 MC_OPER_ADD 5 MC_FORMAT_ANS_LAST))
        (some (create_node 2 3 MC_OPER_ADD 0 MC_FORMAT_ANS_LAST)) = 1
    ∧ already_in_list [create_node 1 1 MC_OPER_ADD 2 MC_FORMAT_ANS_LAST,
          create_node 2 3 MC_OPER_ADD 5 MC_FORMAT_ANS_LAST]
        (some (create_node 2 3 MC_OPER_ADD 0 MC_FORMAT_ANS_LAST)) = 1 :=
  ⟨(compare_node_structural.1 _ _).mpr (by decide),
    (compare_node_structural.2.2.2.2.2.2.1 _ _).mpr
      ⟨create_node 2 3 MC_OPER_ADD 5 MC_FORMAT_ANS_LAST, by simp, by decide⟩⟩

/-! ## Generation without shuffling is deterministic -/

/-- C35. With `randomize` off the list that `generate_list` builds does not
depend on the random source: for any two sources the two lists are equal,
node by node, and no draw is used at all, the list being the capped sequence
of the loops. -/
theorem generate_list_deterministic (o : MC_Options) (rand rand2 : Nat → Nat)
    (h : o.randomize = 0) :
    generate_list o rand = generate_list o rand2
    ∧ (∀ i : Nat, (generate_list o rand)[i]? = (generate_list o rand2)[i]?)
    ∧ generate_list o rand = (all_questions o).take o.max_questions.toNat := by
  have h1 := generate_list_unshuffled o rand h
  have h2 := generate_list_unshuffled o rand2 h
  refine ⟨h1.trans h2.symm, ?_, h1⟩
  intro i
  rw [h1, h2]

theorem generate_list_deterministic_witness :
    ordered_options.randomize = 0
    ∧ generate_list ordered_options (fun _ => 0) = generate_list ordered_options (fun n => n + 7) :=
  ⟨by decide, (generate_list_deterministic ordered_options (fun _ => 0) (fun n => n + 7)
    (by decide)).1⟩

/-! ## The node that `pick_random` returns -/

/-- C36. On a list of `n ≥ 1` nodes, with the draw `r = rand() % n`, the
call `pick_random(n, list)` uses one draw, `r` lies in `[0, n)`, and the
result is the node at offset `max (r - 1) 0`, a node of the list and never
null; the draws 0 and 1 both give the head, and for `n ≥ 2` the last node is
never the result. -/
theorem pick_random_offset (rand : Nat → Nat) (calls : Nat) (list : List MC_FlashCard)
    (h : list ≠ []) :
    0 ≤ Int.tmod (rand calls) (list.length : Int)
    ∧ Int.tmod (rand calls) (list.length : Int) < list.length
    ∧ pick_random rand calls (list.length : Int) list
        = (some (max (Int.tmod (rand calls) (list.length : Int) - 1) 0).toNat, calls + 1)
    ∧ (max (Int.tmod (rand calls) (list.length : Int) - 1) 0).toNat < list.length
    ∧ (∃ node, list[(max (Int.tmod (rand calls) (list.length : Int) - 1) 0).toNat]? = some node)
    ∧ (Int.tmod (rand calls) (list.length : Int) = 0
        ∨ Int.tmod (rand calls) (list.length : Int) = 1 →
        (pick_random rand calls (list.length : Int) list).1 = some 0)
    ∧ (2 ≤ list.length →
        (pick_random rand calls (list.length : Int) list).1 ≠ some (list.length - 1)) := by
  have hlen : 0 < list.length := List.length_pos.mpr h
  have hne : ((list.length : Nat) : Int) ≠ 0 := by omega
  have h0 : 0 ≤ Int.tmod (rand calls) (list.length : Int) :=
    Int.tmod_nonneg _ (Int.ofNat_nonneg _)
  have h1 : Int.tmod (rand calls) (list.length : Int) < list.length :=
    Int.tmod_lt_of_pos _ (by omega)
  have hk : (max (Int.tmod (rand calls) (list.length : Int) - 1) 0).toNat
      = (Int.tmod (rand calls) (list.length : Int) - 1).toNat := by
    omega
  have hlt : (max (Int.tmod (rand calls) (list.length : Int) - 1) 0).toNat < list.length := by
    omega
  have hpick : pick_random rand calls (list.length : Int) list
      = (some (max (Int.tmod (rand calls) (list.length : Int) - 1) 0).toNat, calls + 1) := by
    rw [hk]
    simp only [pick_random, hne, if_false]
    rw [iterate_next_eq list _ (by omega)]
  refine ⟨h0, h1, hpick, hlt, ⟨list[(max (Int.tmod (rand calls) (list.length : Int) - 1)
    0).toNat], List.getElem?_eq_getElem hlt⟩, ?_, ?_⟩
  · intro hr
    rw [hpick]
    show some _ = some 0
    congr 1
    omega
  · intro h2
    rw [hpick]
    show some _ ≠ some _
    intro he
    have := Option.some.inj he
    omega

theorem pick_random_offset_witness :
    pick_random (fun _ => 2) 0 3
        [create_node 1 1 MC_OPER_ADD 2 MC_FORMAT_ANS_LAST,
         create_node 1 2 MC_OPER_ADD 3 MC_FORMAT_ANS_LAST,
         create_node 2 2 MC_OPER_ADD 4 MC_FORMAT_ANS_LAST]
      = (some 1, 1) :=
  (pick_random_offset (fun _ => 2) 0
    [create_node 1 1 MC_OPER_ADD 2 MC_FORMAT_ANS_LAST,
     create_node 1 2 MC_OPER_ADD 3 MC_FORMAT_ANS_LAST,
     create_node 2 2 MC_OPER_ADD 4 MC_FORMAT_ANS_LAST] (by simp)).2.2.1

/-! ## Division keeps the questions with a zero operand -/

theorem mem_loop_values (lo hi i : Int) (h1 : lo ≤ i) (h2 : i ≤ hi) : i ∈ loop_values lo hi := by
  unfold loop_values
  rw [List.mem_map]
  refine ⟨(i - lo).toNat, ?_, ?_⟩
  · rw [List.mem_range]
    omega
  · omega

/-- C39. Division is enabled with the middle format, at least one copy, a
quotient range containing 0 and a divisor range containing `d ≠ 0`, the
triple `(0, d, 0)` passes `validate_question` and the cap is not reached.
Then the generated list holds the division question `0 / ? = 0` with
`num1 = 0`, `num2 = d`, `num3 = 0` in the middle format, while it holds no
multiplication question in the middle format with `num1 = 0`. -/
theorem division_keeps_zero_operand (o : MC_Options) (rand : Nat → Nat) (d : Int)
    (hdiv : o.division_allowed ≠ 0) (hmid : o.format_answer_middle ≠ 0)
    (hcopies : 1 ≤ o.question_copies)
    (hq1 : o.min_quotient ≤ 0) (hq2 : 0 ≤ o.max_quotient)
    (hd1 : o.min_divisor ≤ d) (hd2 : d ≤ o.max_divisor) (hd : d ≠ 0)
    (hv : validate_question o 0 d 0 ≠ 0)
    (hcap : ((all_questions o).length : Int) ≤ o.max_questions) :
    create_node 0 d MC_OPER_DIV 0 MC_FORMAT_ANS_MIDDLE ∈ generate_list o rand
    ∧ (∀ q ∈ generate_list o rand, q.operation = MC_OPER_MULT →
        q.format = MC_FORMAT_ANS_MIDDLE → q.num1 ≠ 0) := by
  constructor
  · rw [(generate_list_perm o rand).mem_iff, List.take_of_length_le (by omega)]
    simp only [all_questions, List.mem_flatMap]
    refine ⟨{ n1 := 0, n2 := d, op := MC_OPER_DIV, ans := 0 }, ?_, ?_⟩
    · simp only [validated_triples, List.mem_append]
      right
      unfold division_triples
      rw [if_pos hdiv]
      simp only [List.mem_flatMap]
      refine ⟨0, mem_loop_values _ _ 0 hq1 hq2, d, mem_loop_values _ _ d hd1 hd2, ?_⟩
      have hz : (0 : Int) * d = 0 := by ring
      rw [hz, if_pos ⟨hd, hv⟩]
      simp
    · simp only [copy_cards, List.mem_flatMap, List.mem_range]
      refine ⟨0, by omega, ?_⟩
      simp only [triple_cards, format_cards, List.mem_append]
      left
      right
      simp [hmid]
  · intro q hq hop hf
    obtain ⟨t, _, hmem⟩ := mem_generate_list o rand q hq
    obtain ⟨e1, _, _, e4, e5, _⟩ := mem_triple_cards o t q hmem
    rw [e1]
    exact e5 hf (e4 ▸ hop)

theorem division_keeps_zero_operand_witness :
    create_node 0 2 MC_OPER_DIV 0 MC_FORMAT_ANS_MIDDLE ∈ generate_list mixed_options (fun _ => 0) :=
  (division_keeps_zero_operand mixed_options (fun _ => 0) 2 (by decide) (by decide) (by decide)
    (by decide) (by decide) (by decide) (by decide) (by decide) (by decide) (by decide)).1

/-! ## No negative bound while negatives are not allowed -/

theorem sane_value_nonneg (global_max : Int) (o : MC_Options) (v : Int)
    (h : o.allow_negatives = 0) : 0 ≤ sane_value global_max (some o) v := by
  unfold sane_value
  simp only
  split_ifs <;> omega

theorem clear_bound_eq_max (b : Int) : (if b < 0 then 0 else b) = max b 0 := by
  split_ifs <;> omega

theorem clear_negatives_nonneg (o : MC_Options) : bounds_nonneg (clear_negatives o) := by
  unfold bounds_nonneg clear_negatives
  simp only
  refine ⟨?_, ?_, ?_, ?_, ?_, ?_, ?_, ?_, ?_, ?_, ?_, ?_, ?_, ?_, ?_, ?_⟩ <;> split_ifs <;> omega

theorem apply_setter_invariant (global_max : Int) (c : MC_Setter) (o : MC_Options)
    (h : o.allow_negatives = 0 → bounds_nonneg o) :
    ∃ o2, apply_setter global_max c (some o) = some o2
      ∧ (o2.allow_negatives = 0 → bounds_nonneg o2) := by
  have hbound : ∀ o2 : MC_Options, o2.allow_negatives = o.allow_negatives →
      (o2.min_augend = o.min_augend ∨ (o.allow_negatives = 0 → 0 ≤ o2.min_augend)) →
      (o2.max_augend = o.max_augend ∨ (o.allow_negatives = 0 → 0 ≤ o2.max_augend)) →
      (o2.min_addend = o.min_addend ∨ (o.allow_negatives = 0 → 0 ≤ o2.min_addend)) →
      (o2.max_addend = o.max_addend ∨ (o.allow_negatives = 0 → 0 ≤ o2.max_addend)) →
      (o2.min_minuend = o.min_minuend ∨ (o.allow_negatives = 0 → 0 ≤ o2.min_minuend)) →
      (o2.max_minuend = o.max_minuend ∨ (o.allow_negatives = 0 → 0 ≤ o2.max_minuend)) →
      (o2.min_subtrahend = o.min_subtrahend ∨ (o.allow_negatives = 0 → 0 ≤ o2.min_subtrahend)) →
      (o2.max_subtrahend = o.max_subtrahend ∨ (o.allow_negatives = 0 → 0 ≤ o2.max_subtrahend)) →
      (o2.min_multiplier = o.min_multiplier ∨ (o.allow_negatives = 0 → 0 ≤ o2.min_multiplier)) →
      (o2.max_multiplier = o.max_multiplier ∨ (o.allow_negatives = 0 → 0 ≤ o2.max_multiplier)) →
      (o2.min_multiplicand = o.min_multiplicand ∨ (o.allow_negatives = 0 → 0 ≤ o2.min_multiplicand)) →
      (o2.max_multiplicand = o.max_multiplicand ∨ (o.allow_negatives = 0 → 0 ≤ o2.max_multiplicand)) →
      (o2.min_divisor = o.min_divisor ∨ (o.allow_negatives = 0 → 0 ≤ o2.min_divisor)) →
      (o2.max_divisor = o.max_divisor ∨ (o.allow_negatives = 0 → 0 ≤ o2.max_divisor)) →
      (o2.min_quotient = o.min_quotient ∨ (o.allow_negatives = 0 → 0 ≤ o2.min_quotient)) →
      (o2.max_quotient = o.max_quotient ∨ (o.allow_negatives = 0 → 0 ≤ o2.max_quotient)) →
      (o2.allow_negatives = 0 → bounds_nonneg o2) := by
    intro o2 ha e1 e2 e3 e4 e5 e6 e7 e8 e9 e10 e11 e12 e13 e14 e15 e16 h0
    have h1 : o.allow_negatives = 0 := ha ▸ h0
    obtain ⟨b1, b2, b3, b4, b5, b6, b7, b8, b9, b10, b11, b12, b13, b14, b15, b16⟩ := h (ha ▸ h0)
    unfold bounds_nonneg
    refine ⟨?_, ?_, ?_, ?_, ?_, ?_, ?_, ?_, ?_, ?_, ?_, ?_, ?_, ?_, ?_, ?_⟩
    · rcases e1 with e | e
      · rw [e]; exact b1
      · exact e h1
    · rcases e2 with e | e
      · rw [e]; exact b2
      · exact e h1
    · rcases e3 with e | e
      · rw [e]; exact b3
      · exact e h1
    · rcases e4 with e | e
      · rw [e]; exact b4
      · exact e h1
    · rcases e5 with e | e
      · rw [e]; exact b5
      · exact e h1
    · rcases e6 with e | e
      · rw [e]; exact b6
      · exact e h1
    · rcases e7 with e | e
      · rw [e]; exact b7
      · exact e h1
    · rcases e8 with e | e
      · rw [e]; exact b8
      · exact e h1
    · rcases e9 with e | e
      · rw [e]; exact b9
      · exact e h1
    · rcases e10 with e | e
      · rw [e]; exact b10
      · exact e h1
    · rcases e11 with e | e
      · rw [e]; exact b11
      · exact e h1
    · rcases e12 with e | e
      · rw [e]; exact b12
      · exact e h1
    · rcases e13 with e | e
      · rw [e]; exact b13
      · exact e h1
    · rcases e14 with e | e
      · rw [e]; exact b14
      · exact e h1
    · rcases e15 with e | e
      · rw [e]; exact b15
      · exact e h1
    · rcases e16 with e | e
      · rw [e]; exact b16
      · exact e h1
  cases c with
  | MaxQuestions v =>
    refine ⟨MC_SetMaxQuestions o v, rfl, ?_⟩
    unfold MC_SetMaxQuestions
    split
    · exact h
    · exact h
  | AllowNegatives v =>
    by_cases hv : v = 0
    · subst hv
      exact ⟨_, rfl, fun _ => clear_negatives_nonneg _⟩
    · refine ⟨{ o with allow_negatives := int_to_bool v }, ?_, ?_⟩
      · simp only [apply_setter, MC_SetAllowNegatives, hv, if_false]
      · intro h0
        have h1 : int_to_bool v = 0 := h0
        simp [int_to_bool, hv] at h1
  | MaxAnswer v => exact ⟨_, rfl, h⟩
  | CopiesRepeatedWrongs v => exact ⟨_, rfl, h⟩
  | QuestionCopies v => exact ⟨_, rfl, h⟩
  | PlayThroughList v => exact ⟨_, rfl, h⟩
  | RepeatWrongs v => exact ⟨_, rfl, h⟩
  | FormatAnswerLast v => exact ⟨_, rfl, h⟩
  | FormatAnswerFirst v => exact ⟨_, rfl, h⟩
  | FormatAnswerMiddle v => exact ⟨_, rfl, h⟩
  | Randomize v => exact ⟨_, rfl, h⟩
  | AddAllowed v => exact ⟨_, rfl, h⟩
  | SubAllowed v => exact ⟨_, rfl, h⟩
  | MultAllowed v => exact ⟨_, rfl, h⟩
  | DivAllowed v => exact ⟨_, rfl, h⟩
  | _ v =>
    refine ⟨_, rfl, ?_⟩
    apply hbound
    all_goals
      first
      | exact rfl
      | exact Or.inl rfl
      | exact Or.inr (sane_value_nonneg global_max o v)

theorem apply_setters_invariant (global_max : Int) (calls : List MC_Setter) :
    ∀ o : MC_Options, (o.allow_negatives = 0 → bounds_nonneg o) →
      ∃ o2, apply_setters global_max calls (some o) = some o2
        ∧ (o2.allow_negatives = 0 → bounds_nonneg o2) := by
  induction calls with
  | nil => intro o h; exact ⟨o, rfl, h⟩
  | cons c rest ih =>
    intro o h
    obtain ⟨o1, h1, hinv⟩ := apply_setter_invariant global_max c o h
    obtain ⟨o2, h2, hinv2⟩ := ih o1 hinv
    refine ⟨o2, ?_, hinv2⟩
    unfold apply_setters at h2 ⊢
    rw [List.foldl_cons, h1]
    exact h2

/-- C33. From a state that is not yet initialized, `MC_Initialize` followed by
any sequence of setter calls leaves options in which, if `allow_negatives`
is 0, all sixteen operand range bounds are at least 0.  On any options
`MC_SetAllowNegatives(0)` stores 0 in the flag and turns every bound `b` into
`max b 0`: a negative bound becomes 0 and a non-negative bound stays. -/
theorem no_negative_bounds (global_max : Int) (defaults : MC_Options) (s : MC_State)
    (calls : List MC_Setter) (hs : s.initialized = 0) :
    (∃ o, apply_setters global_max calls (MC_Initialize defaults s).2.math_opts = some o
      ∧ (o.allow_negatives = 0 → bounds_nonneg o))
    ∧ (∀ o : MC_Options, ∃ o2, MC_SetAllowNegatives (some o) 0 = some o2
        ∧ o2.allow_negatives = 0
        ∧ o2.min_augend = max o.min_augend 0
        ∧ o2.max_augend = max o.max_augend 0
        ∧ o2.min_addend = max o.min_addend 0
        ∧ o2.max_addend = max o.max_addend 0
        ∧ o2.min_minuend = max o.min_minuend 0
        ∧ o2.max_minuend = max o.max_minuend 0
        ∧ o2.min_subtrahend = max o.min_subtrahend 0
        ∧ o2.max_subtrahend = max o.max_subtrahend 0
        ∧ o2.min_multiplier = max o.min_multiplier 0
        ∧ o2.max_multiplier = max o.max_multiplier 0
        ∧ o2.min_multiplicand = max o.min_multiplicand 0
        ∧ o2.max_multiplicand = max o.max_multiplicand 0
        ∧ o2.min_divisor = max o.min_divisor 0
        ∧ o2.max_divisor = max o.max_divisor 0
        ∧ o2.min_quotient = max o.min_quotient 0
        ∧ o2.max_quotient = max o.max_quotient 0) := by
  constructor
  · have hinit : (MC_Initialize defaults s).2.math_opts
        = some (if defaults.allow_negatives = 0 then clear_negatives defaults
            else defaults) := by
      simp [MC_Initialize, hs]
    rw [hinit]
    apply apply_setters_invariant
    intro h0
    by_cases hd : defaults.allow_negatives = 0
    · rw [if_pos hd]
      exact clear_negatives_nonneg _
    · rw [if_neg hd] at h0
      exact absurd h0 hd
  · intro o
    exact ⟨clear_negatives { o with allow_negatives := 0 }, rfl, rfl, clear_bound_eq_max _, clear_bound_eq_max _, clear_bound_eq_max _, clear_bound_eq_max _, clear_bound_eq_max _, clear_bound_eq_max _, clear_bound_eq_max _, clear_bound_eq_max _, clear_bound_eq_max _, clear_bound_eq_max _, clear_bound_eq_max _, clear_bound_eq_max _, clear_bound_eq_max _, clear_bound_eq_max _, clear_bound_eq_max _, clear_bound_eq_max _⟩

theorem no_negative_bounds_witness :
    ∃ o, apply_setters 999
        [MC_Setter.AllowNegatives 1, MC_Setter.AddMinAugend (-5), MC_Setter.DivMin (-3),
          MC_Setter.AllowNegatives 0, MC_Setter.SubMax (-7)]
        (MC_Initialize negative_max_options fresh_state).2.math_opts = some o
      ∧ (o.allow_negatives = 0 → bounds_nonneg o) :=
  (no_negative_bounds 999 negative_max_options fresh_state
    [MC_Setter.AllowNegatives 1, MC_Setter.AddMinAugend (-5), MC_Setter.DivMin (-3),
      MC_Setter.AllowNegatives 0, MC_Setter.SubMax (-7)] rfl).1

/-! ## Putting a question back keeps the first pending question -/

theorem insert_pick_cons (rand : Nat → Nat) (calls : Nat) (first : MC_FlashCard)
    (rest : List MC_FlashCard) (q : MC_FlashCard) :
    ∃ rest2,
      insert_node (first :: rest)
          (pick_random rand calls ((first :: rest).length : Int) (first :: rest)).1 (some q)
        = first :: rest2
      ∧ rest2.length = rest.length + 1 := by
  obtain ⟨k, hk, hpick⟩ := pick_random_pos rand calls (first :: rest) (by simp)
  rw [hpick]
  refine ⟨rest.take k ++ q :: rest.drop k, ?_, ?_⟩
  · simp [insert_node]
  · exact take_insert_drop_length rest k q

theorem reinsert_rounds_cons (rand : Nat → Nat) (q first : MC_FlashCard)
    (rest : List MC_FlashCard) (calls0 : Nat) (n : Nat) :
    ∃ rest2 calls,
      (List.range n).foldl (fun acc _ => reinsert_round rand (some q) acc)
          (first :: rest, ((first :: rest).length : Int), calls0)
        = (first :: rest2, ((first :: rest).length : Int) + n, calls)
      ∧ rest2.length = rest.length + n := by
  induction n with
  | zero => exact ⟨rest, calls0, by simp, by simp⟩
  | succ n ih =>
    obtain ⟨l, calls, heq, hl⟩ := ih
    have hlen : (((first :: rest).length : Nat) : Int) + n = (((first :: l).length : Nat) : Int) := by
      simp only [List.length_cons]
      push_cast
      omega
    obtain ⟨rest2, hins, hr2⟩ := insert_pick_cons rand calls first l q
    refine ⟨rest2, (pick_random rand calls ((first :: l).length : Int) (first :: l)).2, ?_, ?_⟩
    · rw [List.range_succ, List.foldl_append, heq]
      simp only [List.foldl_cons, List.foldl_nil, reinsert_round, create_node_from_card]
      rw [hlen, hins]
      have hcast : (((first :: l).length : Nat) : Int) + 1
          = (((first :: rest).length : Nat) : Int) + ((n + 1 : Nat) : Int) := by
        simp only [List.length_cons]
        push_cast
        omega
      rw [hcast]
    · omega

theorem MC_AnsweredCorrectly_cons (rand : Nat → Nat) (q : MC_FlashCard) (s : MC_State)
    (o : MC_Options) (first : MC_FlashCard) (rest : List MC_FlashCard)
    (ho : s.math_opts = some o) (hq : s.question_list = ListVar.live (first :: rest))
    (hlen : s.quest_list_length = (first :: rest).length) (hp : o.play_through_list = 0) :
    ∃ rest2,
      MC_AnsweredCorrectly rand (some q) s =
        some (1, { s with
          answered_correctly := s.answered_correctly + 1,
          questions_pending := s.questions_pending - 1,
          question_list := ListVar.live (first :: rest2),
          quest_list_length := s.quest_list_length + 1 }) := by
  obtain ⟨rest2, hins, _⟩ := insert_pick_cons rand 0 first rest q
  refine ⟨rest2, ?_⟩
  unfold MC_AnsweredCorrectly
  simp only [ho, hq, hp, if_true, hlen, create_node_from_card]
  rw [← hins]

/-- C37. In a state with options, a valid pending list `first :: rest` and
`quest_list_length` equal to its length, `MC_AnsweredCorrectly` with
`play_through_list` off, and `MC_AnsweredIncorrectly` with `repeat_wrongs` on
and a valid list of missed questions, return 1 and leave a pending list that
still begins with `first`, for every random source and every card. -/
theorem requeue_keeps_first (rand : Nat → Nat) (q : MC_FlashCard) (s : MC_State)
    (o : MC_Options) (first : MC_FlashCard) (rest : List MC_FlashCard)
    (ho : s.math_opts = some o) (hq : s.question_list = ListVar.live (first :: rest))
    (hlen : s.quest_list_length = (first :: rest).length) :
    (o.play_through_list = 0 →
      ∃ s2 rest2, MC_AnsweredCorrectly rand (some q) s = some (1, s2)
        ∧ s2.question_list = ListVar.live (first :: rest2))
    ∧ (o.repeat_wrongs ≠ 0 → ∀ missed, s.wrong_quests = ListVar.live missed →
      ∃ s2 rest2, MC_AnsweredIncorrectly rand (some q) s = some (1, s2)
        ∧ s2.question_list = ListVar.live (first :: rest2)) := by
  constructor
  · intro hp
    obtain ⟨rest2, heq⟩ := MC_AnsweredCorrectly_cons rand q s o first rest ho hq hlen hp
    exact ⟨_, rest2, heq, rfl⟩
  · intro hr missed hw
    obtain ⟨rest2, calls, hfold, _⟩ :=
      reinsert_rounds_cons rand q first rest 0 o.copies_repeated_wrongs.toNat
    refine ⟨_, rest2, MC_AnsweredIncorrectly_eq rand q s o (first :: rest) missed ho hq hw, ?_⟩
    show ListVar.live (if o.repeat_wrongs ≠ 0 then _ else _) = _
    rw [if_pos hr, hlen, hfold]

theorem requeue_keeps_first_witness :
    ∃ s2 rest2, MC_AnsweredCorrectly (fun _ => 2)
        (some (create_node 1 1 MC_OPER_ADD 2 MC_FORMAT_ANS_LAST))
        { sampling_state with
          question_list := ListVar.live
            [create_node 1 2 MC_OPER_ADD 3 MC_FORMAT_ANS_LAST,
             create_node 2 1 MC_OPER_ADD 3 MC_FORMAT_ANS_LAST,
             create_node 2 2 MC_OPER_ADD 4 MC_FORMAT_ANS_LAST],
          quest_list_length := 3 } = some (1, s2)
      ∧ s2.question_list
          = ListVar.live (create_node 1 2 MC_OPER_ADD 3 MC_FORMAT_ANS_LAST :: rest2) :=
  (requeue_keeps_first (fun _ => 2) (create_node 1 1 MC_OPER_ADD 2 MC_FORMAT_ANS_LAST)
    { sampling_state with
      question_list := ListVar.live
        [create_node 1 2 MC_OPER_ADD 3 MC_FORMAT_ANS_LAST,
         create_node 2 1 MC_OPER_ADD 3 MC_FORMAT_ANS_LAST,
         create_node 2 2 MC_OPER_ADD 4 MC_FORMAT_ANS_LAST],
      quest_list_length := 3 }
    sampling_options (create_node 1 2 MC_OPER_ADD 3 MC_FORMAT_ANS_LAST)
    [create_node 2 1 MC_OPER_ADD 3 MC_FORMAT_ANS_LAST,
     create_node 2 2 MC_OPER_ADD 4 MC_FORMAT_ANS_LAST] rfl rfl rfl).1 (by decide)

/-! ## The mission is never accomplished while questions are put back -/

theorem run_call_unanswered (o : MC_Options) (s s2 : MC_State) (c : MC_Call)
    (ho : s.math_opts = some o) (hp : o.play_through_list = 0) (hr : o.repeat_wrongs ≠ 0)
    (hc : 1 ≤ o.copies_repeated_wrongs) (hrun : run_call c s = some s2) :
    s2.math_opts = some o ∧ s.unanswered ≤ s2.unanswered
    ∧ s2.starting_length = s.starting_length := by
  cases c with
  | next fc =>
    cases hql : s.question_list with
    | dangling => simp [run_call, MC_NextQuestion, hql] at hrun
    | live l =>
      cases l with
      | nil =>
        simp only [run_call, MC_NextQuestion_nil fc s hql, Option.map_some',
          Option.some.injEq] at hrun
        subst hrun
        exact ⟨ho, le_refl _, rfl⟩
      | cons first rest =>
        simp only [run_call, MC_NextQuestion_eq fc first rest s hql, Option.map_some',
          Option.some.injEq] at hrun
        subst hrun
        exact ⟨ho, le_refl _, rfl⟩
  | correct rand fc =>
    cases hql : s.question_list with
    | dangling => simp [run_call, MC_AnsweredCorrectly, ho, hp, hql] at hrun
    | live l =>
      simp only [run_call, MC_AnsweredCorrectly, ho, hp, hql, if_true, Option.map_some',
        Option.some.injEq] at hrun
      subst hrun
      exact ⟨rfl, le_refl _, rfl⟩
  | incorrect rand fc =>
    cases hwq : s.wrong_quests with
    | dangling => simp [run_call, MC_AnsweredIncorrectly_dangling rand fc s hwq] at hrun
    | live m =>
      cases hql : s.question_list with
      | dangling =>
        have hn : o.copies_repeated_wrongs.toNat ≠ 0 := by omega
        exfalso
        unfold run_call MC_AnsweredIncorrectly at hrun
        by_cases hin : already_in_list m (create_node_from_card (some fc)) = 0 <;>
          simp [hwq, ho, hr, hql, hn, hin] at hrun
      | live l =>
        simp only [run_call, MC_AnsweredIncorrectly_eq rand fc s o l m ho hql hwq,
          Option.map_some', Option.some.injEq] at hrun
        subst hrun
        refine ⟨ho, ?_, rfl⟩
        show s.unanswered ≤ (if o.repeat_wrongs ≠ 0 then _ else _)
        rw [if_pos hr]
        omega

theorem run_calls_unanswered (o : MC_Options) (calls : List MC_Call)
    (hp : o.play_through_list = 0) (hr : o.repeat_wrongs ≠ 0)
    (hc : 1 ≤ o.copies_repeated_wrongs) :
    ∀ (s s2 : MC_State), s.math_opts = some o → run_calls calls s = some s2 →
      s2.math_opts = some o ∧ s.unanswered ≤ s2.unanswered
      ∧ s2.starting_length = s.starting_length := by
  induction calls with
  | nil =>
    intro s s2 ho hrun
    simp only [run_calls, Option.some.injEq] at hrun
    subst hrun
    exact ⟨ho, le_refl _, rfl⟩
  | cons c rest ih =>
    intro s s2 ho hrun
    simp only [run_calls] at hrun
    cases h1 : run_call c s with
    | none => simp [h1] at hrun
    | some s1 =>
      rw [h1] at hrun
      simp only [Option.some_bind] at hrun
      obtain ⟨a1, a2, a3⟩ := run_call_unanswered o s s1 c ho hp hr hc h1
      obtain ⟨b1, b2, b3⟩ := ih s1 s2 a1 hrun
      exact ⟨b1, le_trans a2 b2, b3.trans a3⟩

/-- C38. The options have `play_through_list` off, `repeat_wrongs` on and
`copies_repeated_wrongs ≥ 1`.  Then no call of `MC_NextQuestion`,
`MC_AnsweredCorrectly` or `MC_AnsweredIncorrectly` with a valid card that has
a defined result lowers `unanswered`, and after a `MC_StartGame` that returns
1, from an initialized state with valid lists, followed by any sequence of
such calls, `unanswered` is at least 1 and `MC_MissionAccomplished` returns
0.  Every such sequence has a defined result when no missed question was left
behind at the start. -/
theorem sampling_never_accomplished (defaults : MC_Options) (rand : Nat → Nat)
    (calls : List MC_Call) (s : MC_State) (o : MC_Options)
    (pending missed : List MC_FlashCard)
    (ho : s.math_opts = some o) (hi : s.initialized ≠ 0)
    (hq : s.question_list = ListVar.live pending) (hw : s.wrong_quests = ListVar.live missed)
    (hp : o.play_through_list = 0) (hr : o.repeat_wrongs ≠ 0)
    (hc : 1 ≤ o.copies_repeated_wrongs) :
    (∀ (c : MC_Call) (t t2 : MC_State), t.math_opts = some o → run_call c t = some t2 →
      t.unanswered ≤ t2.unanswered)
    ∧ (∀ s2, start_and_run false defaults rand calls s = some (1, s2) →
        1 ≤ s2.unanswered ∧ MC_MissionAccomplished s2 = some 0)
    ∧ (missed = [] → ∃ ret s2, start_and_run false defaults rand calls s = some (ret, s2)) := by
  refine ⟨fun c t t2 hto hrun => (run_call_unanswered o t t2 c hto hp hr hc hrun).2.1, ?_, ?_⟩
  · intro s2 hrun
    obtain ⟨r, hr0, hr1, hr2, hr3, hr4⟩ : ∃ r : Int × MC_State,
        MC_StartGame defaults rand s = some r
        ∧ r.1 = (if generate_list o rand ≠ [] then 1 else 0)
        ∧ r.2.math_opts = some o
        ∧ r.2.unanswered = ((generate_list o rand).length : Int)
        ∧ r.2.starting_length = ((generate_list o rand).length : Int) :=
      ⟨_, MC_StartGame_eq defaults rand s o pending missed ho hi hq hw, rfl, ho, rfl, rfl⟩
    simp only [start_and_run, Bool.false_eq_true, if_false, hr0, Option.some_bind] at hrun
    cases h2 : run_calls calls r.2 with
    | none =>
      rw [h2] at hrun
      simp at hrun
    | some t =>
      rw [h2] at hrun
      simp only [Option.map_some', Option.some.injEq, Prod.mk.injEq] at hrun
      obtain ⟨hret, ht⟩ := hrun
      subst ht
      have hne : generate_list o rand ≠ [] := by
        intro he
        rw [hr1, if_neg (by simpa using he)] at hret
        exact absurd hret (by decide)
      have hpos : 0 < (generate_list o rand).length := List.length_pos.mpr hne
      obtain ⟨b1, b2, b3⟩ := run_calls_unanswered o calls hp hr hc r.2 t hr2 h2
      have hu : (1 : Int) ≤ t.unanswered := by
        refine le_trans ?_ b2
        rw [hr3]
        omega
      have hsl : t.starting_length ≠ 0 := by
        rw [b3, hr4]
        omega
      refine ⟨hu, ?_⟩
      unfold MC_MissionAccomplished
      rw [if_pos hsl, b1]
      simp only [Option.some.injEq]
      rw [if_neg]
      intro hcon
      omega
  · intro hm
    exact (start_and_run_invariant false defaults rand calls s o pending missed ho hi hq hw).2
      (Or.inr hm)

theorem sampling_never_accomplished_witness :
    (start_and_run false sampling_options (fun _ => 0) sample_calls sampling_state).map
        (fun r => (r.1, MC_MissionAccomplished r.2)) = some (1, some 0) := by
  obtain ⟨_, h2, h3⟩ := sampling_never_accomplished sampling_options (fun _ => 0) sample_calls
    sampling_state sampling_options [] [] rfl (by decide) rfl rfl (by decide) (by decide)
    (by decide)
  obtain ⟨ret, s2, hrun⟩ := h3 rfl
  have hret : ret = 1 := by
    have h := congrArg (Option.map (fun r => r.1)) hrun
    have hl : (start_and_run false sampling_options (fun _ => 0) sample_calls
        sampling_state).map (fun r => r.1) = some 1 := by decide
    rw [hl] at h
    simp only [Option.map_some', Option.some.injEq] at h
    exact h.symm
  subst hret
  rw [hrun]
  simp only [Option.map_some', (h2 s2 hrun).2]

end MathCards
